import Mathlib

/-!
# solvere: a recursive, DNSSEC-validating DNS resolver

A shallow embedding of `resolver.go` and `dnssec.go` (package `solvere`).

* Go `string` is embedded as `String`; `strings.HasSuffix` and
  `strings.TrimSuffix` act on the character list.
* `uint16`, `uint32` and `int` values that are only compared are `Nat`.
* A `dns.RR` is a header together with the dynamic Go type of the record
  (`RData`); `rr.Header().Rrtype` and the dynamic type are independent, as in
  the library, so a failed type assertion is a run-time panic (`Outcome.panic`).
* Everything outside the package (transport, cache implementation, the
  pseudo-random generator, map iteration order, the cryptographic codec and the
  NSEC3 predicates) is a field of `Env`; the external world is threaded as an
  abstract state `σ`.
* A Go `error` result is `Option GoError`, with `none` for `nil`.
* The file `cache.go` is not among the sources: `BasicCache` and `minTTL` follow
  section 4.1 of the specification and the tests of `cache_test.go`.
-/

set_option linter.dupNamespace false

namespace Solvere

/-! ## Constants of `github.com/miekg/dns` used by the package -/

abbrev TypeA : Nat := 1
abbrev TypeNS : Nat := 2
abbrev TypeCNAME : Nat := 5
abbrev TypeAAAA : Nat := 28
abbrev TypeDNAME : Nat := 39
abbrev TypeOPT : Nat := 41
abbrev TypeDS : Nat := 43
abbrev TypeRRSIG : Nat := 46
abbrev TypeDNSKEY : Nat := 48
abbrev TypeNSEC3 : Nat := 50

abbrev RcodeSuccess : Nat := 0
abbrev RcodeNameError : Nat := 3

/-- MaxReferrals is the maximum number of referral responses before failing. -/
abbrev MaxReferrals : Nat := 10

/-! ## Strings -/

/-- Go `strings.HasSuffix(s, suffix)`. -/
def HasSuffix (s suffix : String) : Bool :=
  suffix.data.isSuffixOf s.data

/-- Go `strings.TrimSuffix(s, suffix)`. -/
def TrimSuffix (s suffix : String) : String :=
  if HasSuffix s suffix then String.mk (s.data.take (s.data.length - suffix.data.length)) else s

/-! ## Errors -/

/-- The error values of the package, and the errors produced outside it. -/
inductive GoError where
  | ErrTooManyReferrals
  | ErrNoNSAuthorties
  | ErrNoAuthorityAddress
  | ErrOutOfBailiwick
  | ErrNoDNSKEY
  | ErrMissingKSK
  | ErrFailedToConvertKSK
  | ErrMismatchingDS
  | ErrNoSignatures
  | ErrMissingDNSKEY
  | ErrInvalidSignaturePeriod
  | ErrBadAnswer
  | ErrMissingSigned
  /-- The library sentinel `dns.ErrTruncated`. -/
  | ErrTruncated
  /-- The value of `errors.New("Alias loop detected")` in `Lookup`. -/
  | aliasLoop
  /-- The value of `fmt.Errorf("Authority lookup failed for %s: %s", name, rcode)` in
  `lookupNS`, with `rcode` the text `dns.RcodeToString[r.Rcode]`. -/
  | authorityLookupFailed (name : String) (rcode : String)
  /-- An error produced by the transport, the codec or an NSEC3 predicate. -/
  | external (msg : String)
  deriving DecidableEq, Repr

/-- The method `Error()` of an error value. -/
def GoError.Error : GoError → String
  | .ErrTooManyReferrals => "solvere: Too many referrals"
  | .ErrNoNSAuthorties => "solvere: No NS authority records found"
  | .ErrNoAuthorityAddress => "solvere: No A/AAAA records found for the chosen authority"
  | .ErrOutOfBailiwick => "Out of bailiwick record in message"
  | .ErrNoDNSKEY => "solvere: No DNSKEY records found"
  | .ErrMissingKSK => "solvere: No KSK DNSKEY found for DS records"
  | .ErrFailedToConvertKSK => "solvere: Failed to convert KSK DNSKEY record to DS record"
  | .ErrMismatchingDS => "solvere: KSK DNSKEY record does not match DS record from parent zone"
  | .ErrNoSignatures => "solvere: No RRSIG records for zone that should be signed"
  | .ErrMissingDNSKEY => "solvere: No matching DNSKEY found for RRSIG records"
  | .ErrInvalidSignaturePeriod => "solvere: Incorrect signature validity period"
  | .ErrBadAnswer => "solvere: Response contained a non-zero RCODE"
  | .ErrMissingSigned => "solvere: Signed records are missing"
  | .ErrTruncated => "dns: failed to unpack truncated message"
  | .aliasLoop => "Alias loop detected"
  | .authorityLookupFailed name rcode =>
      "Authority lookup failed for " ++ name ++ ": " ++ rcode
  | .external msg => msg

/-- How a call ends: it returns, it panics (failed type assertion, nil
dereference, `Intn` of a non-positive bound), or it is still running when the
fuel of the embedding is used up. -/
inductive Outcome (α : Type) where
  | ret (a : α)
  | panic
  | timeout
  deriving DecidableEq, Repr

/-! ## Data model -/

/-- The fields of `dns.RR_Header` the package reads. -/
structure RR_Header where
  Name : String
  Rrtype : Nat
  Ttl : Nat
  deriving DecidableEq, Repr

/-- The fields of `dns.DS` after the header. -/
structure DS where
  KeyTag : Nat
  Algorithm : Nat
  DigestType : Nat
  Digest : String
  deriving DecidableEq, Repr

/-- The fields of `dns.DNSKEY` after the header. -/
structure DNSKEY where
  Flags : Nat
  Protocol : Nat
  Algorithm : Nat
  PublicKey : String
  deriving DecidableEq, Repr

/-- The fields of `dns.RRSIG` after the header. -/
structure RRSIG where
  TypeCovered : Nat
  Algorithm : Nat
  Expiration : Nat
  Inception : Nat
  KeyTag : Nat
  SignerName : String
  Signature : String
  deriving DecidableEq, Repr

/-- The dynamic Go type of a `dns.RR`, with the fields the package reads.
Addresses are kept as the text `net.IP.String()` gives. -/
inductive RData where
  | A (a : String)
  | AAAA (aaaa : String)
  | NS (ns : String)
  | CNAME (target : String)
  | DNAME (target : String)
  | DS (ds : DS)
  | RRSIG (sig : RRSIG)
  | DNSKEY (key : DNSKEY)
  | other
  deriving DecidableEq, Repr

/-- A resource record `dns.RR`. -/
structure RR where
  Hdr : RR_Header
  data : RData
  deriving DecidableEq, Repr

/-- Question represents a DNS IN question. -/
structure Question where
  Name : String
  Type_ : Nat
  deriving DecidableEq, Repr

/-- Answer contains the answer to a iterative resolution performed by `Lookup`. -/
structure Answer where
  Answer : List RR
  Authority : List RR
  Additional : List RR
  Rcode : Nat
  Authenticated : Bool
  deriving DecidableEq, Repr

/-- Nameserver describes a upstream authoritative nameserver. -/
structure Nameserver where
  Name : String
  Addr : String
  Zone : String
  deriving DecidableEq, Repr

/-- The fields of `dns.Msg` the package reads. -/
structure Msg where
  Rcode : Nat
  Answer : List RR
  Ns : List RR
  Extra : List RR
  deriving DecidableEq, Repr

/-- The scalar fields of `LookupLog`. `Query` (a pointer to the caller's
question), `Latency` and `Started` are not embedded. -/
structure LogInfo where
  Rcode : Nat := 0
  CacheHit : Bool := false
  DNSSECValid : Bool := false
  Error : String := ""
  Truncated : Bool := false
  Referral : Bool := false
  NS : Option Nameserver := none
  deriving DecidableEq, Repr

/-- LookupLog describes how a resolution was performed. -/
inductive LookupLog where
  | mk (info : LogInfo) (Composites : List LookupLog)

/-- The scalar fields of a log. -/
def LookupLog.info : LookupLog → LogInfo
  | .mk i _ => i

/-- The field `Composites` of a log. -/
def LookupLog.Composites : LookupLog → List LookupLog
  | .mk _ c => c

/-- Assignment to scalar fields of a log. -/
def LookupLog.setInfo (l : LookupLog) (f : LogInfo → LogInfo) : LookupLog :=
  .mk (f l.info) l.Composites

/-- The statement `log.Composites = append(log.Composites, child)`. -/
def LookupLog.appendComposite (l : LookupLog) (child : LookupLog) : LookupLog :=
  .mk l.info (l.Composites ++ [child])

/-- Go `newLookupLog(q, ns)`. -/
def newLookupLog (ns : Option Nameserver) : LookupLog :=
  .mk { NS := ns } []

/-! ## The world outside the package -/

/-- The collaborators of a `RecursiveResolver`, over a world state `σ`. -/
structure Env (σ : Type) where
  useIPv6 : Bool
  useDNSSEC : Bool
  /-- Whether `rr.cache != nil`. -/
  hasCache : Bool
  rootNameservers : List Nameserver
  /-- The call `rr.cache.Get(q)`; `none` is a nil answer. -/
  cacheGet : σ → Question → Option Answer × σ
  /-- The call `rr.cache.Add(q, a, forever)`, direct or in a goroutine. -/
  cacheAdd : σ → Question → Answer → Bool → σ
  /-- The call `rr.c.Exchange(m, net.JoinHostPort(addr, dnsPort))` for the
  message built from the question: a response or an error. -/
  exchange : σ → Question → String → Except GoError Msg × σ
  /-- The raw draw behind `mrand.Intn`. -/
  rand : σ → Nat × σ
  /-- The draws that fix the iteration order of one `range` over a map. -/
  rangeSeed : σ → List Nat × σ
  /-- The method `dnskey.KeyTag()`. -/
  keyTag : DNSKEY → Nat
  /-- The method `ksk.ToDS(digestType)`; `none` is a nil result. -/
  toDS : DNSKEY → Nat → Option DS
  /-- The method `sig.Verify(k, rrset)`. -/
  verify : RRSIG → DNSKEY → List RR → Option GoError
  /-- The method `sig.ValidityPeriod(time.Time{})`. -/
  validityPeriod : RRSIG → Bool
  /-- The package function `verifyNameError(q, nsec)`, outside these sources. -/
  verifyNameError : Question → List RR → Option GoError
  /-- The package function `verifyNODATA(q, nsec)`, outside these sources. -/
  verifyNODATA : Question → List RR → Option GoError
  /-- The package function `verifyDelegation(zone, nsec)`, outside these sources. -/
  verifyDelegation : String → List RR → Option GoError
  /-- The library table `dns.RcodeToString`, read at an rcode; the empty string
  for an rcode without an entry. -/
  rcodeToString : Nat → String

/-- Go `mrand.Intn(n)`: panics when `n ≤ 0`, else a value below `n`. -/
def Intn {σ : Type} (env : Env σ) (n : Nat) (w : σ) : Outcome (Nat × σ) :=
  if n = 0 then .panic else
    let d := env.rand w
    .ret (d.1 % n, d.2)

/-! ## `resolver.go`: record-set helpers -/

/-- Go `filterRRSet(in, rrTypes...)`: the records whose header type is not listed. -/
def filterRRSet (inp : List RR) (rrTypes : List Nat) : List RR :=
  inp.filter fun r => !(rrTypes.contains r.Hdr.Rrtype)

/-- Go `extractRRSet(in, name, t...)`: the records whose header type is listed
and, when `name` is not empty, whose owner is `name`. -/
def extractRRSet (inp : List RR) (name : String) (t : List Nat) : List RR :=
  inp.filter fun r =>
    t.contains r.Hdr.Rrtype && !(name != "" && name != r.Hdr.Name)

/-- Go `extractAnswer(m, authenticated)`. -/
def extractAnswer (m : Msg) (authenticated : Bool) : Answer :=
  { Answer := m.Answer, Authority := m.Ns, Additional := m.Extra,
    Rcode := m.Rcode, Authenticated := authenticated }

/-- Go `allType(a, t)`. -/
def allType (a : List RR) (t : Nat) : Bool :=
  a.all fun rr => rr.Hdr.Rrtype == t

/-! ## `resolver.go`: `query` -/

/-- The bailiwick loop of `query`: some record of the answer or authority
section is not an OPT record and its owner does not end with the zone. -/
def outOfBailiwick (r : Msg) (zone : String) : Bool :=
  [r.Answer, r.Ns].any fun sec =>
    sec.any fun record =>
      record.Hdr.Rrtype != TypeOPT && !(HasSuffix record.Hdr.Name zone)

/-- The result triple `(*dns.Msg, *LookupLog, error)` of `query`. -/
structure QueryResult where
  msg : Option Msg
  log : LookupLog
  err : Option GoError

/-- The part of `query` after the cache: exchange with the nameserver, then
the bailiwick check. -/
def queryExchange {σ : Type} (env : Env σ) (q : Question) (auth : Nameserver)
    (ql : LookupLog) (w : σ) : QueryResult × σ :=
  match env.exchange w q auth.Addr with
  | (.error err, w1) => ({ msg := none, log := ql, err := some err }, w1)
  | (.ok r, w1) =>
    let ql := ql.setInfo fun i => { i with Rcode := r.Rcode }
    if outOfBailiwick r auth.Zone then
      ({ msg := none, log := ql, err := some .ErrOutOfBailiwick }, w1)
    else
      ({ msg := some r, log := ql, err := none }, w1)

/-- Go `(rr *RecursiveResolver).query(ctx, q, auth)`. -/
def query {σ : Type} (env : Env σ) (q : Question) (auth : Nameserver) (w : σ) :
    QueryResult × σ :=
  let ql := newLookupLog (some auth)
  if env.hasCache then
    match env.cacheGet w q with
    | (some answer, w1) =>
      ({ msg := some { Rcode := RcodeSuccess, Answer := answer.Answer,
                       Ns := answer.Authority, Extra := answer.Additional },
         log := ql.setInfo fun i =>
           { i with CacheHit := true, NS := none,
                    DNSSECValid := answer.Authenticated, Rcode := RcodeSuccess },
         err := none }, w1)
    | (none, w1) => queryExchange env q auth ql w1
  else
    queryExchange env q auth ql w

/-! ## Go maps

A `map[K]V` is a list of entries with distinct keys; the order of the list is
not the iteration order, which `rangeOrder` draws from the world. -/

/-- The assignment `m[k] = v`. -/
def mapSet {κ ν : Type} [BEq κ] (m : List (κ × ν)) (k : κ) (v : ν) : List (κ × ν) :=
  if (m.lookup k).isSome then m.map fun e => if e.1 == k then (k, v) else e
  else m ++ [(k, v)]

/-- Remove the entry at position `i` of a list. -/
def removeAt {α : Type} : List α → Nat → List α
  | [], _ => []
  | _ :: xs, 0 => xs
  | x :: xs, i + 1 => x :: removeAt xs i

/-- An iteration order for the entries of a map, fixed by a list of draws:
each draw selects the next entry among those not yet visited. -/
def rangeOrder {α : Type} : List Nat → List α → List α
  | [], l => l
  | d :: ds, l =>
    match l.get? (d % l.length) with
    | none => l
    | some y => y :: rangeOrder ds (removeAt l (d % l.length))

/-! ## `dnssec.go` -/

/-- Go `checkDS(keyMap, parentDSSet)`; `toDS` is the codec method `ToDS`. -/
def checkDS (toDS : DNSKEY → Nat → Option DS) (keyMap : List (Nat × DNSKEY)) :
    List RR → Outcome (Option GoError)
  | [] => .ret (some .ErrMissingKSK)
  | r :: rest =>
    match r.data with
    | .DS parentDS =>
      match keyMap.lookup parentDS.KeyTag with
      | none => checkDS toDS keyMap rest
      | some ksk =>
        match toDS ksk parentDS.DigestType with
        | none => .ret (some .ErrFailedToConvertKSK)
        | some ds =>
          if ds.Digest != parentDS.Digest then .ret (some .ErrMismatchingDS)
          else .ret none
    | _ => .panic

/-- The loop `for _, sigRR := range sigs` of `verifyRRSIG` over one section. -/
def verifySigs (verify : RRSIG → DNSKEY → List RR → Option GoError)
    (validityPeriod : RRSIG → Bool) (keyMap : List (Nat × DNSKEY)) (sec : List RR) :
    List RR → Outcome (Option GoError)
  | [] => .ret none
  | sigRR :: sigs =>
    match sigRR.data with
    | .RRSIG sig =>
      let rest := extractRRSet sec sigRR.Hdr.Name [sig.TypeCovered]
      if rest.length = 0 then .ret (some .ErrMissingSigned)
      else
        match keyMap.lookup sig.KeyTag with
        | none => .ret (some .ErrMissingDNSKEY)
        | some k =>
          match verify sig k rest with
          | some err => .ret (some err)
          | none =>
            if !(validityPeriod sig) then .ret (some .ErrInvalidSignaturePeriod)
            else verifySigs verify validityPeriod keyMap sec sigs
    | _ => .panic

/-- The body of the loop over sections of `verifyRRSIG`: `.ret none` stands for
reaching the end of the body. -/
def verifySection (verify : RRSIG → DNSKEY → List RR → Option GoError)
    (validityPeriod : RRSIG → Bool) (keyMap : List (Nat × DNSKEY)) (sec : List RR) :
    Outcome (Option GoError) :=
  if sec.length = 0 then .ret none
  else
    let sigs := extractRRSet sec "" [TypeRRSIG]
    if sigs.length = 0 then .ret (some .ErrNoSignatures)
    else verifySigs verify validityPeriod keyMap sec sigs

/-- The loop `for _, section := range [][]dns.RR{msg.Answer, msg.Ns}` of `verifyRRSIG`. -/
def verifySections (verify : RRSIG → DNSKEY → List RR → Option GoError)
    (validityPeriod : RRSIG → Bool) (keyMap : List (Nat × DNSKEY)) :
    List (List RR) → Outcome (Option GoError)
  | [] => .ret none
  | sec :: more =>
    match verifySection verify validityPeriod keyMap sec with
    | .ret none => verifySections verify validityPeriod keyMap more
    | o => o

/-- Go `verifyRRSIG(msg, keyMap)`. -/
def verifyRRSIG (verify : RRSIG → DNSKEY → List RR → Option GoError)
    (validityPeriod : RRSIG → Bool) (msg : Msg) (keyMap : List (Nat × DNSKEY)) :
    Outcome (Option GoError) :=
  verifySections verify validityPeriod keyMap [msg.Answer, msg.Ns]

/-- The loop of `lookupDNSKEY` that extracts the DNSKEYs of the answer. -/
def buildKeyMap (keyTag : DNSKEY → Nat) :
    List RR → List (Nat × DNSKEY) → Outcome (List (Nat × DNSKEY))
  | [], keyMap => .ret keyMap
  | a :: rest, keyMap =>
    if a.Hdr.Rrtype = TypeDNSKEY then
      match a.data with
      | .DNSKEY dnskey =>
        let tag := keyTag dnskey
        if dnskey.Flags = 256 ∨ dnskey.Flags = 257 then
          buildKeyMap keyTag rest (mapSet keyMap tag dnskey)
        else buildKeyMap keyTag rest keyMap
      | _ => .panic
    else buildKeyMap keyTag rest keyMap

/-- The results `(keyMap, log, addCache, err)` of `lookupDNSKEY`: on an error
the key map and the closure are nil. -/
structure DNSKEYResult (σ : Type) where
  log : LookupLog
  res : Except GoError (List (Nat × DNSKEY) × (σ → σ))

/-- The part of `lookupDNSKEY` after the response `r` is in hand. -/
def lookupDNSKEYKeys {σ : Type} (env : Env σ) (auth : Nameserver) (q : Question)
    (r : Msg) (log : LookupLog) (w : σ) : Outcome (DNSKEYResult σ × σ) :=
  match buildKeyMap env.keyTag r.Answer [] with
  | .panic => .panic
  | .timeout => .timeout
  | .ret keyMap =>
    if keyMap.length = 0 then .ret ({ log := log, res := .error .ErrNoDNSKEY }, w)
    else
      let addCache : σ → σ := fun w0 =>
        if env.hasCache && !log.info.CacheHit then
          env.cacheAdd w0 q
            { Answer := r.Answer, Authority := r.Ns, Additional := r.Extra,
              Rcode := RcodeSuccess, Authenticated := true } false
        else w0
      if auth.Zone ≠ "." then
        match verifyRRSIG env.verify env.validityPeriod r keyMap with
        | .panic => .panic
        | .timeout => .timeout
        | .ret (some err) => .ret ({ log := log, res := .error err }, w)
        | .ret none => .ret ({ log := log, res := .ok (keyMap, addCache) }, w)
      else .ret ({ log := log, res := .ok (keyMap, addCache) }, w)

/-- The part of `lookupDNSKEY` under `if r == nil`: ask the nameserver. -/
def lookupDNSKEYQuery {σ : Type} (env : Env σ) (auth : Nameserver) (q : Question)
    (w : σ) : Outcome (DNSKEYResult σ × σ) :=
  match query env q auth w with
  | (qr, w1) =>
    match qr.err with
    | some err => .ret ({ log := qr.log, res := .error err }, w1)
    | none =>
      match qr.msg with
      | none => .panic
      | some r =>
        if r.Answer.length = 0 ∨ r.Rcode ≠ RcodeSuccess then
          .ret ({ log := qr.log, res := .error .ErrNoDNSKEY }, w1)
        else lookupDNSKEYKeys env auth q r qr.log w1

/-- Go `(rr *RecursiveResolver).lookupDNSKEY(ctx, auth)`. -/
def lookupDNSKEY {σ : Type} (env : Env σ) (auth : Nameserver) (w : σ) :
    Outcome (DNSKEYResult σ × σ) :=
  let q : Question := { Name := auth.Zone, Type_ := TypeDNSKEY }
  if env.hasCache then
    match env.cacheGet w q with
    | (some a, w1) =>
      let r : Msg := { Rcode := RcodeSuccess, Answer := a.Answer,
                       Ns := a.Authority, Extra := a.Additional }
      let log := (newLookupLog none).setInfo fun i =>
        { i with CacheHit := true, DNSSECValid := a.Authenticated, Rcode := RcodeSuccess }
      lookupDNSKEYKeys env auth q r log w1
    | (none, w1) => lookupDNSKEYQuery env auth q w1
  else lookupDNSKEYQuery env auth q w

/-- Go `(rr *RecursiveResolver).checkSignatures(ctx, m, auth, parentDSSet)`;
`m` is `none` for a nil message. -/
def checkSignatures {σ : Type} (env : Env σ) (m : Option Msg) (auth : Nameserver)
    (parentDSSet : List RR) (w : σ) : Outcome ((LookupLog × Option GoError) × σ) :=
  match lookupDNSKEY env auth w with
  | .panic => .panic
  | .timeout => .timeout
  | .ret (dk, w1) =>
    match dk.res with
    | .error err => .ret ((dk.log, some err), w1)
    | .ok (keyMap, addCache) =>
      let dsCheck : Outcome (Option GoError) :=
        if parentDSSet.length > 0 then checkDS env.toDS keyMap parentDSSet else .ret none
      match dsCheck with
      | .panic => .panic
      | .timeout => .timeout
      | .ret (some err) => .ret ((dk.log, some err), w1)
      | .ret none =>
        match m with
        | none => .panic
        | some msg =>
          match verifyRRSIG env.verify env.validityPeriod msg keyMap with
          | .panic => .panic
          | .timeout => .timeout
          | .ret (some err) => .ret ((dk.log, some err), w1)
          | .ret none =>
            let log := dk.log.setInfo fun i => { i with DNSSECValid := true }
            let w2 := if !log.info.CacheHit then (if env.hasCache then addCache w1 else w1) else w1
            .ret ((log, none), w2)

/-! ## `resolver.go`: choosing an authority -/

/-- The result triple `(*Answer, *LookupLog, error)` of `Lookup`. -/
structure LookupResult where
  answer : Option Answer
  log : LookupLog
  err : Option GoError

/-- The result triple `(*Nameserver, *LookupLog, error)` of `pickAuthority`
and `lookupNS`. -/
structure AuthorityResult where
  ns : Option Nameserver
  log : Option LookupLog
  err : Option GoError

/-- The first loop of `splitAuthsByZone`: the map from NS target to zone. -/
def splitNsToZone : List RR → List (String × String) → Outcome (List (String × String))
  | [], nsToZone => .ret nsToZone
  | rr :: rest, nsToZone =>
    if rr.Hdr.Rrtype = TypeNS then
      match rr.data with
      | .NS ns => splitNsToZone rest (mapSet nsToZone ns rr.Hdr.Name)
      | _ => .panic
    else splitNsToZone rest nsToZone

/-- The second loop of `splitAuthsByZone`: glue addresses and minimum TTL by zone. -/
def splitZones (nsToZone : List (String × String)) (useIPv6 : Bool) :
    List RR → List (String × List String) → List (String × Nat) →
      List (String × List String) × List (String × Nat)
  | [], zones, minTTLs => (zones, minTTLs)
  | rr :: rest, zones, minTTLs =>
    match nsToZone.lookup rr.Hdr.Name with
    | none => splitZones nsToZone useIPv6 rest zones minTTLs
    | some zone =>
      if rr.Hdr.Rrtype = TypeA ∨ (useIPv6 = true ∧ rr.Hdr.Rrtype = TypeAAAA) then
        let zones1 :=
          match rr.data with
          | .A a => mapSet zones zone ((zones.lookup zone).getD [] ++ [a])
          | .AAAA aaaa =>
            if useIPv6 then mapSet zones zone ((zones.lookup zone).getD [] ++ [aaaa])
            else zones
          | _ => zones
        let minTTLs1 :=
          if (minTTLs.lookup zone).getD 0 = 0 ∨ rr.Hdr.Ttl < (minTTLs.lookup zone).getD 0 then
            mapSet minTTLs zone rr.Hdr.Ttl
          else minTTLs
        splitZones nsToZone useIPv6 rest zones1 minTTLs1
      else splitZones nsToZone useIPv6 rest zones minTTLs

/-- Go `splitAuthsByZone(auths, extras, useIPv6)`, returning
`(zones, minTTLs, nsToZone)`. -/
def splitAuthsByZone (auths extras : List RR) (useIPv6 : Bool) :
    Outcome (List (String × List String) × List (String × Nat) × List (String × String)) :=
  match splitNsToZone auths [] with
  | .panic => .panic
  | .timeout => .timeout
  | .ret nsToZone =>
    let zm := splitZones nsToZone useIPv6 extras [] []
    .ret (zm.1, zm.2, nsToZone)

/-- Go `(rr *RecursiveResolver).lookupNS(ctx, name)`; `lookup` is the method
`rr.Lookup`. -/
def lookupNS {σ : Type} (env : Env σ)
    (lookup : Question → σ → Outcome (LookupResult × σ)) (name : String) (w : σ) :
    Outcome (AuthorityResult × σ) :=
  match lookup { Name := name, Type_ := TypeA } w with
  | .panic => .panic
  | .timeout => .timeout
  | .ret (res, w1) =>
    match res.err with
    | some err => .ret ({ ns := none, log := some res.log, err := some err }, w1)
    | none =>
      match res.answer with
      | none => .panic
      | some r =>
        if r.Rcode ≠ RcodeSuccess then
          .ret ({ ns := none, log := some res.log,
                  err := some (.authorityLookupFailed name (env.rcodeToString r.Rcode)) }, w1)
        else if r.Answer.length = 0 then
          .ret ({ ns := none, log := some res.log, err := some .ErrNoAuthorityAddress }, w1)
        else
          let addresses := extractRRSet r.Answer name [TypeA]
          if addresses.length = 0 then
            .ret ({ ns := none, log := some res.log, err := some .ErrNoAuthorityAddress }, w1)
          else
            match Intn env addresses.length w1 with
            | .panic => .panic
            | .timeout => .timeout
            | .ret (k, w2) =>
              match addresses.get? k with
              | some { Hdr := _, data := .A a } =>
                .ret ({ ns := some { Name := name, Addr := a, Zone := "" },
                        log := some res.log, err := none }, w2)
              | _ => .panic

/-- The second `range nsToZone` loop of `pickAuthority`, over the entries in
iteration order: the first nameserver whose zone has glue. -/
def pickGlue {σ : Type} (env : Env σ) (zones : List (String × List String)) :
    List (String × String) → σ → Outcome (AuthorityResult × σ)
  | [], w => .ret ({ ns := none, log := none, err := some .ErrNoNSAuthorties }, w)
  | (ns, z) :: rest, w =>
    if ((zones.lookup z).getD []).length > 0 then
      match Intn env ((zones.lookup z).getD []).length w with
      | .panic => .panic
      | .timeout => .timeout
      | .ret (k, w1) =>
        match ((zones.lookup z).getD []).get? k with
        | none => .panic
        | some addr =>
          .ret ({ ns := some { Name := ns, Addr := addr, Zone := z }, log := none, err := none }, w1)
    else pickGlue env zones rest w

/-- Go `(rr *RecursiveResolver).pickAuthority(ctx, auths, extras)`. -/
def pickAuthority {σ : Type} (env : Env σ)
    (lookup : Question → σ → Outcome (LookupResult × σ)) (auths extras : List RR) (w : σ) :
    Outcome (AuthorityResult × σ) :=
  match splitAuthsByZone auths extras env.useIPv6 with
  | .panic => .panic
  | .timeout => .timeout
  | .ret (zones, _, nsToZone) =>
    if zones.length = 0 then
      if nsToZone.length = 0 then
        .ret ({ ns := none, log := none, err := some .ErrNoNSAuthorties }, w)
      else
        let seed := env.rangeSeed w
        let first : String × String := (rangeOrder seed.1 nsToZone).headD ("", "")
        match lookupNS env lookup first.1 seed.2 with
        | .panic => .panic
        | .timeout => .timeout
        | .ret (ar, w1) =>
          match ar.err with
          | some err => .ret ({ ns := none, log := ar.log, err := some err }, w1)
          | none =>
            match ar.ns with
            | none => .panic
            | some a => .ret ({ ns := some { a with Zone := first.2 }, log := ar.log, err := none }, w1)
    else
      let seed := env.rangeSeed w
      pickGlue env zones (rangeOrder seed.1 nsToZone) seed.2

/-! ## `resolver.go`: aliases -/

/-- The first loop of `collapseCNAMEChain`: the map from owner to target. -/
def cnameMapOf : List RR → List (String × String) → Outcome (List (String × String))
  | [], cnameMap => .ret cnameMap
  | rr :: rest, cnameMap =>
    match rr.data with
    | .CNAME target => cnameMapOf rest (mapSet cnameMap rr.Hdr.Name target)
    | _ => .panic

/-- The second loop of `collapseCNAMEChain`, run for at most `fuel` rounds:
the arguments are the current `qname` and `canonical`. -/
def followCNAMEs (cnameMap : List (String × String)) : Nat → String → String → Outcome String
  | 0, _, _ => .timeout
  | fuel + 1, qname, canonical =>
    match cnameMap.lookup qname with
    | none => .ret canonical
    | some c => followCNAMEs cnameMap fuel c c

/-- Go `collapseCNAMEChain(qname, in)`, its loop run for at most `fuel` rounds. -/
def collapseCNAMEChain (fuel : Nat) (qname : String) (inp : List RR) : Outcome String :=
  match cnameMapOf inp [] with
  | .panic => .panic
  | .timeout => .timeout
  | .ret cnameMap => followCNAMEs cnameMap fuel qname ""

/-- Go `isAlias(answer, q)`; `fuel` bounds the loop of `collapseCNAMEChain`. -/
def isAlias (fuel : Nat) (answer : List RR) (q : Question) : Outcome (Bool × String) :=
  let filtered := filterRRSet answer [TypeRRSIG]
  if filtered.length = 0 then .ret (false, "")
  else if filtered.length > 1 then
    if !(allType filtered TypeCNAME) || q.Type_ == TypeCNAME then .ret (false, "")
    else
      match collapseCNAMEChain fuel q.Name filtered with
      | .panic => .panic
      | .timeout => .timeout
      | .ret c => .ret (true, c)
  else
    match filtered.head? with
    | some { Hdr := _, data := .CNAME target } =>
      if q.Type_ = TypeCNAME then .ret (false, "") else .ret (true, target)
    | some { Hdr := hdr, data := .DNAME target } =>
      if q.Type_ = TypeDNAME then .ret (false, "")
      else if !(HasSuffix q.Name hdr.Name) then .ret (false, "")
      else .ret (true, TrimSuffix q.Name hdr.Name ++ target)
    | _ => .ret (false, "")

/-! ## `resolver.go`: `Lookup`

The body of the loop `for i := 0; i < MaxReferrals; i++` is `iteration`. The
log `ll` of `LoopState` holds the composites of the earlier iterations; the log
of the current query, which Go appends to `ll.Composites` as a pointer and
keeps updating, is appended where the iteration ends, with its final fields. -/

/-- The variables of `Lookup` that live across iterations. -/
structure LoopState where
  authority : Nameserver
  q : Question
  aliases : List String
  chased : List RR
  parentDSSet : List RR
  ll : LookupLog

/-- How one iteration of the loop of `Lookup` ends: at the end of the body or
at `continue` (`next`), at a `return` (`exit`), with a panic, or not at all
within the fuel. -/
inductive Step (σ : Type) where
  | next (st : LoopState) (w : σ)
  | exit (res : LookupResult) (w : σ)
  | panic
  | timeout

/-- The statement `log.Error = err.Error()`. -/
def setError (log : LookupLog) (err : GoError) : LookupLog :=
  log.setInfo fun i => { i with Error := err.Error }

/-- The statements `log.DNSSECValid = false; ll.DNSSECValid = false` with
`log` the last composite of `ll`, followed by `return nil, ll, err`. -/
def exitInvalid {σ : Type} (ll log : LookupLog) (err : GoError) (w : σ) : Step σ :=
  .exit { answer := none,
          log := (ll.setInfo fun i => { i with DNSSECValid := false }).appendComposite
            ((setError log err).setInfo fun i => { i with DNSSECValid := false }),
          err := some err } w

/-- The statements `log.Error = err.Error(); return nil, ll, err`. -/
def exitError {σ : Type} (ll log : LookupLog) (err : GoError) (w : σ) : Step σ :=
  .exit { answer := none, log := ll.appendComposite (setError log err), err := some err } w

/-- The referral branch of the loop body (from `log.Referral = true`). -/
def referral {σ : Type} (env : Env σ)
    (lookup : Question → σ → Outcome (LookupResult × σ)) (i : Nat) (st : LoopState)
    (ll : LookupLog) (r : Msg) (log : LookupLog) (nsecSet : List RR) (w : σ) : Step σ :=
  let log1 := log.setInfo fun i => { i with Referral := true }
  match pickAuthority env lookup r.Ns r.Extra w with
  | .panic => .panic
  | .timeout => .timeout
  | .ret (ar, w1) =>
    let log2 := match ar.log with
      | some authLog => log1.appendComposite authLog
      | none => log1
    match ar.err with
    | some err => exitError ll log2 err w1
    | none =>
      match ar.ns with
      | none => .panic
      | some authority =>
        let proof : Option GoError :=
          if nsecSet.length ≠ 0 then env.verifyDelegation authority.Zone nsecSet else none
        match proof with
        | some err => exitInvalid ll log2 err w1
        | none =>
          let parentDSSet :=
            if i = 0 ∨ st.parentDSSet.length > 0 then extractRRSet r.Ns authority.Zone [TypeDS]
            else st.parentDSSet
          .next { st with authority := authority, parentDSSet := parentDSSet,
                          ll := ll.appendComposite log2 } w1

/-- The alias branch of the loop body, entered when `isAlias` answered
`(true, canonicalName)`. -/
def chase {σ : Type} (env : Env σ) (st : LoopState) (ll : LookupLog) (r : Msg)
    (log : LookupLog) (canonicalName : String) (w : σ) : Step σ :=
  if st.aliases.contains canonicalName then exitError ll log .aliasLoop w
  else
    match Intn env env.rootNameservers.length w with
    | .panic => .panic
    | .timeout => .timeout
    | .ret (k, w1) =>
      match env.rootNameservers.get? k with
      | none => .panic
      | some authority =>
        .next { st with aliases := canonicalName :: st.aliases,
                        authority := authority,
                        q := { st.q with Name := canonicalName },
                        chased := st.chased ++ extractRRSet r.Answer "" [TypeCNAME],
                        ll := ll.appendComposite log } w1

/-- The loop body of `Lookup` after validation (from `if r.Rcode !=
dns.RcodeSuccess`): `ll` already carries `ll.DNSSECValid = validated`. -/
def classify {σ : Type} (env : Env σ)
    (lookup : Question → σ → Outcome (LookupResult × σ)) (fuel i : Nat) (st : LoopState)
    (ll : LookupLog) (r : Msg) (log : LookupLog) (validated : Bool) (w : σ) : Step σ :=
  if r.Rcode ≠ RcodeSuccess then
    let proof : Option GoError :=
      if r.Rcode = RcodeNameError then
        let nsecSet := extractRRSet r.Ns "" [TypeNSEC3]
        if nsecSet.length ≠ 0 then env.verifyNameError st.q nsecSet else none
      else none
    match proof with
    | some err => exitInvalid ll log err w
    | none =>
      .exit { answer := some (extractAnswer r validated), log := ll.appendComposite log,
              err := none } w
  else if r.Answer.length > 0 then
    match isAlias fuel r.Answer st.q with
    | .panic => .panic
    | .timeout => .timeout
    | .ret (true, canonicalName) => chase env st ll r log canonicalName w
    | .ret (false, _) =>
      let w1 :=
        if !log.info.CacheHit then
          if env.hasCache then
            env.cacheAdd w st.q
              { Answer := r.Answer, Authority := r.Ns, Additional := r.Extra,
                Rcode := r.Rcode, Authenticated := validated } false
          else w
        else w
      let r1 : Msg := if st.chased.length > 0 then { r with Answer := st.chased ++ r.Answer } else r
      .exit { answer := some (extractAnswer r1 validated), log := ll.appendComposite log,
              err := none } w1
  else
    let nsecSet := extractRRSet r.Ns "" [TypeNSEC3]
    if r.Ns.length = 0 then
      let proof : Option GoError :=
        if nsecSet.length ≠ 0 then env.verifyNODATA st.q nsecSet else none
      match proof with
      | some err => exitInvalid ll log err w
      | none =>
        .exit { answer := some { Answer := [], Authority := [], Additional := [],
                                 Rcode := RcodeSuccess, Authenticated := validated },
                log := ll.appendComposite log, err := none } w
    else referral env lookup i st ll r log nsecSet w

/-- The loop body of `Lookup` from the validation on (from `validated :=
false`), with the results `r`, `log` of `query`. -/
def validate {σ : Type} (env : Env σ)
    (lookup : Question → σ → Outcome (LookupResult × σ)) (fuel i : Nat) (st : LoopState)
    (r : Option Msg) (log : LookupLog) (w : σ) : Step σ :=
  let validated0 : Bool := if log.info.CacheHit then log.info.DNSSECValid else false
  let finish (log1 : LookupLog) (validated : Bool) (w1 : σ) : Step σ :=
    match r with
    | none => .panic
    | some msg =>
      classify env lookup fuel i st (st.ll.setInfo fun i => { i with DNSSECValid := validated })
        msg (log1.setInfo fun i => { i with DNSSECValid := validated }) validated w1
  if (i = 0 ∨ st.parentDSSet.length > 0) ∧ log.info.CacheHit = false then
    match checkSignatures env r st.authority st.parentDSSet w with
    | .panic => .panic
    | .timeout => .timeout
    | .ret ((dkLog, some err), w1) => exitError st.ll (log.appendComposite dkLog) err w1
    | .ret ((dkLog, none), w1) => finish (log.appendComposite dkLog) true w1
  else finish log validated0 w

/-- The loop body of `Lookup`, for the loop counter `i`. -/
def iteration {σ : Type} (env : Env σ)
    (lookup : Question → σ → Outcome (LookupResult × σ)) (fuel i : Nat) (st : LoopState)
    (w : σ) : Step σ :=
  match query env st.q st.authority w with
  | (qr, w1) =>
    match qr.err with
    | some err =>
      if err ≠ .ErrTruncated then exitError st.ll qr.log err w1
      else
        validate env lookup fuel i st qr.msg
          (qr.log.setInfo fun i => { i with Truncated := true }) w1
    | none => validate env lookup fuel i st qr.msg qr.log w1

/-- The loop `for i := 0; i < MaxReferrals; i++` of `Lookup` with `n`
iterations left, and the `return nil, ll, ErrTooManyReferrals` after it. -/
def lookupLoop {σ : Type} (env : Env σ)
    (lookup : Question → σ → Outcome (LookupResult × σ)) (fuel : Nat) :
    Nat → Nat → LoopState → σ → Outcome (LookupResult × σ)
  | 0, _, st, w => .ret ({ answer := none, log := st.ll, err := some .ErrTooManyReferrals }, w)
  | n + 1, i, st, w =>
    match iteration env lookup fuel i st w with
    | .next st1 w1 => lookupLoop env lookup fuel n (i + 1) st1 w1
    | .exit res w1 => .ret (res, w1)
    | .panic => .panic
    | .timeout => .timeout

/-- The state of `Lookup` on entry to its loop, after the root nameserver is drawn. -/
def initialState {σ : Type} (env : Env σ) (q : Question) (w : σ) : Outcome (LoopState × σ) :=
  match Intn env env.rootNameservers.length w with
  | .panic => .panic
  | .timeout => .timeout
  | .ret (k, w1) =>
    match env.rootNameservers.get? k with
    | none => .panic
    | some authority =>
      .ret ({ authority := authority, q := q, aliases := [], chased := [], parentDSSet := [],
              ll := newLookupLog none }, w1)

/-- The body of `Lookup`, with `lookup` the method itself for the call in `lookupNS`. -/
def lookupBody {σ : Type} (env : Env σ)
    (lookup : Question → σ → Outcome (LookupResult × σ)) (fuel : Nat) (q : Question)
    (w : σ) : Outcome (LookupResult × σ) :=
  match initialState env q w with
  | .panic => .panic
  | .timeout => .timeout
  | .ret (st, w1) => lookupLoop env lookup fuel MaxReferrals 0 st w1

/-- Go `(rr *RecursiveResolver).Lookup(ctx, q)`. The fuel bounds the depth of
the calls `Lookup -> lookupNS -> Lookup`, which the source leaves unbounded, and
the rounds of the loop of `collapseCNAMEChain`. -/
def Lookup {σ : Type} (env : Env σ) : Nat → Question → σ → Outcome (LookupResult × σ)
  | 0 => fun _ _ => .timeout
  | fuel + 1 => fun q w => lookupBody env (Lookup env fuel) (fuel + 1) q w

/-! ## The answer cache

The file `cache.go` (`BasicCache`, `minTTL`) is not among the sources; only its
test `cache_test.go` is. The definitions of this section follow section 4.1 of
the specification. Time is the reading of the injected clock, in seconds. -/

/-- Modelled from the spec: step 2 of the minimum TTL computation of the absent
`minTTL`: the seconds from `now` until the expiration time of an RRSIG under
serial number arithmetic modulo 2^32, the expiration being the value closest to
`now` in the future. -/
def secondsUntilExpiration (expiration now : Nat) : Nat :=
  (expiration % 2 ^ 32 + 2 ^ 32 - now % 2 ^ 32) % 2 ^ 32

/-- Modelled from the spec: the RRSIGs of a set, for the absent `minTTL`: a
record whose header type is RRSIG and which carries the fields of an RRSIG. -/
def rrsigOf (r : RR) : Option RRSIG :=
  if r.Hdr.Rrtype = TypeRRSIG then
    match r.data with
    | .RRSIG sig => some sig
    | _ => none
  else none

/-- Modelled from the spec: the absent function `minTTL(a, clk)` of `cache.go`.
Start with the smallest header TTL across all records, 0 for the empty set;
then, for each RRSIG of the set, replace the current minimum by the seconds
until its expiration when these are fewer; the result is unsigned. -/
def minTTL (a : List RR) (now : Nat) : Nat :=
  match a with
  | [] => 0
  | r :: rest =>
    let smallest := rest.foldl (fun m x => if x.Hdr.Ttl < m then x.Hdr.Ttl else m) r.Hdr.Ttl
    (r :: rest).foldl
      (fun m x =>
        match rrsigOf x with
        | some sig =>
          if secondsUntilExpiration sig.Expiration now < m then
            secondsUntilExpiration sig.Expiration now
          else m
        | none => m)
      smallest

/-- Modelled from the spec: the absent type `cacheEntry` of `cache.go`:
`(answer, forever, expires_at)`, the last computed once at insertion. -/
structure cacheEntry where
  answer : Answer
  forever : Bool
  expiresAt : Nat
  deriving DecidableEq, Repr

/-- Modelled from the spec: the absent type `BasicCache` of `cache.go`: a map
from the fingerprint of a question to its entry, with at most one entry for a
fingerprint. The fingerprint is taken to be the pair (name, type) itself. -/
abbrev BasicCache := Question → Option cacheEntry

/-- Modelled from the spec: the empty `BasicCache` of `TestCache`. -/
def BasicCache.empty : BasicCache := fun _ => none

/-- Modelled from the spec: the absent method `BasicCache.Get(q)`, read at the
time `now`: a live cached answer or absent. An entry is live when it is kept
forever or its `expires_at` has not been reached. -/
def BasicCache.Get (bc : BasicCache) (q : Question) (now : Nat) : Option Answer :=
  match bc q with
  | some e => if e.forever = true ∨ now < e.expiresAt then some e.answer else none
  | none => none

/-- Modelled from the spec: the absent method `BasicCache.Add(q, answer,
forever)`, called at the time `now`: inserts or replaces, with `expires_at =
now + min_ttl` over the union of the three sections of the answer; when
`forever` is false and the computed minimum TTL is 0 the call is dropped. -/
def BasicCache.Add (bc : BasicCache) (q : Question) (answer : Answer) (forever : Bool)
    (now : Nat) : BasicCache :=
  let ttl := minTTL (answer.Answer ++ answer.Authority ++ answer.Additional) now
  if forever = false ∧ ttl = 0 then bc
  else fun q2 =>
    if q2 = q then some { answer := answer, forever := forever, expiresAt := now + ttl }
    else bc q2

/-- Modelled from the spec: the absent method `BasicCache.fullPrune()`, called
at the time `now`: removes all entries whose `expires_at` has passed; entries
with `forever = true` are immortal. -/
def BasicCache.fullPrune (bc : BasicCache) (now : Nat) : BasicCache := fun q =>
  match bc q with
  | some e => if e.forever = true ∨ now < e.expiresAt then some e else none
  | none => none

/-! ## Concrete inputs -/

/-- The DS record with header `p.1` and fields `p.2`. -/
def dsRecord (p : RR_Header × DS) : RR := { Hdr := p.1, data := .DS p.2 }

/-- A codec stand-in for `ToDS`: the digest is the public key itself. -/
def toyToDS (k : DNSKEY) (digestType : Nat) : Option DS :=
  some { KeyTag := k.PublicKey.length, Algorithm := k.Algorithm,
         DigestType := digestType, Digest := k.PublicKey }

/-- A key map holding one key under tag 7. -/
def dsDemoKeys : List (Nat × DNSKEY) :=
  [(7, { Flags := 257, Protocol := 3, Algorithm := 8, PublicKey := "current" })]

/-- A parent DS set whose first record has the tag of the key and a stale
digest, and whose second record matches the key. -/
def dsDemoSet : List RR :=
  [ dsRecord ({ Name := "example.", Rrtype := TypeDS, Ttl := 300 },
      { KeyTag := 7, Algorithm := 8, DigestType := 2, Digest := "stale" }),
    dsRecord ({ Name := "example.", Rrtype := TypeDS, Ttl := 300 },
      { KeyTag := 7, Algorithm := 8, DigestType := 2, Digest := "current" }) ]

/-- A codec stand-in for `ToDS` that knows the digest type 2 only: for another
digest type the result is nil. -/
def sha256OnlyToDS (k : DNSKEY) (digestType : Nat) : Option DS :=
  if digestType = 2 then toyToDS k digestType else none

/-- A parent DS set whose first record has the tag of the key and a digest
type the codec cannot convert to, and whose second record matches the key. -/
def dsMixedSet : List RR :=
  [ dsRecord ({ Name := "example.", Rrtype := TypeDS, Ttl := 300 },
      { KeyTag := 7, Algorithm := 8, DigestType := 4, Digest := "current" }),
    dsRecord ({ Name := "example.", Rrtype := TypeDS, Ttl := 300 },
      { KeyTag := 7, Algorithm := 8, DigestType := 2, Digest := "current" }) ]

/-- A DS record whose key tag is not in `dsDemoKeys`. -/
def dsStrayRecord : RR :=
  dsRecord ({ Name := "example.", Rrtype := TypeDS, Ttl := 300 },
    { KeyTag := 9, Algorithm := 8, DigestType := 2, Digest := "other" })

/-- A codec stand-in for `Verify` that accepts every signature. -/
def toyVerify (_ : RRSIG) (_ : DNSKEY) (_ : List RR) : Option GoError := none

/-- A codec stand-in for `ValidityPeriod` that accepts every signature. -/
def toyValidityPeriod (_ : RRSIG) : Bool := true

/-- An RRSIG record for `name` covering the type `covered`, made with the key of tag `tag`. -/
def sigRecord (name : String) (covered tag : Nat) : RR :=
  { Hdr := { Name := name, Rrtype := TypeRRSIG, Ttl := 300 },
    data := .RRSIG { TypeCovered := covered, Algorithm := 8, Expiration := 0, Inception := 0,
                     KeyTag := tag, SignerName := "example.", Signature := "" } }

/-- An address record. -/
def aRecord (name addr : String) : RR :=
  { Hdr := { Name := name, Rrtype := TypeA, Ttl := 300 }, data := .A addr }

/-- An NS record. -/
def nsRecord (zone ns : String) : RR :=
  { Hdr := { Name := zone, Rrtype := TypeNS, Ttl := 300 }, data := .NS ns }

/-- A message whose answer section holds a signature over an address RRset
that is not in the section, and whose authority section is unsigned. -/
def msgOrphanSig : Msg :=
  { Rcode := RcodeSuccess
    Answer := [sigRecord "www.example." TypeA 7]
    Ns := [nsRecord "example." "ns.example."]
    Extra := [] }

/-- A message with an unsigned answer section. -/
def msgUnsignedAnswer : Msg :=
  { Rcode := RcodeSuccess, Answer := [aRecord "www.example." "192.0.2.1"], Ns := [], Extra := [] }

/-- A message with an empty answer section and an unsigned authority section. -/
def msgUnsignedNs : Msg :=
  { Rcode := RcodeSuccess, Answer := [], Ns := [nsRecord "example." "ns.example."], Extra := [] }

/-- A message with empty sections. -/
def msgEmpty : Msg := { Rcode := RcodeSuccess, Answer := [], Ns := [], Extra := [] }

/-- A message whose answer section holds an address RRset and its signature. -/
def msgSignedAnswer : Msg :=
  { Rcode := RcodeSuccess
    Answer := [aRecord "www.example." "192.0.2.1", sigRecord "www.example." TypeA 7]
    Ns := []
    Extra := [] }

/-- A DNAME record. -/
def dnameRecord (owner target : String) : RR :=
  { Hdr := { Name := owner, Rrtype := TypeDNAME, Ttl := 300 }, data := .DNAME target }

/-- A resolver whose collaborators are scripted: the world is the number of
exchanges made so far, the `n`-th exchange is answered by `script n`, the
cache answers by `cache` and ignores additions, the random draws are 0, maps
are ranged over in the order of their entries, the codec accepts every
signature and takes the public key as the digest of a key, and the rcode table
holds the four most common names. -/
def scriptedEnv (roots : List Nameserver) (cache : Question → Option Answer)
    (script : Nat → Except GoError Msg) : Env Nat :=
  { useIPv6 := false
    useDNSSEC := true
    hasCache := true
    rootNameservers := roots
    cacheGet := fun w q => (cache q, w)
    cacheAdd := fun w _ _ _ => w
    exchange := fun w _ _ => (script w, w + 1)
    rand := fun w => (0, w)
    rangeSeed := fun w => ([], w)
    keyTag := fun k => k.PublicKey.length
    toDS := toyToDS
    verify := toyVerify
    validityPeriod := toyValidityPeriod
    verifyNameError := fun _ _ => none
    verifyNODATA := fun _ _ => none
    verifyDelegation := fun _ _ => none
    rcodeToString := fun rcode =>
      if rcode = 0 then "NOERROR" else if rcode = 2 then "SERVFAIL"
      else if rcode = 3 then "NXDOMAIN" else if rcode = 5 then "REFUSED" else "" }

/-- A root nameserver. -/
def rootNS : Nameserver := { Name := "a.root-servers.net.", Addr := "198.41.0.4", Zone := "." }

/-- A root key; its tag under `scriptedEnv` is 7. -/
def rootKey : DNSKEY := { Flags := 257, Protocol := 3, Algorithm := 8, PublicKey := "rootkey" }

/-- A cache that holds the root keys, as `NewRecursiveResolver` leaves it. -/
def rootKeyCache (q : Question) : Option Answer :=
  if q = { Name := ".", Type_ := TypeDNSKEY } then
    some { Answer := [{ Hdr := { Name := ".", Rrtype := TypeDNSKEY, Ttl := 3600 },
                        data := .DNSKEY rootKey }],
           Authority := [], Additional := [], Rcode := RcodeSuccess, Authenticated := true }
  else none

/-- The nameserver of the zone `example.`. -/
def exampleNS : Nameserver := { Name := "ns.example.", Addr := "192.0.2.53", Zone := "example." }

/-- A response with an answer record owned by `evil.com.`. -/
def msgEvil : Msg :=
  { Rcode := RcodeSuccess, Answer := [aRecord "evil.com." "203.0.113.1"], Ns := [], Extra := [] }

/-- A resolver whose first exchange is answered by `msgEvil`, with an empty cache. -/
def evilEnv : Env Nat := scriptedEnv [rootNS] (fun _ => none) fun _ => .ok msgEvil

/-- A signed referral from the root to the root zone itself, with glue. -/
def msgRootReferral : Msg :=
  { Rcode := RcodeSuccess
    Answer := []
    Ns := [nsRecord "." "a.root-servers.net.", sigRecord "." TypeNS 7]
    Extra := [aRecord "a.root-servers.net." "198.41.0.4"] }

/-- A resolver every exchange of which is answered by `msgRootReferral`. -/
def cycleEnv : Env Nat := scriptedEnv [rootNS] rootKeyCache fun _ => .ok msgRootReferral

/-- An SOA record; the package does not read its fields. -/
def soaRecord (zone : String) : RR :=
  { Hdr := { Name := zone, Rrtype := 6, Ttl := 300 }, data := .other }

/-- A signed NXDOMAIN response of the root zone: a signed SOA in the authority
section and no NSEC3 record. -/
def msgNameErrorNoProof : Msg :=
  { Rcode := RcodeNameError
    Answer := []
    Ns := [soaRecord ".", sigRecord "." 6 7]
    Extra := [] }

/-- A resolver with the root keys cached whose exchanges are answered by
`msgNameErrorNoProof`. -/
def nameErrorEnv : Env Nat := scriptedEnv [rootNS] rootKeyCache fun _ => .ok msgNameErrorNoProof

/-- The key of the zone `example.`; its tag under `scriptedEnv` is 10. -/
def exampleKey : DNSKEY := { Flags := 257, Protocol := 3, Algorithm := 8, PublicKey := "examplekey" }

/-- The DS record for `exampleKey` published by the root. -/
def exampleDS : RR :=
  dsRecord ({ Name := "example.", Rrtype := TypeDS, Ttl := 300 },
    { KeyTag := 10, Algorithm := 8, DigestType := 2, Digest := "examplekey" })

/-- A cache that holds the root keys and the signed keys of `example.`. -/
def keysCache (q : Question) : Option Answer :=
  if q = { Name := "example.", Type_ := TypeDNSKEY } then
    some { Answer := [{ Hdr := { Name := "example.", Rrtype := TypeDNSKEY, Ttl := 3600 },
                        data := .DNSKEY exampleKey },
                      sigRecord "example." TypeDNSKEY 10],
           Authority := [], Additional := [], Rcode := RcodeSuccess, Authenticated := true }
  else rootKeyCache q

/-- The signed referral from the root to `example.`, with the DS set and glue. -/
def msgExampleReferral : Msg :=
  { Rcode := RcodeSuccess
    Answer := []
    Ns := [nsRecord "example." "ns.example.", exampleDS, sigRecord "example." TypeDS 7]
    Extra := [aRecord "ns.example." "192.0.2.53"] }

/-- The signed answer of `example.`: `www.example.` is an alias of `www.example.net.`. -/
def msgExampleCNAME : Msg :=
  { Rcode := RcodeSuccess
    Answer := [{ Hdr := { Name := "www.example.", Rrtype := TypeCNAME, Ttl := 300 },
                 data := .CNAME "www.example.net." },
               sigRecord "www.example." TypeCNAME 10]
    Ns := []
    Extra := [] }

/-- The signed answer of the root zone for a name it hosts itself. -/
def msgRootAnswer : Msg :=
  { Rcode := RcodeSuccess
    Answer := [aRecord "www.example.net." "192.0.2.80", sigRecord "www.example.net." TypeA 7]
    Ns := []
    Extra := [] }

/-- A resolver with the keys cached: the root refers to `example.`, which
answers with the alias; the root then answers for the canonical name. -/
def aliasEnv : Env Nat :=
  scriptedEnv [rootNS] keysCache fun n =>
    if n = 0 then .ok msgExampleReferral
    else if n = 1 then .ok msgExampleCNAME
    else .ok msgRootAnswer

/-- A resolver with the keys cached whose exchanges are answered by the root
answer for `www.example.net.`. -/
def directEnv : Env Nat := scriptedEnv [rootNS] keysCache fun _ => .ok msgRootAnswer

/-- The state of `Lookup` on entry to its loop under `scriptedEnv` with the
single root nameserver `rootNS`. -/
def startState (q : Question) : LoopState :=
  { authority := rootNS, q := q, aliases := [], chased := [], parentDSSet := [],
    ll := newLookupLog none }

/-- The answer of a call of `Lookup` that returned. -/
def Outcome.answerOf {σ : Type} : Outcome (LookupResult × σ) → Option Answer
  | .ret (res, _) => res.answer
  | _ => none

/-- The error of a call of `Lookup` that returned. -/
def Outcome.errOf {σ : Type} : Outcome (LookupResult × σ) → Option GoError
  | .ret (res, _) => res.err
  | _ => none

/-- The scalar fields of the log of a call of `Lookup` that returned. -/
def Outcome.logInfoOf {σ : Type} : Outcome (LookupResult × σ) → Option LogInfo
  | .ret (res, _) => some res.log.info
  | _ => none

/-- A referral to the zone `other.` with glue, as a cache entry. -/
def otherReferral : Answer :=
  { Answer := []
    Authority := [nsRecord "other." "ns.other."]
    Additional := [aRecord "ns.other." "203.0.113.53"]
    Rcode := RcodeSuccess
    Authenticated := false }

/-- A resolver with the keys cached: the root refers to `example.`; once that
exchange is made the cache holds `otherReferral` for the question. -/
def cachedReferralEnv : Env Nat :=
  { scriptedEnv [rootNS] keysCache (fun _ => .ok msgExampleReferral) with
    cacheGet := fun w q =>
      (if w = 1 ∧ q = { Name := "www.example.", Type_ := TypeA } then some otherReferral
       else keysCache q, w) }

/-- The fields `Referral` and `CacheHit` of the last composite of the log of a state. -/
def lastFlags (st : LoopState) : Option (Bool × Bool) :=
  st.ll.Composites.getLast?.map fun l => (l.info.Referral, l.info.CacheHit)

/-- A CNAME record. -/
def cnameRecord (owner target : String) : RR :=
  { Hdr := { Name := owner, Rrtype := TypeCNAME, Ttl := 300 }, data := .CNAME target }

/-- An answer with two CNAME records, none of them owned by `www.example.`. -/
def answerStrayCNAMEs : List RR :=
  [cnameRecord "ftp.example." "files.example.", cnameRecord "mail.example." "mx.example."]

/-- An answer with a chain of two CNAME records from `www.example.`, and a signature. -/
def answerCNAMEChain : List RR :=
  [cnameRecord "www.example." "web.example.", sigRecord "www.example." TypeCNAME 10,
   cnameRecord "web.example." "host.example."]

/-- An answer with two CNAME records that point at each other. -/
def answerCNAMECycle : List RR :=
  [cnameRecord "a." "b.", cnameRecord "b." "a."]

/-- The signed answer of the root zone that holds the CNAME cycle `answerCNAMECycle`. -/
def msgCNAMECycle : Msg :=
  { Rcode := RcodeSuccess
    Answer := answerCNAMECycle ++ [sigRecord "a." TypeCNAME 7, sigRecord "b." TypeCNAME 7]
    Ns := []
    Extra := [] }

/-- A resolver with the root keys cached whose exchanges are answered by `msgCNAMECycle`. -/
def cnameCycleEnv : Env Nat := scriptedEnv [rootNS] rootKeyCache fun _ => .ok msgCNAMECycle

/-- A signed referral from the root to `example.` without a DS set. -/
def msgInsecureReferral : Msg :=
  { Rcode := RcodeSuccess
    Answer := []
    Ns := [nsRecord "example." "ns.example.", sigRecord "example." TypeNS 7]
    Extra := [aRecord "ns.example." "192.0.2.53"] }

/-- The unsigned answer of `example.`: `www.example.` is an alias of `www.example.net.`. -/
def msgPlainCNAME : Msg :=
  { Rcode := RcodeSuccess
    Answer := [cnameRecord "www.example." "www.example.net."]
    Ns := []
    Extra := [] }

/-- A resolver with the root keys cached: the root refers to the unsigned zone
`example.`, which answers with the alias; the root then answers for the
canonical name. -/
def chaseEnv : Env Nat :=
  scriptedEnv [rootNS] rootKeyCache fun n =>
    if n = 0 then .ok msgInsecureReferral
    else if n = 1 then .ok msgPlainCNAME
    else .ok msgRootAnswer

/-- The result and world of an iteration that ended at a `return`. -/
def Step.exitResult {σ : Type} : Step σ → Option (LookupResult × σ)
  | .exit res w => some (res, w)
  | _ => none

/-- A message whose answer section holds two address records and a signature
over the RRset of the first one only. -/
def msgPartlySigned : Msg :=
  { Rcode := RcodeSuccess
    Answer := [aRecord "www.example." "192.0.2.1", aRecord "mail.example." "203.0.113.9",
               sigRecord "www.example." TypeA 7]
    Ns := []
    Extra := [] }

/-- The value a call returned, if it returned. -/
def Outcome.value {α : Type} : Outcome α → Option α
  | .ret a => some a
  | _ => none

/-- The authority section of a referral to `example.` with two nameservers. -/
def authsTwoNS : List RR :=
  [nsRecord "example." "ns1.example.", nsRecord "example." "ns2.example."]

/-- An additional section with glue for the second nameserver only. -/
def extrasSecondGlue : List RR := [aRecord "ns2.example." "192.0.2.2"]

/-- An address record with the header TTL `ttl` and no owner, as in `TestCache`. -/
def ttlRecord (ttl : Nat) : RR :=
  { Hdr := { Name := "", Rrtype := 0, Ttl := ttl }, data := .A "1.2.3.4" }

/-- An answer whose only record has the header TTL `ttl`. -/
def ttlAnswer (ttl : Nat) : Answer :=
  { Answer := [ttlRecord ttl], Authority := [], Additional := [], Rcode := RcodeSuccess,
    Authenticated := false }

/-- The question of `TestCache`. -/
def testQuestion : Question := { Name := "testing", Type_ := TypeA }

/-- An RRSIG record with the header TTL 4 and the expiration time `expiration`,
as in `TestMinTTL`. -/
def expiringSig (expiration : Nat) : RR :=
  { Hdr := { Name := "", Rrtype := TypeRRSIG, Ttl := 4 },
    data := .RRSIG { TypeCovered := 0, Algorithm := 0, Expiration := expiration, Inception := 0,
                     KeyTag := 0, SignerName := "", Signature := "" } }

/-! ## Vocabulary for the statements about the loop of `Lookup` -/

/-- A postcondition of one iteration: `P` holds of the state and world carried
into the next iteration, `Q` of the result and world at a `return`. -/
def Step.Sat {σ : Type} (P : LoopState → σ → Prop) (Q : LookupResult → σ → Prop) :
    Step σ → Prop
  | .next st w => P st w
  | .exit res w => Q res w
  | .panic => True
  | .timeout => True

/-- The state and world after `n` iterations, starting with the loop counter
`i`, each of which reached the end of the loop body or a `continue` (a referral
or an alias chase processed without error); `none` when one of them ended
otherwise. -/
def continues {σ : Type} (env : Env σ)
    (lookup : Question → σ → Outcome (LookupResult × σ)) (fuel : Nat) :
    Nat → Nat → LoopState → σ → Option (LoopState × σ)
  | 0, _, st, w => some (st, w)
  | n + 1, i, st, w =>
    match iteration env lookup fuel i st w with
    | .next st1 w1 => continues env lookup fuel n (i + 1) st1 w1
    | _ => none

/-- The owner-to-target mapping of a list of CNAME records, as the assignments
`cnameMap[owner] = target` in the order of the list leave it: the target of
the last record owned by `name`. -/
def cnameTarget : List RR → String → Option String
  | [], _ => none
  | r :: rest, name =>
    match cnameTarget rest name with
    | some t => some t
    | none =>
      if r.Hdr.Name = name then
        match r.data with
        | .CNAME t => some t
        | _ => none
      else none

/-- Following a mapping from `name` comes to an end: `ChainEnds target name
last c` says that, `last` being the last target reached so far, the walk from
`name` stops at a name without mapping, and that the last target reached is
then `c`. -/
inductive ChainEnds (target : String → Option String) : String → String → String → Prop where
  | stop (name last : String) (h : target name = none) : ChainEnds target name last last
  | step (name last c result : String) (h : target name = some c)
      (rest : ChainEnds target c c result) : ChainEnds target name last result

/-- The records that an iteration of `Lookup` appends to `chased` for the
response `r` to the question `q`: the CNAME records of the answer section when
the response is an alias response (rcode NOERROR, non-empty answer, `isAlias`
true), and none otherwise. -/
def aliasRecords (fuel : Nat) (q : Question) (r : Msg) : List RR :=
  if r.Rcode = RcodeSuccess ∧ r.Answer ≠ [] then
    match isAlias fuel r.Answer q with
    | .ret (true, _) => extractRRSet r.Answer "" [TypeCNAME]
    | _ => []
  else []

/-- The CNAME records of the alias responses among the responses of `n`
iterations that each go on to the next, starting with the loop counter `i`, in
the order of the iterations. -/
def chasedAlong {σ : Type} (env : Env σ)
    (lookup : Question → σ → Outcome (LookupResult × σ)) (fuel : Nat) :
    Nat → Nat → LoopState → σ → List RR
  | 0, _, _, _ => []
  | n + 1, i, st, w =>
    match iteration env lookup fuel i st w with
    | .next st1 w1 =>
      (match (query env st.q st.authority w).1.msg with
        | some r => aliasRecords fuel st.q r
        | none => []) ++ chasedAlong env lookup fuel n (i + 1) st1 w1
    | _ => []

/-! ## Strings: the meaning of `HasSuffix` and `TrimSuffix` -/

theorem hasSuffix_iff (s suffix : String) :
    HasSuffix s suffix = true ↔ ∃ pre : String, s = pre ++ suffix := by
  unfold HasSuffix
  rw [List.isSuffixOf_iff_suffix]
  constructor
  · rintro ⟨t, ht⟩
    refine ⟨String.mk t, ?_⟩
    apply String.ext
    simp [String.data_append, ht]
  · rintro ⟨pre, rfl⟩
    exact ⟨pre.data, by simp [String.data_append]⟩

theorem trimSuffix_append (pre suffix : String) : TrimSuffix (pre ++ suffix) suffix = pre := by
  have h : HasSuffix (pre ++ suffix) suffix = true := (hasSuffix_iff _ _).2 ⟨pre, rfl⟩
  unfold TrimSuffix
  rw [if_pos h]
  apply String.ext
  simp [String.data_append]

/-! ## `query`: the bailiwick check -/

theorem outOfBailiwick_iff (r : Msg) (zone : String) :
    outOfBailiwick r zone = true ↔
      ∃ record ∈ r.Answer ++ r.Ns,
        record.Hdr.Rrtype ≠ TypeOPT ∧ ¬ ∃ pre : String, record.Hdr.Name = pre ++ zone := by
  unfold outOfBailiwick
  simp only [List.any_cons, List.any_nil, Bool.or_false, Bool.or_eq_true, List.any_eq_true,
    Bool.and_eq_true, bne_iff_ne, Bool.not_eq_true', List.mem_append, ← hasSuffix_iff]
  constructor
  · rintro (⟨x, hx, h1, h2⟩ | ⟨x, hx, h1, h2⟩)
    · exact ⟨x, Or.inl hx, h1, by simp [h2]⟩
    · exact ⟨x, Or.inr hx, h1, by simp [h2]⟩
  · rintro ⟨x, hx | hx, h1, h2⟩
    · exact Or.inl ⟨x, hx, h1, by simpa using h2⟩
    · exact Or.inr ⟨x, hx, h1, by simpa using h2⟩

theorem query_miss_eq {σ : Type} (env : Env σ) (q : Question) (auth : Nameserver)
    (w w1 : σ)
    (hmiss : (env.hasCache = false ∧ w1 = w) ∨
      (env.hasCache = true ∧ env.cacheGet w q = (none, w1))) :
    query env q auth w = queryExchange env q auth (newLookupLog (some auth)) w1 := by
  unfold query
  rcases hmiss with ⟨h, rfl⟩ | ⟨h, hg⟩
  · simp [h]
  · simp [h, hg]

/-- C1: on a cache miss with a successful exchange, `query` fails with
`ErrOutOfBailiwick` exactly when some record of the answer or authority section
of the response is not an OPT record and its owner does not end with
`auth.Zone`; when `query` returns without error it returns the response, all of
whose non-OPT answer and authority records end with `auth.Zone`. -/
theorem query_bailiwick {σ : Type} (env : Env σ) (q : Question) (auth : Nameserver)
    (w w1 w2 : σ) (r : Msg)
    (hmiss : (env.hasCache = false ∧ w1 = w) ∨
      (env.hasCache = true ∧ env.cacheGet w q = (none, w1)))
    (hex : env.exchange w1 q auth.Addr = (.ok r, w2)) :
    ((query env q auth w).1.err = some .ErrOutOfBailiwick ↔
        ∃ record ∈ r.Answer ++ r.Ns,
          record.Hdr.Rrtype ≠ TypeOPT ∧ ¬ ∃ pre : String, record.Hdr.Name = pre ++ auth.Zone) ∧
      ((query env q auth w).1.err = none →
        (query env q auth w).1.msg = some r ∧
          ∀ record ∈ r.Answer ++ r.Ns,
            record.Hdr.Rrtype ≠ TypeOPT → ∃ pre : String, record.Hdr.Name = pre ++ auth.Zone) := by
  rw [query_miss_eq env q auth w w1 hmiss]
  unfold queryExchange
  rw [hex]
  by_cases hb : outOfBailiwick r auth.Zone = true
  · have hb2 := (outOfBailiwick_iff r auth.Zone).1 hb
    simp only [hb, if_true]
    exact ⟨⟨fun _ => hb2, fun _ => trivial⟩, fun h => by simp at h⟩
  · have hb2 := mt (outOfBailiwick_iff r auth.Zone).2 hb
    simp only [hb]
    refine ⟨⟨fun h => by simp at h, fun h => absurd h hb2⟩, fun _ => ⟨rfl, ?_⟩⟩
    intro record hrec hopt
    by_contra hno
    exact hb2 ⟨record, hrec, hopt, hno⟩

theorem query_bailiwick_witness :
    ((query evilEnv { Name := "www.example.", Type_ := TypeA } exampleNS 0).1.err =
          some .ErrOutOfBailiwick ↔
        ∃ record ∈ msgEvil.Answer ++ msgEvil.Ns,
          record.Hdr.Rrtype ≠ TypeOPT ∧
            ¬ ∃ pre : String, record.Hdr.Name = pre ++ exampleNS.Zone) ∧
      ((query evilEnv { Name := "www.example.", Type_ := TypeA } exampleNS 0).1.err = none →
        (query evilEnv { Name := "www.example.", Type_ := TypeA } exampleNS 0).1.msg =
            some msgEvil ∧
          ∀ record ∈ msgEvil.Answer ++ msgEvil.Ns,
            record.Hdr.Rrtype ≠ TypeOPT →
              ∃ pre : String, record.Hdr.Name = pre ++ exampleNS.Zone) :=
  query_bailiwick evilEnv { Name := "www.example.", Type_ := TypeA } exampleNS 0 0 1 msgEvil
    (Or.inr ⟨rfl, rfl⟩) rfl

/-! ## `checkDS` -/

theorem checkDS_cons_absent (toDS : DNSKEY → Nat → Option DS) (keyMap : List (Nat × DNSKEY))
    (p : RR_Header × DS) (rest : List RR) (h : keyMap.lookup p.2.KeyTag = none) :
    checkDS toDS keyMap (dsRecord p :: rest) = checkDS toDS keyMap rest := by
  simp [checkDS, dsRecord, h]

/-- C2 (as stated, refuted): a DS set that contains a DS matching a key of the
map, preceded by a DS with the same key tag and another digest, is rejected
with `ErrMismatchingDS`. -/
theorem checkDS_later_match_rejected :
    (∃ r ∈ dsDemoSet, ∃ d ksk ds, r.data = .DS d ∧ dsDemoKeys.lookup d.KeyTag = some ksk ∧
        toyToDS ksk d.DigestType = some ds ∧ ds.Digest = d.Digest) ∧
      checkDS toyToDS dsDemoKeys dsDemoSet = .ret (some .ErrMismatchingDS) := by
  refine ⟨⟨_, List.mem_cons_of_mem _ (List.mem_singleton.2 rfl), _, _, _, rfl, rfl, rfl, rfl⟩, ?_⟩
  decide

theorem checkDS_first_present (toDS : DNSKEY → Nat → Option DS) (keyMap : List (Nat × DNSKEY))
    (dss : List (RR_Header × DS)) :
    checkDS toDS keyMap (dss.map dsRecord) =
      match dss.find? (fun p => (keyMap.lookup p.2.KeyTag).isSome) with
      | none => .ret (some .ErrMissingKSK)
      | some p =>
        match keyMap.lookup p.2.KeyTag with
        | none => .ret (some .ErrMissingKSK)
        | some ksk =>
          match toDS ksk p.2.DigestType with
          | none => .ret (some .ErrFailedToConvertKSK)
          | some ds =>
            if ds.Digest = p.2.Digest then .ret none else .ret (some .ErrMismatchingDS) := by
  induction dss with
  | nil => rfl
  | cons p rest ih =>
    rw [List.map_cons]
    cases hk : keyMap.lookup p.2.KeyTag with
    | none =>
      rw [checkDS_cons_absent toDS keyMap p _ hk, ih]
      simp only [List.find?_cons, hk, Option.isSome_none]
    | some ksk =>
      simp only [List.find?_cons, hk, Option.isSome_some]
      cases hd : toDS ksk p.2.DigestType with
      | none => simp [checkDS, dsRecord, hk, hd]
      | some ds =>
        by_cases hdig : ds.Digest = p.2.Digest
        · simp [checkDS, dsRecord, hk, hd, hdig]
        · simp [checkDS, dsRecord, hk, hd, hdig]

/-- C2 (amended): on a DS set `checkDS` returns, and the first DS of the set
whose key tag is in the key map decides the result, whatever DS records follow
it: `checkDS` returns success exactly when that DS has a digest equal to the
digest of the DS converted from its DNSKEY with its digest type; it returns
`ErrFailedToConvertKSK` when the conversion fails and `ErrMismatchingDS` when
the digests differ; and it returns `ErrMissingKSK` exactly when no DS of the set
has its key tag in the key map. -/
theorem checkDS_success_iff (toDS : DNSKEY → Nat → Option DS) (keyMap : List (Nat × DNSKEY))
    (dss : List (RR_Header × DS)) :
    (∃ e, checkDS toDS keyMap (dss.map dsRecord) = .ret e) ∧
      (checkDS toDS keyMap (dss.map dsRecord) = .ret none ↔
        ∃ p ksk ds, dss.find? (fun p => (keyMap.lookup p.2.KeyTag).isSome) = some p ∧
          keyMap.lookup p.2.KeyTag = some ksk ∧ toDS ksk p.2.DigestType = some ds ∧
          ds.Digest = p.2.Digest) ∧
      (∀ p ksk, dss.find? (fun p => (keyMap.lookup p.2.KeyTag).isSome) = some p →
        keyMap.lookup p.2.KeyTag = some ksk → toDS ksk p.2.DigestType = none →
          checkDS toDS keyMap (dss.map dsRecord) = .ret (some .ErrFailedToConvertKSK)) ∧
      (∀ p ksk ds, dss.find? (fun p => (keyMap.lookup p.2.KeyTag).isSome) = some p →
        keyMap.lookup p.2.KeyTag = some ksk → toDS ksk p.2.DigestType = some ds →
          ds.Digest ≠ p.2.Digest →
            checkDS toDS keyMap (dss.map dsRecord) = .ret (some .ErrMismatchingDS)) ∧
      (checkDS toDS keyMap (dss.map dsRecord) = .ret (some .ErrMissingKSK) ↔
        ∀ p ∈ dss, keyMap.lookup p.2.KeyTag = none) := by
  have heq := checkDS_first_present toDS keyMap dss
  cases hf : dss.find? (fun p => (keyMap.lookup p.2.KeyTag).isSome) with
  | none =>
    simp only [hf] at heq
    have hall : ∀ p ∈ dss, keyMap.lookup p.2.KeyTag = none := by
      intro p hp
      have := List.find?_eq_none.1 hf p hp
      cases hl : keyMap.lookup p.2.KeyTag with
      | none => rfl
      | some k => rw [hl] at this; exact absurd rfl this
    refine ⟨⟨_, heq⟩, ?_, ?_, ?_, ?_⟩
    · rw [heq]
      constructor
      · intro h; cases h
      · rintro ⟨p, ksk, ds, h, _⟩; cases h
    · intro p ksk h; cases h
    · intro p ksk ds h; cases h
    · rw [heq]
      exact ⟨fun _ => hall, fun _ => rfl⟩
  | some p =>
    simp only [hf] at heq
    have hsome := List.find?_some hf
    have hmem := List.mem_of_find?_eq_some hf
    obtain ⟨ksk, hk⟩ := Option.isSome_iff_exists.1 hsome
    simp only [hk] at heq
    have hnotall : ¬ ∀ p2 ∈ dss, keyMap.lookup p2.2.KeyTag = none := by
      intro hall
      rw [hall p hmem] at hk
      cases hk
    cases hd : toDS ksk p.2.DigestType with
    | none =>
      simp only [hd] at heq
      refine ⟨⟨_, heq⟩, ?_, ?_, ?_, ?_⟩
      · rw [heq]
        constructor
        · intro h; cases h
        · rintro ⟨p2, ksk2, ds2, h1, h2, h3, _⟩
          cases h1
          rw [hk] at h2
          cases h2
          rw [hd] at h3
          cases h3
      · intro p2 ksk2 _ _ _
        exact heq
      · intro p2 ksk2 ds2 h1 h2 h3
        cases h1
        rw [hk] at h2
        cases h2
        rw [hd] at h3
        cases h3
      · rw [heq]
        constructor
        · intro h; cases h
        · intro h; exact absurd h hnotall
    | some ds =>
      simp only [hd] at heq
      by_cases hdig : ds.Digest = p.2.Digest
      · simp only [hdig, if_true] at heq
        refine ⟨⟨_, heq⟩, ?_, ?_, ?_, ?_⟩
        · rw [heq]
          exact ⟨fun _ => ⟨p, ksk, ds, rfl, hk, hd, hdig⟩, fun _ => rfl⟩
        · intro p2 ksk2 h1 h2 h3
          cases h1
          rw [hk] at h2
          cases h2
          rw [hd] at h3
          cases h3
        · intro p2 ksk2 ds2 h1 h2 h3 h4
          cases h1
          rw [hk] at h2
          cases h2
          rw [hd] at h3
          cases h3
          exact absurd hdig h4
        · rw [heq]
          constructor
          · intro h; cases h
          · intro h; exact absurd h hnotall
      · simp only [hdig, if_false] at heq
        refine ⟨⟨_, heq⟩, ?_, ?_, ?_, ?_⟩
        · rw [heq]
          constructor
          · intro h; cases h
          · rintro ⟨p2, ksk2, ds2, h1, h2, h3, h4⟩
            cases h1
            rw [hk] at h2
            cases h2
            rw [hd] at h3
            cases h3
            exact absurd h4 hdig
        · intro p2 ksk2 h1 h2 h3
          cases h1
          rw [hk] at h2
          cases h2
          rw [hd] at h3
          cases h3
        · intro p2 ksk2 ds2 _ _ _ _
          exact heq
        · rw [heq]
          constructor
          · intro h; cases h
          · intro h; exact absurd h hnotall

theorem checkDS_success_iff_witness :
    checkDS sha256OnlyToDS dsDemoKeys dsMixedSet = .ret (some .ErrFailedToConvertKSK) ∧
      checkDS toyToDS dsDemoKeys dsDemoSet = .ret (some .ErrMismatchingDS) ∧
      checkDS toyToDS dsDemoKeys (dsDemoSet.drop 1) = .ret none ∧
      checkDS toyToDS dsDemoKeys [dsStrayRecord] = .ret (some .ErrMissingKSK) :=
  ⟨(checkDS_success_iff sha256OnlyToDS dsDemoKeys
      [({ Name := "example.", Rrtype := TypeDS, Ttl := 300 },
          { KeyTag := 7, Algorithm := 8, DigestType := 4, Digest := "current" }),
        ({ Name := "example.", Rrtype := TypeDS, Ttl := 300 },
          { KeyTag := 7, Algorithm := 8, DigestType := 2, Digest := "current" })]).2.2.1
      _ _ rfl rfl rfl,
    (checkDS_success_iff toyToDS dsDemoKeys
      [({ Name := "example.", Rrtype := TypeDS, Ttl := 300 },
          { KeyTag := 7, Algorithm := 8, DigestType := 2, Digest := "stale" }),
        ({ Name := "example.", Rrtype := TypeDS, Ttl := 300 },
          { KeyTag := 7, Algorithm := 8, DigestType := 2, Digest := "current" })]).2.2.2.1
      _ _ _ rfl rfl rfl (by decide),
    (checkDS_success_iff toyToDS dsDemoKeys
      [({ Name := "example.", Rrtype := TypeDS, Ttl := 300 },
          { KeyTag := 7, Algorithm := 8, DigestType := 2, Digest := "current" })]).2.1.2
      ⟨_, _, _, rfl, rfl, rfl, rfl⟩,
    (checkDS_success_iff toyToDS dsDemoKeys
      [({ Name := "example.", Rrtype := TypeDS, Ttl := 300 },
          { KeyTag := 9, Algorithm := 8, DigestType := 2, Digest := "other" })]).2.2.2.2.2
      (by decide)⟩

/-! ## `verifyRRSIG` -/

theorem verifySection_nil (verify : RRSIG → DNSKEY → List RR → Option GoError)
    (validityPeriod : RRSIG → Bool) (keyMap : List (Nat × DNSKEY)) :
    verifySection verify validityPeriod keyMap [] = .ret none := by
  simp [verifySection]

theorem verifySection_unsigned (verify : RRSIG → DNSKEY → List RR → Option GoError)
    (validityPeriod : RRSIG → Bool) (keyMap : List (Nat × DNSKEY)) (sec : List RR)
    (hne : sec ≠ []) (hsig : extractRRSet sec "" [TypeRRSIG] = []) :
    verifySection verify validityPeriod keyMap sec = .ret (some .ErrNoSignatures) := by
  have hlen : sec.length ≠ 0 := fun h => hne (List.length_eq_zero.1 h)
  simp [verifySection, hlen, hsig]

theorem verifyRRSIG_eq (verify : RRSIG → DNSKEY → List RR → Option GoError)
    (validityPeriod : RRSIG → Bool) (msg : Msg) (keyMap : List (Nat × DNSKEY)) :
    verifyRRSIG verify validityPeriod msg keyMap =
      match verifySection verify validityPeriod keyMap msg.Answer with
      | .ret none => verifySection verify validityPeriod keyMap msg.Ns
      | o => o := by
  unfold verifyRRSIG
  simp only [verifySections]
  cases h : verifySection verify validityPeriod keyMap msg.Answer with
  | ret e =>
    cases e with
    | none =>
      simp only []
      cases verifySection verify validityPeriod keyMap msg.Ns with
      | ret e2 => cases e2 <;> rfl
      | panic => rfl
      | timeout => rfl
    | some err => rfl
  | panic => rfl
  | timeout => rfl

/-- C5 (as stated, refuted): the authority section of `msgOrphanSig` is
non-empty and holds no RRSIG, yet `verifyRRSIG` fails with `ErrMissingSigned`,
the failure of the answer section, and not with `ErrNoSignatures`. -/
theorem verifyRRSIG_unsigned_authority_other_error :
    msgOrphanSig.Ns ≠ [] ∧ extractRRSet msgOrphanSig.Ns "" [TypeRRSIG] = [] ∧
      verifyRRSIG toyVerify toyValidityPeriod msgOrphanSig [] = .ret (some .ErrMissingSigned) := by
  decide

/-- C5 (amended): a non-empty answer section without RRSIG makes `verifyRRSIG`
fail with `ErrNoSignatures`; a non-empty authority section without RRSIG makes
it fail with `ErrNoSignatures` when the answer section is empty or verified, and
otherwise `verifyRRSIG` ends as the check of the answer section does; a message
whose answer and authority sections are both empty verifies. -/
theorem verifyRRSIG_no_signatures (verify : RRSIG → DNSKEY → List RR → Option GoError)
    (validityPeriod : RRSIG → Bool) (msg : Msg) (keyMap : List (Nat × DNSKEY)) :
    (msg.Answer ≠ [] → extractRRSet msg.Answer "" [TypeRRSIG] = [] →
        verifyRRSIG verify validityPeriod msg keyMap = .ret (some .ErrNoSignatures)) ∧
      (msg.Ns ≠ [] → extractRRSet msg.Ns "" [TypeRRSIG] = [] →
        (verifySection verify validityPeriod keyMap msg.Answer = .ret none →
            verifyRRSIG verify validityPeriod msg keyMap = .ret (some .ErrNoSignatures)) ∧
          (verifySection verify validityPeriod keyMap msg.Answer ≠ .ret none →
            verifyRRSIG verify validityPeriod msg keyMap =
              verifySection verify validityPeriod keyMap msg.Answer)) ∧
      (msg.Answer = [] → msg.Ns = [] →
        verifyRRSIG verify validityPeriod msg keyMap = .ret none) := by
  refine ⟨fun hne hsig => ?_, fun hne hsig => ⟨fun hans => ?_, fun hans => ?_⟩, fun ha hn => ?_⟩
  · rw [verifyRRSIG_eq, verifySection_unsigned verify validityPeriod keyMap _ hne hsig]
  · rw [verifyRRSIG_eq, hans]
    exact verifySection_unsigned verify validityPeriod keyMap _ hne hsig
  · rw [verifyRRSIG_eq]
    cases h : verifySection verify validityPeriod keyMap msg.Answer with
    | ret e =>
      cases e with
      | none => exact absurd h hans
      | some err => rfl
    | panic => rfl
    | timeout => rfl
  · rw [verifyRRSIG_eq, ha, hn, verifySection_nil]

theorem verifyRRSIG_no_signatures_witness :
    verifyRRSIG toyVerify toyValidityPeriod msgUnsignedAnswer [] = .ret (some .ErrNoSignatures) ∧
      verifyRRSIG toyVerify toyValidityPeriod msgUnsignedNs [] = .ret (some .ErrNoSignatures) ∧
      verifyRRSIG toyVerify toyValidityPeriod msgOrphanSig [] =
        verifySection toyVerify toyValidityPeriod [] msgOrphanSig.Answer ∧
      verifyRRSIG toyVerify toyValidityPeriod msgEmpty [] = .ret none :=
  ⟨(verifyRRSIG_no_signatures toyVerify toyValidityPeriod msgUnsignedAnswer []).1
      (by decide) (by decide),
    ((verifyRRSIG_no_signatures toyVerify toyValidityPeriod msgUnsignedNs []).2.1
      (by decide) (by decide)).1 (by decide),
    ((verifyRRSIG_no_signatures toyVerify toyValidityPeriod msgOrphanSig []).2.1
      (by decide) (by decide)).2 (by decide),
    (verifyRRSIG_no_signatures toyVerify toyValidityPeriod msgEmpty []).2.2 rfl rfl⟩

theorem verifySigs_missing_key (verify : RRSIG → DNSKEY → List RR → Option GoError)
    (validityPeriod : RRSIG → Bool) (keyMap : List (Nat × DNSKEY)) (sec sigs : List RR)
    (sigRR : RR) (sig : RRSIG) (hsig : sigRR.data = .RRSIG sig)
    (hkey : keyMap.lookup sig.KeyTag = none) :
    verifySigs verify validityPeriod keyMap sec (sigRR :: sigs) =
      if extractRRSet sec sigRR.Hdr.Name [sig.TypeCovered] = [] then .ret (some .ErrMissingSigned)
      else .ret (some .ErrMissingDNSKEY) := by
  rw [verifySigs]
  simp only [hsig, hkey, List.length_eq_zero]

theorem verifySection_missing_key (verify : RRSIG → DNSKEY → List RR → Option GoError)
    (validityPeriod : RRSIG → Bool) (keyMap : List (Nat × DNSKEY)) (sec : List RR)
    (sigRR : RR) (sig : RRSIG)
    (hhead : (extractRRSet sec "" [TypeRRSIG]).head? = some sigRR)
    (hsig : sigRR.data = .RRSIG sig) (hkey : keyMap.lookup sig.KeyTag = none) :
    verifySection verify validityPeriod keyMap sec =
      if extractRRSet sec sigRR.Hdr.Name [sig.TypeCovered] = [] then .ret (some .ErrMissingSigned)
      else .ret (some .ErrMissingDNSKEY) := by
  cases hs : extractRRSet sec "" [TypeRRSIG] with
  | nil => simp [hs] at hhead
  | cons s sigs =>
    rw [hs, List.head?_cons, Option.some.injEq] at hhead
    subst hhead
    have hne : sec.length ≠ 0 := by
      intro h
      rw [List.length_eq_zero.1 h] at hs
      simp [extractRRSet] at hs
    unfold verifySection
    simp only [hne, if_false, hs, List.length_cons, Nat.succ_ne_zero]
    exact verifySigs_missing_key verify validityPeriod keyMap sec sigs s sig hsig hkey

/-- C6 (as stated, refuted): the first RRSIG examined in `msgOrphanSig` has
the key tag 7, which is absent from the empty key map, and `verifyRRSIG` fails
with `ErrMissingSigned`, not with `ErrMissingDNSKEY`. -/
theorem verifyRRSIG_orphan_signature :
    (extractRRSet msgOrphanSig.Answer "" [TypeRRSIG]).head? =
        some (sigRecord "www.example." TypeA 7) ∧
      ([] : List (Nat × DNSKEY)).lookup 7 = none ∧
      verifyRRSIG toyVerify toyValidityPeriod msgOrphanSig [] = .ret (some .ErrMissingSigned) := by
  decide

/-- C6 (amended): when the first RRSIG examined by `verifyRRSIG` (the first
RRSIG of the answer section, or of the authority section when the answer
section is empty) carries a key tag absent from the key map, `verifyRRSIG`
fails with `ErrMissingDNSKEY` if the section holds a record of the owner and
covered type of the signature, and with `ErrMissingSigned` if it holds none:
the covered RRset is gathered before the key is looked up. -/
theorem verifyRRSIG_missing_key (verify : RRSIG → DNSKEY → List RR → Option GoError)
    (validityPeriod : RRSIG → Bool) (msg : Msg) (keyMap : List (Nat × DNSKEY))
    (sigRR : RR) (sig : RRSIG)
    (hhead : (extractRRSet (if msg.Answer = [] then msg.Ns else msg.Answer)
      "" [TypeRRSIG]).head? = some sigRR)
    (hsig : sigRR.data = .RRSIG sig) (hkey : keyMap.lookup sig.KeyTag = none) :
    (extractRRSet (if msg.Answer = [] then msg.Ns else msg.Answer)
          sigRR.Hdr.Name [sig.TypeCovered] ≠ [] →
        verifyRRSIG verify validityPeriod msg keyMap = .ret (some .ErrMissingDNSKEY)) ∧
      (extractRRSet (if msg.Answer = [] then msg.Ns else msg.Answer)
          sigRR.Hdr.Name [sig.TypeCovered] = [] →
        verifyRRSIG verify validityPeriod msg keyMap = .ret (some .ErrMissingSigned)) := by
  rw [verifyRRSIG_eq]
  by_cases ha : msg.Answer = []
  · rw [if_pos ha] at hhead ⊢
    rw [ha, verifySection_nil]
    simp only []
    rw [verifySection_missing_key verify validityPeriod keyMap _ sigRR sig hhead hsig hkey]
    constructor
    · intro h
      rw [if_neg h]
    · intro h
      rw [if_pos h]
  · rw [if_neg ha] at hhead ⊢
    rw [verifySection_missing_key verify validityPeriod keyMap _ sigRR sig hhead hsig hkey]
    constructor
    · intro h
      rw [if_neg h]
    · intro h
      rw [if_pos h]

theorem verifyRRSIG_missing_key_witness :
    verifyRRSIG toyVerify toyValidityPeriod msgSignedAnswer [] = .ret (some .ErrMissingDNSKEY) :=
  (verifyRRSIG_missing_key toyVerify toyValidityPeriod msgSignedAnswer []
    (sigRecord "www.example." TypeA 7)
    { TypeCovered := TypeA, Algorithm := 8, Expiration := 0, Inception := 0,
      KeyTag := 7, SignerName := "example.", Signature := "" }
    (by decide) rfl rfl).1 (by decide)

/-! ## `isAlias` -/

theorem isAlias_single (fuel : Nat) (answer : List RR) (q : Question) (rr : RR)
    (h : filterRRSet answer [TypeRRSIG] = [rr]) :
    isAlias fuel answer q =
      match rr.data with
      | .CNAME target =>
        if q.Type_ = TypeCNAME then .ret (false, "") else .ret (true, target)
      | .DNAME target =>
        if q.Type_ = TypeDNAME then .ret (false, "")
        else if !(HasSuffix q.Name rr.Hdr.Name) then .ret (false, "")
        else .ret (true, TrimSuffix q.Name rr.Hdr.Name ++ target)
      | _ => .ret (false, "") := by
  unfold isAlias
  simp only [h, List.length_singleton, Nat.succ_ne_zero, if_false, gt_iff_lt, Nat.lt_irrefl,
    List.head?_cons]
  obtain ⟨hdr, data⟩ := rr
  cases data <;> rfl

/-- C10: when the answer without its RRSIGs is one DNAME record, `isAlias`
answers true for a question of another type whose name ends with the owner of
the DNAME, and the canonical name is the question name with the owner suffix
removed, followed by the DNAME target; for a question of type DNAME, or whose
name does not end with the owner, it answers not an alias. -/
theorem isAlias_dname (fuel : Nat) (answer : List RR) (q : Question) (hdr : RR_Header)
    (target : String)
    (h : filterRRSet answer [TypeRRSIG] = [{ Hdr := hdr, data := .DNAME target }]) :
    (∀ pre : String, q.Type_ ≠ TypeDNAME → q.Name = pre ++ hdr.Name →
        isAlias fuel answer q = .ret (true, pre ++ target)) ∧
      (q.Type_ = TypeDNAME ∨ (¬ ∃ pre : String, q.Name = pre ++ hdr.Name) →
        isAlias fuel answer q = .ret (false, "")) := by
  rw [isAlias_single fuel answer q _ h]
  simp only []
  constructor
  · intro pre hty hname
    have hs : HasSuffix q.Name hdr.Name = true := (hasSuffix_iff _ _).2 ⟨pre, hname⟩
    rw [if_neg hty, hs, hname, trimSuffix_append]
    rfl
  · rintro (hty | hno)
    · rw [if_pos hty]
    · have hs : HasSuffix q.Name hdr.Name = false := by
        cases hb : HasSuffix q.Name hdr.Name with
        | false => rfl
        | true => exact absurd ((hasSuffix_iff _ _).1 hb) hno
      by_cases hty : q.Type_ = TypeDNAME
      · rw [if_pos hty]
      · rw [if_neg hty, hs]
        rfl

theorem isAlias_dname_witness :
    isAlias 0 [dnameRecord "example." "example.net.", sigRecord "example." TypeDNAME 7]
        { Name := "www.example.", Type_ := TypeA } = .ret (true, "www." ++ "example.net.") ∧
      isAlias 0 [dnameRecord "example." "example.net.", sigRecord "example." TypeDNAME 7]
        { Name := "example.", Type_ := TypeDNAME } = .ret (false, "") :=
  ⟨(isAlias_dname 0 [dnameRecord "example." "example.net.", sigRecord "example." TypeDNAME 7]
      { Name := "www.example.", Type_ := TypeA }
      { Name := "example.", Rrtype := TypeDNAME, Ttl := 300 } "example.net." (by decide)).1
      "www." (by decide) (by decide),
    (isAlias_dname 0 [dnameRecord "example." "example.net.", sigRecord "example." TypeDNAME 7]
      { Name := "example.", Type_ := TypeDNAME }
      { Name := "example.", Rrtype := TypeDNAME, Ttl := 300 } "example.net." (by decide)).2
      (Or.inl rfl)⟩

/-! ## `Lookup`: one composite per top-level query -/

@[simp] theorem LookupLog.composites_setInfo (l : LookupLog) (f : LogInfo → LogInfo) :
    (l.setInfo f).Composites = l.Composites := rfl

@[simp] theorem LookupLog.info_setInfo (l : LookupLog) (f : LogInfo → LogInfo) :
    (l.setInfo f).info = f l.info := rfl

@[simp] theorem LookupLog.composites_appendComposite (l c : LookupLog) :
    (l.appendComposite c).Composites = l.Composites ++ [c] := rfl

@[simp] theorem LookupLog.info_appendComposite (l c : LookupLog) :
    (l.appendComposite c).info = l.info := rfl

theorem Step.Sat.imp {σ : Type} {P P2 : LoopState → σ → Prop} {Q Q2 : LookupResult → σ → Prop}
    {s : Step σ} (h : s.Sat P Q) (hP : ∀ st w, P st w → P2 st w)
    (hQ : ∀ res w, Q res w → Q2 res w) : s.Sat P2 Q2 := by
  cases s with
  | next st w => exact hP st w h
  | exit res w => exact hQ res w h
  | panic => trivial
  | timeout => trivial

theorem exitError_sat {σ : Type} (P : LoopState → σ → Prop) (Q : LookupResult → σ → Prop)
    (ll log : LookupLog) (err : GoError) (w : σ)
    (h : Q { answer := none, log := ll.appendComposite (setError log err), err := some err } w) :
    (exitError ll log err w).Sat P Q := h

theorem exitInvalid_sat {σ : Type} (P : LoopState → σ → Prop) (Q : LookupResult → σ → Prop)
    (ll log : LookupLog) (err : GoError) (w : σ)
    (h : Q { answer := none,
             log := (ll.setInfo fun i => { i with DNSSECValid := false }).appendComposite
               ((setError log err).setInfo fun i => { i with DNSSECValid := false }),
             err := some err } w) :
    (exitInvalid ll log err w).Sat P Q := h

/-- The postcondition on the number of composites: one more than `n`. -/
theorem referral_grows {σ : Type} (env : Env σ)
    (lookup : Question → σ → Outcome (LookupResult × σ)) (i : Nat) (st : LoopState)
    (ll : LookupLog) (r : Msg) (log : LookupLog) (nsecSet : List RR) (w : σ) (n : Nat)
    (hn : ll.Composites.length = n) :
    (referral env lookup i st ll r log nsecSet w).Sat
      (fun st1 _ => st1.ll.Composites.length = n + 1)
      (fun res _ => res.log.Composites.length = n + 1) := by
  unfold referral
  split
  · trivial
  · trivial
  · dsimp only
    split
    · apply exitError_sat; simp [hn]
    · split
      · trivial
      · split
        · apply exitInvalid_sat; simp [hn]
        · simp [Step.Sat, hn]

theorem chase_grows {σ : Type} (env : Env σ) (st : LoopState) (ll : LookupLog) (r : Msg)
    (log : LookupLog) (c : String) (w : σ) (n : Nat) (hn : ll.Composites.length = n) :
    (chase env st ll r log c w).Sat
      (fun st1 _ => st1.ll.Composites.length = n + 1)
      (fun res _ => res.log.Composites.length = n + 1) := by
  unfold chase
  split
  · apply exitError_sat; simp [hn]
  · split
    · trivial
    · trivial
    · split
      · trivial
      · simp [Step.Sat, hn]

theorem classify_grows {σ : Type} (env : Env σ)
    (lookup : Question → σ → Outcome (LookupResult × σ)) (fuel i : Nat) (st : LoopState)
    (ll : LookupLog) (r : Msg) (log : LookupLog) (validated : Bool) (w : σ) (n : Nat)
    (hn : ll.Composites.length = n) :
    (classify env lookup fuel i st ll r log validated w).Sat
      (fun st1 _ => st1.ll.Composites.length = n + 1)
      (fun res _ => res.log.Composites.length = n + 1) := by
  unfold classify
  split
  · dsimp only
    split
    · apply exitInvalid_sat; simp [hn]
    · simp [Step.Sat, hn]
  · split
    · split
      · trivial
      · trivial
      · exact chase_grows env st ll r log _ w n hn
      · simp [Step.Sat, hn]
    · dsimp only
      split
      · split
        · apply exitInvalid_sat; simp [hn]
        · simp [Step.Sat, hn]
      · exact referral_grows env lookup i st ll r log _ w n hn

theorem validate_grows {σ : Type} (env : Env σ)
    (lookup : Question → σ → Outcome (LookupResult × σ)) (fuel i : Nat) (st : LoopState)
    (r : Option Msg) (log : LookupLog) (w : σ) :
    (validate env lookup fuel i st r log w).Sat
      (fun st1 _ => st1.ll.Composites.length = st.ll.Composites.length + 1)
      (fun res _ => res.log.Composites.length = st.ll.Composites.length + 1) := by
  unfold validate
  dsimp only
  split
  · split
    · trivial
    · trivial
    · apply exitError_sat; simp
    · split
      · trivial
      · exact classify_grows env lookup fuel i st _ _ _ _ _ _ (by simp)
  · split
    · trivial
    · exact classify_grows env lookup fuel i st _ _ _ _ _ _ (by simp)

theorem iteration_grows {σ : Type} (env : Env σ)
    (lookup : Question → σ → Outcome (LookupResult × σ)) (fuel i : Nat) (st : LoopState)
    (w : σ) :
    (iteration env lookup fuel i st w).Sat
      (fun st1 _ => st1.ll.Composites.length = st.ll.Composites.length + 1)
      (fun res _ => res.log.Composites.length = st.ll.Composites.length + 1) := by
  unfold iteration
  split
  split
  · split
    · apply exitError_sat; simp
    · exact validate_grows env lookup fuel i st _ _ _
  · exact validate_grows env lookup fuel i st _ _ _

/-! ## `Lookup`: the bound on referrals -/

theorem lookupLoop_composites {σ : Type} (env : Env σ)
    (lookup : Question → σ → Outcome (LookupResult × σ)) (fuel : Nat) :
    ∀ (n i : Nat) (st : LoopState) (w : σ) (res : LookupResult) (w1 : σ),
      lookupLoop env lookup fuel n i st w = .ret (res, w1) →
        res.log.Composites.length ≤ st.ll.Composites.length + n := by
  intro n
  induction n with
  | zero =>
    intro i st w res w1 h
    simp only [lookupLoop, Outcome.ret.injEq, Prod.mk.injEq] at h
    rw [← h.1]
    exact Nat.le_refl _
  | succ n ih =>
    intro i st w res w1 h
    have hg := iteration_grows env lookup fuel i st w
    rw [lookupLoop] at h
    cases hit : iteration env lookup fuel i st w with
    | next st1 w2 =>
      rw [hit] at h hg
      have := ih (i + 1) st1 w2 res w1 h
      simp only [Step.Sat] at hg
      omega
    | exit res2 w2 =>
      rw [hit] at h hg
      simp only [Outcome.ret.injEq, Prod.mk.injEq] at h
      simp only [Step.Sat] at hg
      rw [← h.1]
      omega
    | panic => rw [hit] at h; cases h
    | timeout => rw [hit] at h; cases h

theorem continues_composites {σ : Type} (env : Env σ)
    (lookup : Question → σ → Outcome (LookupResult × σ)) (fuel : Nat) :
    ∀ (n i : Nat) (st : LoopState) (w : σ) (st1 : LoopState) (w1 : σ),
      continues env lookup fuel n i st w = some (st1, w1) →
        lookupLoop env lookup fuel n i st w =
            .ret ({ answer := none, log := st1.ll, err := some .ErrTooManyReferrals }, w1) ∧
          st1.ll.Composites.length = st.ll.Composites.length + n := by
  intro n
  induction n with
  | zero =>
    intro i st w st1 w1 h
    simp only [continues, Option.some.injEq, Prod.mk.injEq] at h
    rw [← h.1, ← h.2]
    exact ⟨rfl, rfl⟩
  | succ n ih =>
    intro i st w st1 w1 h
    have hg := iteration_grows env lookup fuel i st w
    rw [continues] at h
    rw [lookupLoop]
    cases hit : iteration env lookup fuel i st w with
    | next st2 w2 =>
      rw [hit] at h hg
      have := ih (i + 1) st2 w2 st1 w1 h
      simp only [Step.Sat] at hg
      exact ⟨this.1, by omega⟩
    | exit res2 w2 => rw [hit] at h; cases h
    | panic => rw [hit] at h; cases h
    | timeout => rw [hit] at h; cases h

theorem initialState_composites {σ : Type} (env : Env σ) (q : Question) (w : σ)
    (st : LoopState) (w1 : σ) (h : initialState env q w = .ret (st, w1)) :
    st.ll.Composites.length = 0 := by
  unfold initialState at h
  split at h
  · cases h
  · cases h
  · split at h
    · cases h
    · simp only [Outcome.ret.injEq, Prod.mk.injEq] at h
      rw [← h.1]
      rfl

/-- C7: a run of `Lookup` that returns has logged at most `MaxReferrals` (10)
top-level queries, one composite of its log for each; and when each of the
first `MaxReferrals` iterations ends as a referral or an alias chase processed
without error, `Lookup` returns no answer and `ErrTooManyReferrals`, after
exactly `MaxReferrals` top-level queries. -/
theorem lookup_max_referrals {σ : Type} (env : Env σ) (fuel : Nat) (q : Question) (w : σ) :
    (∀ res w1, Lookup env fuel q w = .ret (res, w1) →
        res.log.Composites.length ≤ MaxReferrals) ∧
      (∀ st0 w0 st w1, initialState env q w = .ret (st0, w0) →
        continues env (Lookup env fuel) (fuel + 1) MaxReferrals 0 st0 w0 = some (st, w1) →
          Lookup env (fuel + 1) q w =
              .ret ({ answer := none, log := st.ll, err := some .ErrTooManyReferrals }, w1) ∧
            st.ll.Composites.length = MaxReferrals) := by
  constructor
  · intro res w1 h
    cases fuel with
    | zero => cases h
    | succ fuel =>
      simp only [Lookup, lookupBody] at h
      cases hinit : initialState env q w with
      | ret p =>
        obtain ⟨st, w0⟩ := p
        rw [hinit] at h
        have h1 := lookupLoop_composites env _ _ _ _ _ _ _ _ h
        have h2 := initialState_composites env q w st w0 hinit
        omega
      | panic => rw [hinit] at h; cases h
      | timeout => rw [hinit] at h; cases h
  · intro st0 w0 st w1 hinit hcont
    have h1 := continues_composites env _ _ _ _ _ _ _ _ hcont
    have h2 := initialState_composites env q w st0 w0 hinit
    simp only [Lookup, lookupBody, hinit]
    exact ⟨h1.1, by omega⟩

theorem lookup_max_referrals_witness :
    (∃ res, Lookup cycleEnv 1 { Name := "www.example.", Type_ := TypeA } 0 = .ret (res, 10) ∧
        res.answer = none ∧ res.err = some .ErrTooManyReferrals ∧
        res.log.Composites.length = MaxReferrals) ∧
      ∀ res w1, Lookup cycleEnv 1 { Name := "www.example.", Type_ := TypeA } 0 = .ret (res, w1) →
        res.log.Composites.length ≤ MaxReferrals := by
  have hsome : ∀ o : Option (LoopState × Nat), o.isSome = true → Prod.snd <$> o = some 10 →
      ∃ st, o = some (st, 10) := by
    intro o h1 h2
    cases o with
    | none => cases h1
    | some p =>
      obtain ⟨st, w1⟩ := p
      simp only [Option.map_eq_map, Option.map_some', Option.some.injEq] at h2
      exact ⟨st, by rw [h2]⟩
  obtain ⟨st, hst⟩ := hsome
    (continues cycleEnv (Lookup cycleEnv 0) 1 MaxReferrals 0
      { authority := rootNS, q := { Name := "www.example.", Type_ := TypeA }, aliases := [],
        chased := [], parentDSSet := [], ll := newLookupLog none } 0)
    (by decide) (by decide)
  have h := lookup_max_referrals cycleEnv 0 { Name := "www.example.", Type_ := TypeA } 0
  have h2 := h.2 _ 0 st 10 rfl hst
  exact ⟨⟨_, h2.1, rfl, rfl, h2.2⟩,
    (lookup_max_referrals cycleEnv 1 { Name := "www.example.", Type_ := TypeA } 0).1⟩

/-! ## `Lookup`: NXDOMAIN without an NSEC3 proof -/

/-- C3 (the code at the failing input): the root, whose keys are cached,
answers NXDOMAIN with a signed SOA and no NSEC3 record. The response is
validated, no NXDOMAIN proof is present, and `Lookup` returns the answer with
rcode NXDOMAIN and `Authenticated = true`, no error, and a log with
`DNSSECValid = true`. -/
theorem lookup_name_error_unproved :
    extractRRSet msgNameErrorNoProof.Ns "" [TypeNSEC3] = [] ∧
      (Lookup nameErrorEnv 1 { Name := "nosuch.", Type_ := TypeA } 0).answerOf =
        some { Answer := [], Authority := msgNameErrorNoProof.Ns, Additional := [],
               Rcode := RcodeNameError, Authenticated := true } ∧
      (Lookup nameErrorEnv 1 { Name := "nosuch.", Type_ := TypeA } 0).errOf = none ∧
      (Lookup nameErrorEnv 1 { Name := "nosuch.", Type_ := TypeA } 0).logInfoOf =
        some { DNSSECValid := true } := by
  decide

/-! ## `Lookup`: the DS set across an alias -/

/-- C4 (the code at the failing input): the root refers to `example.` with a
DS set, and `example.` answers with an alias. The state carried into the next
iteration has the root as authority and the canonical name as question name,
and its `parentDSSet` is still the DS set of `example.`; the answer of the root
for the canonical name is then checked against that DS set and `Lookup` fails
with `ErrMissingKSK`, while a `Lookup` of the canonical name itself accepts the
same answer on its first hop. -/
theorem lookup_alias_keeps_ds :
    (continues aliasEnv (Lookup aliasEnv 0) 1 2 0
        (startState { Name := "www.example.", Type_ := TypeA }) 0).map
        (fun p => (p.1.authority, p.1.q.Name, p.1.parentDSSet)) =
        some (rootNS, "www.example.net.", [exampleDS]) ∧
      initialState aliasEnv { Name := "www.example.", Type_ := TypeA } 0 =
        .ret (startState { Name := "www.example.", Type_ := TypeA }, 0) ∧
      (Lookup aliasEnv 1 { Name := "www.example.", Type_ := TypeA } 0).errOf =
        some .ErrMissingKSK ∧
      (Lookup directEnv 1 { Name := "www.example.net.", Type_ := TypeA } 0).answerOf =
        some { Answer := msgRootAnswer.Answer, Authority := [], Additional := [],
               Rcode := RcodeSuccess, Authenticated := true } := by
  refine ⟨by decide, rfl, by decide, by decide⟩

/-! ## `Lookup`: the set of chased names -/

theorem contains_iff_mem (l : List String) (c : String) : l.contains c = true ↔ c ∈ l := by
  simp

theorem intn_pos {σ : Type} (env : Env σ) (n : Nat) (w : σ) (hn : n ≠ 0) :
    Intn env n w = .ret ((env.rand w).1 % n, (env.rand w).2) := by
  simp [Intn, hn]

theorem classify_alias {σ : Type} (env : Env σ)
    (lookup : Question → σ → Outcome (LookupResult × σ)) (fuel i : Nat) (st : LoopState)
    (ll : LookupLog) (r : Msg) (log : LookupLog) (validated : Bool) (w : σ) (c : String)
    (hrcode : r.Rcode = RcodeSuccess) (hans : r.Answer ≠ [])
    (halias : isAlias fuel r.Answer st.q = .ret (true, c)) :
    classify env lookup fuel i st ll r log validated w = chase env st ll r log c w := by
  have hlen : r.Answer.length > 0 := List.length_pos.2 hans
  unfold classify
  simp only [hrcode, ne_eq, not_true_eq_false, if_false, hlen, if_true, halias]

theorem chase_fresh {σ : Type} (env : Env σ) (st : LoopState) (ll : LookupLog) (r : Msg)
    (log : LookupLog) (c : String) (w : σ) (hc : c ∉ st.aliases)
    (hroots : env.rootNameservers ≠ []) :
    ∃ authority ∈ env.rootNameservers,
      chase env st ll r log c w =
        .next { st with aliases := c :: st.aliases,
                        authority := authority,
                        q := { st.q with Name := c },
                        chased := st.chased ++ extractRRSet r.Answer "" [TypeCNAME],
                        ll := ll.appendComposite log } (env.rand w).2 := by
  have hlen : env.rootNameservers.length ≠ 0 := fun h => hroots (List.length_eq_zero.1 h)
  have hlt : (env.rand w).1 % env.rootNameservers.length < env.rootNameservers.length :=
    Nat.mod_lt _ (Nat.pos_of_ne_zero hlen)
  have hcont : st.aliases.contains c = false := by
    cases hb : st.aliases.contains c with
    | false => rfl
    | true => exact absurd ((contains_iff_mem _ _).1 hb) hc
  refine ⟨env.rootNameservers[(env.rand w).1 % env.rootNameservers.length],
    List.getElem_mem _, ?_⟩
  unfold chase
  simp only [hcont, Bool.false_eq_true, if_false, intn_pos env _ w hlen,
    List.get?_eq_getElem? , List.getElem?_eq_getElem hlt]

theorem referral_aliases {σ : Type} (env : Env σ)
    (lookup : Question → σ → Outcome (LookupResult × σ)) (i : Nat) (st : LoopState)
    (ll : LookupLog) (r : Msg) (log : LookupLog) (nsecSet : List RR) (w : σ) :
    (referral env lookup i st ll r log nsecSet w).Sat
      (fun st1 _ => st1.aliases = st.aliases ∧ st1.q = st.q) (fun _ _ => True) := by
  unfold referral
  split
  · trivial
  · trivial
  · dsimp only
    split
    · trivial
    · split
      · trivial
      · split
        · trivial
        · simp [Step.Sat]

theorem chase_aliases {σ : Type} (env : Env σ) (st : LoopState) (ll : LookupLog) (r : Msg)
    (log : LookupLog) (c : String) (w : σ) :
    (chase env st ll r log c w).Sat
      (fun st1 _ => c ∉ st.aliases ∧ st1.aliases = c :: st.aliases ∧ st1.q.Name = c ∧
        st1.authority ∈ env.rootNameservers ∧ st1.parentDSSet = st.parentDSSet)
      (fun _ _ => True) := by
  unfold chase
  split
  · trivial
  · rename_i hc
    split
    · trivial
    · trivial
    · split
      · trivial
      · rename_i k w1 hk authority hget
        show _ ∧ _ ∧ _ ∧ _ ∧ _
        refine ⟨?_, rfl, rfl, List.get?_mem hget, rfl⟩
        intro hmem
        exact hc ((contains_iff_mem _ _).2 hmem)

theorem classify_aliases {σ : Type} (env : Env σ)
    (lookup : Question → σ → Outcome (LookupResult × σ)) (fuel i : Nat) (st : LoopState)
    (ll : LookupLog) (r : Msg) (log : LookupLog) (validated : Bool) (w : σ) :
    (classify env lookup fuel i st ll r log validated w).Sat
      (fun st1 _ => ∀ x ∈ st.aliases, x ∈ st1.aliases) (fun _ _ => True) := by
  unfold classify
  split
  · dsimp only
    split <;> trivial
  · split
    · split
      · trivial
      · trivial
      · refine (chase_aliases env st ll r log _ w).imp ?_ (fun _ _ h => h)
        intro st1 _ h x hx
        rw [h.2.1]
        exact List.mem_cons_of_mem _ hx
      · trivial
    · dsimp only
      split
      · split <;> trivial
      · refine (referral_aliases env lookup i st ll r log _ w).imp ?_ (fun _ _ h => h)
        intro st1 _ h x hx
        rw [h.1]
        exact hx

theorem validate_aliases {σ : Type} (env : Env σ)
    (lookup : Question → σ → Outcome (LookupResult × σ)) (fuel i : Nat) (st : LoopState)
    (r : Option Msg) (log : LookupLog) (w : σ) :
    (validate env lookup fuel i st r log w).Sat
      (fun st1 _ => ∀ x ∈ st.aliases, x ∈ st1.aliases) (fun _ _ => True) := by
  unfold validate
  dsimp only
  split
  · split
    · trivial
    · trivial
    · trivial
    · split
      · trivial
      · exact classify_aliases env lookup fuel i st _ _ _ _ _
  · split
    · trivial
    · exact classify_aliases env lookup fuel i st _ _ _ _ _

theorem iteration_aliases {σ : Type} (env : Env σ)
    (lookup : Question → σ → Outcome (LookupResult × σ)) (fuel i : Nat) (st : LoopState)
    (w : σ) :
    (iteration env lookup fuel i st w).Sat
      (fun st1 _ => ∀ x ∈ st.aliases, x ∈ st1.aliases) (fun _ _ => True) := by
  unfold iteration
  split
  split
  · split
    · trivial
    · exact validate_aliases env lookup fuel i st _ _ _
  · exact validate_aliases env lookup fuel i st _ _ _

/-- C8: an iteration of `Lookup` that goes on to the next keeps every name of
the set of chased canonical names; an alias response whose canonical name is
not in the set leads to the next iteration with exactly that name added; an
alias response whose canonical name is in the set makes `Lookup` return no
answer and the alias-loop error, in the same world, so that no further query is
issued. -/
theorem lookup_alias_set {σ : Type} (env : Env σ)
    (lookup : Question → σ → Outcome (LookupResult × σ)) (fuel i : Nat) (st : LoopState)
    (w : σ) :
    (∀ st1 w1, iteration env lookup fuel i st w = .next st1 w1 →
        ∀ x ∈ st.aliases, x ∈ st1.aliases) ∧
      (∀ (ll : LookupLog) (r : Msg) (log : LookupLog) (validated : Bool) (c : String),
        r.Rcode = RcodeSuccess → r.Answer ≠ [] → isAlias fuel r.Answer st.q = .ret (true, c) →
          (c ∉ st.aliases → env.rootNameservers ≠ [] →
            ∃ st1 w1, classify env lookup fuel i st ll r log validated w = .next st1 w1 ∧
              st1.aliases = c :: st.aliases) ∧
          (c ∈ st.aliases →
            classify env lookup fuel i st ll r log validated w =
              .exit { answer := none, log := ll.appendComposite (setError log .aliasLoop),
                      err := some .aliasLoop } w)) := by
  constructor
  · intro st1 w1 h
    have hs := iteration_aliases env lookup fuel i st w
    rw [h] at hs
    exact hs
  · intro ll r log validated c hrcode hans halias
    rw [classify_alias env lookup fuel i st ll r log validated w c hrcode hans halias]
    constructor
    · intro hc hroots
      obtain ⟨authority, _, h⟩ := chase_fresh env st ll r log c w hc hroots
      exact ⟨_, _, h, rfl⟩
    · intro hc
      have hcont : st.aliases.contains c = true := (contains_iff_mem _ _).2 hc
      simp only [chase, hcont, if_true, exitError]

theorem lookup_alias_set_witness :
    (∃ st1 w1,
        classify aliasEnv (Lookup aliasEnv 0) 1 1
            (startState { Name := "www.example.", Type_ := TypeA }) (newLookupLog none)
            msgExampleCNAME (newLookupLog (some exampleNS)) true 2 = .next st1 w1 ∧
          st1.aliases = ["www.example.net."]) ∧
      classify aliasEnv (Lookup aliasEnv 0) 1 1
          { startState { Name := "www.example.", Type_ := TypeA } with
            aliases := ["www.example.net."] }
          (newLookupLog none) msgExampleCNAME (newLookupLog (some exampleNS)) true 2 =
        .exit { answer := none,
                log := (newLookupLog none).appendComposite
                  (setError (newLookupLog (some exampleNS)) .aliasLoop),
                err := some .aliasLoop } 2 :=
  ⟨((lookup_alias_set aliasEnv (Lookup aliasEnv 0) 1 1
        (startState { Name := "www.example.", Type_ := TypeA }) 2).2
      (newLookupLog none) msgExampleCNAME (newLookupLog (some exampleNS)) true
      "www.example.net." rfl (by decide) (by decide)).1 (by decide) (by decide),
    ((lookup_alias_set aliasEnv (Lookup aliasEnv 0) 1 1
        { startState { Name := "www.example.", Type_ := TypeA } with
          aliases := ["www.example.net."] } 2).2
      (newLookupLog none) msgExampleCNAME (newLookupLog (some exampleNS)) true
      "www.example.net." rfl (by decide) (by decide)).2 (by decide)⟩

/-! ## `pickAuthority`: where the zone of the chosen authority comes from -/

theorem mem_mapSet {κ ν : Type} [BEq κ] (m : List (κ × ν)) (k : κ) (v : ν) (e : κ × ν)
    (h : e ∈ mapSet m k v) : e ∈ m ∨ e = (k, v) := by
  unfold mapSet at h
  split at h
  · rw [List.mem_map] at h
    obtain ⟨x, hx, hxe⟩ := h
    split at hxe
    · exact Or.inr hxe.symm
    · exact Or.inl (hxe ▸ hx)
  · rw [List.mem_append, List.mem_singleton] at h
    exact h

theorem splitNsToZone_mem (auths : List RR) :
    ∀ (m0 m : List (String × String)), splitNsToZone auths m0 = .ret m →
      ∀ e ∈ m, e ∈ m0 ∨
        ∃ rr ∈ auths, rr.Hdr.Rrtype = TypeNS ∧ rr.data = .NS e.1 ∧ rr.Hdr.Name = e.2 := by
  induction auths with
  | nil =>
    intro m0 m h e he
    simp only [splitNsToZone, Outcome.ret.injEq] at h
    exact Or.inl (h ▸ he)
  | cons rr rest ih =>
    intro m0 m h e he
    rw [splitNsToZone] at h
    split at h
    · rename_i hty
      split at h
      · rename_i ns hdata
        rcases ih _ m h e he with h1 | ⟨x, hx, hx1, hx2, hx3⟩
        · rcases mem_mapSet _ _ _ _ h1 with h2 | h2
          · exact Or.inl h2
          · refine Or.inr ⟨rr, List.mem_cons_self _ _, hty, ?_, ?_⟩
            · rw [h2]; exact hdata
            · rw [h2]
        · exact Or.inr ⟨x, List.mem_cons_of_mem _ hx, hx1, hx2, hx3⟩
      · cases h
    · rcases ih _ m h e he with h1 | ⟨x, hx, hx1, hx2, hx3⟩
      · exact Or.inl h1
      · exact Or.inr ⟨x, List.mem_cons_of_mem _ hx, hx1, hx2, hx3⟩

theorem mem_removeAt {α : Type} (l : List α) : ∀ (i : Nat) (e : α), e ∈ removeAt l i → e ∈ l := by
  induction l with
  | nil => intro i e h; simp [removeAt] at h
  | cons x xs ih =>
    intro i e h
    cases i with
    | zero =>
      simp only [removeAt] at h
      exact List.mem_cons_of_mem _ h
    | succ i =>
      simp only [removeAt, List.mem_cons] at h
      rcases h with h | h
      · exact h ▸ List.mem_cons_self _ _
      · exact List.mem_cons_of_mem _ (ih i e h)

theorem mem_rangeOrder {α : Type} (ds : List Nat) :
    ∀ (l : List α) (e : α), e ∈ rangeOrder ds l → e ∈ l := by
  induction ds with
  | nil => intro l e h; simpa [rangeOrder] using h
  | cons d ds ih =>
    intro l e h
    rw [rangeOrder] at h
    split at h
    · exact h
    · rename_i y hy
      rw [List.mem_cons] at h
      rcases h with h | h
      · exact h ▸ List.get?_mem hy
      · exact mem_removeAt _ _ _ (ih _ e h)

theorem rangeOrder_ne_nil {α : Type} (ds : List Nat) (l : List α) (hl : l ≠ []) :
    rangeOrder ds l ≠ [] := by
  cases ds with
  | nil => simpa [rangeOrder] using hl
  | cons d ds =>
    rw [rangeOrder]
    split
    · exact hl
    · exact List.cons_ne_nil _ _

theorem headD_rangeOrder_mem {α : Type} (ds : List Nat) (l : List α) (hl : l ≠ []) (d : α) :
    (rangeOrder ds l).headD d ∈ l := by
  have hne := rangeOrder_ne_nil ds l hl
  cases hr : rangeOrder ds l with
  | nil => exact absurd hr hne
  | cons x xs =>
    apply mem_rangeOrder ds l
    rw [hr]
    exact List.mem_cons_self _ _

theorem pickGlue_mem {σ : Type} (env : Env σ) (zones : List (String × List String))
    (l : List (String × String)) :
    ∀ (w : σ) (ar : AuthorityResult) (w1 : σ) (a : Nameserver),
      pickGlue env zones l w = .ret (ar, w1) → ar.ns = some a →
        (a.Name, a.Zone) ∈ l ∧ a.Addr ∈ (zones.lookup a.Zone).getD [] ∧ ar.log = none := by
  induction l with
  | nil =>
    intro w ar w1 a h ha
    simp only [pickGlue, Outcome.ret.injEq, Prod.mk.injEq] at h
    rw [← h.1] at ha
    cases ha
  | cons e rest ih =>
    intro w ar w1 a h ha
    obtain ⟨ns, z⟩ := e
    rw [pickGlue] at h
    split at h
    · split at h
      · cases h
      · cases h
      · split at h
        · cases h
        · rename_i addr haddr
          simp only [Outcome.ret.injEq, Prod.mk.injEq] at h
          rw [← h.1] at ha ⊢
          simp only [Option.some.injEq] at ha
          rw [← ha]
          exact ⟨List.mem_cons_self _ _, List.get?_mem haddr, rfl⟩
    · obtain ⟨h1, h2⟩ := ih w ar w1 a h ha
      exact ⟨List.mem_cons_of_mem _ h1, h2⟩

theorem pickAuthority_zone {σ : Type} (env : Env σ)
    (lookup : Question → σ → Outcome (LookupResult × σ)) (auths extras : List RR) (w : σ)
    (ar : AuthorityResult) (w1 : σ) (a : Nameserver)
    (h : pickAuthority env lookup auths extras w = .ret (ar, w1)) (ha : ar.ns = some a) :
    ∃ rr ∈ auths, rr.Hdr.Rrtype = TypeNS ∧ rr.Hdr.Name = a.Zone := by
  unfold pickAuthority at h
  unfold splitAuthsByZone at h
  cases hs : splitNsToZone auths [] with
  | panic => rw [hs] at h; cases h
  | timeout => rw [hs] at h; cases h
  | ret nsToZone =>
    rw [hs] at h
    have hmem : ∀ e ∈ nsToZone, ∃ rr ∈ auths, rr.Hdr.Rrtype = TypeNS ∧ rr.Hdr.Name = e.2 := by
      intro e he
      rcases splitNsToZone_mem auths [] nsToZone hs e he with h1 | ⟨rr, hrr, h1, _, h3⟩
      · cases h1
      · exact ⟨rr, hrr, h1, h3⟩
    dsimp only at h
    split at h
    · split at h
      · simp only [Outcome.ret.injEq, Prod.mk.injEq] at h
        rw [← h.1] at ha
        cases ha
      · rename_i hne
        have hne2 : nsToZone ≠ [] := fun h0 => hne (by rw [h0]; rfl)
        split at h
        · cases h
        · cases h
        · split at h
          · simp only [Outcome.ret.injEq, Prod.mk.injEq] at h
            rw [← h.1] at ha
            cases ha
          · split at h
            · cases h
            · simp only [Outcome.ret.injEq, Prod.mk.injEq] at h
              rw [← h.1] at ha
              simp only [Option.some.injEq] at ha
              rw [← ha]
              exact hmem _ (headD_rangeOrder_mem _ _ hne2 _)
    · obtain ⟨h1, _⟩ := pickGlue_mem env _ _ _ _ _ _ h ha
      exact hmem _ (mem_rangeOrder _ _ _ h1)

/-! ## `Lookup`: the zone of the authority chosen on a referral -/

theorem getLast?_concat_log (l : List LookupLog) (x : LookupLog) :
    (l ++ [x]).getLast? = some x := by
  simp

theorem query_facts {σ : Type} (env : Env σ) (q : Question) (auth : Nameserver) (w : σ) :
    (query env q auth w).1.log.info.Referral = false ∧
      ((query env q auth w).1.err ≠ none → (query env q auth w).1.msg = none) ∧
      ((query env q auth w).1.log.info.CacheHit = false →
        ∀ r, (query env q auth w).1.msg = some r → outOfBailiwick r auth.Zone = false) := by
  have hx : ∀ w0 : σ,
      (queryExchange env q auth (newLookupLog (some auth)) w0).1.log.info.Referral = false ∧
      ((queryExchange env q auth (newLookupLog (some auth)) w0).1.err ≠ none →
        (queryExchange env q auth (newLookupLog (some auth)) w0).1.msg = none) ∧
      ∀ r, (queryExchange env q auth (newLookupLog (some auth)) w0).1.msg = some r →
        outOfBailiwick r auth.Zone = false := by
    intro w0
    unfold queryExchange
    split
    · exact ⟨rfl, fun _ => rfl, fun r h => by cases h⟩
    · rename_i r0 w1 _
      dsimp only
      by_cases hb : outOfBailiwick r0 auth.Zone = true
      · rw [if_pos hb]
        exact ⟨rfl, fun _ => rfl, fun r h => by cases h⟩
      · rw [if_neg hb]
        refine ⟨rfl, fun h => absurd rfl h, fun r h => ?_⟩
        simp only [Option.some.injEq] at h
        rw [← h]
        simpa using hb
  unfold query
  dsimp only
  split
  · split
    · exact ⟨rfl, fun h => absurd rfl h, fun h => by simp [newLookupLog] at h⟩
    · exact ⟨(hx _).1, (hx _).2.1, fun _ => (hx _).2.2⟩
  · exact ⟨(hx _).1, (hx _).2.1, fun _ => (hx _).2.2⟩

theorem outOfBailiwick_ns (r : Msg) (zone : String) (h : outOfBailiwick r zone = false)
    (rr : RR) (hrr : rr ∈ r.Ns) (hty : rr.Hdr.Rrtype = TypeNS) :
    HasSuffix rr.Hdr.Name zone = true := by
  cases hs : HasSuffix rr.Hdr.Name zone with
  | true => rfl
  | false =>
    have : outOfBailiwick r zone = true := by
      unfold outOfBailiwick
      simp only [List.any_cons, List.any_nil, Bool.or_false, Bool.or_eq_true, List.any_eq_true,
        Bool.and_eq_true, bne_iff_ne, Bool.not_eq_true']
      exact Or.inr ⟨rr, hrr, by rw [hty]; decide, hs⟩
    rw [h] at this
    cases this

theorem referral_zone {σ : Type} (env : Env σ)
    (lookup : Question → σ → Outcome (LookupResult × σ)) (i : Nat) (st : LoopState)
    (ll : LookupLog) (r : Msg) (log : LookupLog) (nsecSet : List RR) (w : σ)
    (hb : log.info.CacheHit = false → outOfBailiwick r st.authority.Zone = false) :
    (referral env lookup i st ll r log nsecSet w).Sat
      (fun st1 _ => ∀ last, st1.ll.Composites.getLast? = some last →
        last.info.Referral = true → last.info.CacheHit = false →
          HasSuffix st1.authority.Zone st.authority.Zone = true)
      (fun _ _ => True) := by
  unfold referral
  split
  · trivial
  · trivial
  · rename_i ar w1 hpick
    dsimp only
    split
    · trivial
    · split
      · trivial
      · rename_i authority hns
        split
        · trivial
        · show ∀ last, _ → _ → _ → _
          intro last hlast _ hmiss
          obtain ⟨rr, hrr, hty, hname⟩ := pickAuthority_zone env lookup _ _ _ _ _ _ hpick hns
          rw [LookupLog.composites_appendComposite, getLast?_concat_log,
            Option.some.injEq] at hlast
          have hhit : log.info.CacheHit = false := by
            rw [← hlast] at hmiss
            cases har : ar.log with
            | none => rw [har] at hmiss; exact hmiss
            | some authLog => rw [har] at hmiss; exact hmiss
          have := outOfBailiwick_ns r _ (hb hhit) rr hrr hty
          rw [hname] at this
          exact this

theorem chase_zone {σ : Type} (env : Env σ) (st : LoopState) (ll : LookupLog) (r : Msg)
    (log : LookupLog) (c : String) (w : σ) (hr : log.info.Referral = false) :
    (chase env st ll r log c w).Sat
      (fun st1 _ => ∀ last, st1.ll.Composites.getLast? = some last →
        last.info.Referral = true → last.info.CacheHit = false →
          HasSuffix st1.authority.Zone st.authority.Zone = true)
      (fun _ _ => True) := by
  unfold chase
  split
  · trivial
  · split
    · trivial
    · trivial
    · split
      · trivial
      · show ∀ last, _ → _ → _ → _
        intro last hlast href _
        rw [LookupLog.composites_appendComposite, getLast?_concat_log,
          Option.some.injEq] at hlast
        rw [← hlast, hr] at href
        cases href

theorem classify_zone {σ : Type} (env : Env σ)
    (lookup : Question → σ → Outcome (LookupResult × σ)) (fuel i : Nat) (st : LoopState)
    (ll : LookupLog) (r : Msg) (log : LookupLog) (validated : Bool) (w : σ)
    (hr : log.info.Referral = false)
    (hb : log.info.CacheHit = false → outOfBailiwick r st.authority.Zone = false) :
    (classify env lookup fuel i st ll r log validated w).Sat
      (fun st1 _ => ∀ last, st1.ll.Composites.getLast? = some last →
        last.info.Referral = true → last.info.CacheHit = false →
          HasSuffix st1.authority.Zone st.authority.Zone = true)
      (fun _ _ => True) := by
  unfold classify
  split
  · dsimp only
    split <;> trivial
  · split
    · split
      · trivial
      · trivial
      · exact chase_zone env st ll r log _ w hr
      · trivial
    · dsimp only
      split
      · split <;> trivial
      · exact referral_zone env lookup i st ll r log _ w hb

theorem validate_zone {σ : Type} (env : Env σ)
    (lookup : Question → σ → Outcome (LookupResult × σ)) (fuel i : Nat) (st : LoopState)
    (r : Option Msg) (log : LookupLog) (w : σ)
    (hr : log.info.Referral = false)
    (hb : log.info.CacheHit = false →
      ∀ m, r = some m → outOfBailiwick m st.authority.Zone = false) :
    (validate env lookup fuel i st r log w).Sat
      (fun st1 _ => ∀ last, st1.ll.Composites.getLast? = some last →
        last.info.Referral = true → last.info.CacheHit = false →
          HasSuffix st1.authority.Zone st.authority.Zone = true)
      (fun _ _ => True) := by
  unfold validate
  dsimp only
  split
  · split
    · trivial
    · trivial
    · trivial
    · split
      · trivial
      · exact classify_zone env lookup fuel i st _ _ _ _ _ hr (fun h => hb h _ rfl)
  · split
    · trivial
    · exact classify_zone env lookup fuel i st _ _ _ _ _ hr (fun h => hb h _ rfl)

theorem iteration_zone {σ : Type} (env : Env σ)
    (lookup : Question → σ → Outcome (LookupResult × σ)) (fuel i : Nat) (st : LoopState)
    (w : σ) :
    (iteration env lookup fuel i st w).Sat
      (fun st1 _ => ∀ last, st1.ll.Composites.getLast? = some last →
        last.info.Referral = true → last.info.CacheHit = false →
          HasSuffix st1.authority.Zone st.authority.Zone = true)
      (fun _ _ => True) := by
  have hq := query_facts env st.q st.authority w
  unfold iteration
  split
  rename_i qr w1 hqr
  rw [hqr] at hq
  dsimp only at hq
  split
  · rename_i err herr
    split
    · trivial
    · have hmsg : qr.msg = none := hq.2.1 (by rw [herr]; exact Option.some_ne_none _)
      refine validate_zone env lookup fuel i st _ _ _ ?_ ?_
      · exact hq.1
      · intro _ m hm
        rw [hmsg] at hm
        cases hm
  · exact validate_zone env lookup fuel i st _ _ _ hq.1 hq.2.2

theorem continues_one {σ : Type} (env : Env σ)
    (lookup : Question → σ → Outcome (LookupResult × σ)) (fuel i : Nat) (st : LoopState)
    (w : σ) (st1 : LoopState) (w1 : σ)
    (h : continues env lookup fuel 1 i st w = some (st1, w1)) :
    iteration env lookup fuel i st w = .next st1 w1 := by
  rw [continues] at h
  cases hit : iteration env lookup fuel i st w with
  | next st2 w2 =>
    rw [hit] at h
    simp only [continues, Option.some.injEq, Prod.mk.injEq] at h
    rw [h.1, h.2]
  | exit res w2 => rw [hit] at h; cases h
  | panic => rw [hit] at h; cases h
  | timeout => rw [hit] at h; cases h

/-- C9 (as stated, refuted): the root answers with a referral to the root zone
itself, and the step succeeds with a new authority whose zone is equal to the
zone of the authority that sent the referral; and a referral found in the cache
while `example.` is the authority hands over to the zone `other.`, which does
not end with `example.`. -/
theorem lookup_referral_not_strict :
    ((continues cycleEnv (Lookup cycleEnv 0) 1 1 0
          (startState { Name := "www.example.", Type_ := TypeA }) 0).map
        (fun p => (p.1.authority.Zone, lastFlags p.1)) = some (".", some (true, false)) ∧
      (startState { Name := "www.example.", Type_ := TypeA }).authority.Zone = ".") ∧
    ((continues cachedReferralEnv (Lookup cachedReferralEnv 0) 1 1 0
          (startState { Name := "www.example.", Type_ := TypeA }) 0).map
        (fun p => p.1.authority.Zone) = some "example." ∧
      (continues cachedReferralEnv (Lookup cachedReferralEnv 0) 1 2 0
          (startState { Name := "www.example.", Type_ := TypeA }) 0).map
        (fun p => (p.1.authority.Zone, lastFlags p.1)) = some ("other.", some (true, true)) ∧
      HasSuffix "other." "example." = false) ∧
    initialState cycleEnv { Name := "www.example.", Type_ := TypeA } 0 =
      .ret (startState { Name := "www.example.", Type_ := TypeA }, 0) ∧
    initialState cachedReferralEnv { Name := "www.example.", Type_ := TypeA } 0 =
      .ret (startState { Name := "www.example.", Type_ := TypeA }, 0) := by
  refine ⟨by decide, by decide, rfl, rfl⟩

/-- C9 (amended): when an iteration of `Lookup` ends as a referral processed
without error (the log of its query has `Referral = true`) on a response that
was received from the nameserver and not taken from the cache (`CacheHit =
false`), the zone of the newly chosen authority ends with the zone of the
authority that sent the referral; it may be equal to it. -/
theorem lookup_referral_zone {σ : Type} (env : Env σ)
    (lookup : Question → σ → Outcome (LookupResult × σ)) (fuel i : Nat) (st : LoopState)
    (w : σ) (st1 : LoopState) (w1 : σ) (last : LookupLog)
    (h : iteration env lookup fuel i st w = .next st1 w1)
    (hlast : st1.ll.Composites.getLast? = some last)
    (href : last.info.Referral = true) (hmiss : last.info.CacheHit = false) :
    ∃ pre : String, st1.authority.Zone = pre ++ st.authority.Zone := by
  have hs := iteration_zone env lookup fuel i st w
  rw [h] at hs
  exact (hasSuffix_iff _ _).1 (hs last hlast href hmiss)

theorem lookup_referral_zone_witness :
    ∃ st1 : LoopState, st1.authority.Zone = "example." ∧
      ∃ pre : String, st1.authority.Zone = pre ++ rootNS.Zone := by
  have hsome : (continues aliasEnv (Lookup aliasEnv 0) 1 1 0
      (startState { Name := "www.example.", Type_ := TypeA }) 0).isSome = true := by decide
  obtain ⟨⟨st1, w1⟩, hc⟩ := Option.isSome_iff_exists.1 hsome
  have hflags : (continues aliasEnv (Lookup aliasEnv 0) 1 1 0
      (startState { Name := "www.example.", Type_ := TypeA }) 0).map
      (fun p => (p.1.authority.Zone, lastFlags p.1)) = some ("example.", some (true, false)) := by
    decide
  rw [hc] at hflags
  simp only [Option.map_some', Option.some.injEq, Prod.mk.injEq, lastFlags] at hflags
  obtain ⟨hzone, hlast⟩ := hflags
  cases hl : st1.ll.Composites.getLast? with
  | none => rw [hl] at hlast; cases hlast
  | some last =>
    rw [hl] at hlast
    simp only [Option.map_some', Option.some.injEq, Prod.mk.injEq] at hlast
    exact ⟨st1, hzone,
      lookup_referral_zone aliasEnv (Lookup aliasEnv 0) 1 0
        (startState { Name := "www.example.", Type_ := TypeA }) 0 st1 w1 last
        (continues_one _ _ _ _ _ _ _ _ hc) hl hlast.1 hlast.2⟩

/-! ## `collapseCNAMEChain` and `isAlias` on CNAME chains -/

theorem lookup_map_replace {κ ν : Type} [DecidableEq κ] (m : List (κ × ν)) (k : κ) (v : ν)
    (k2 : κ) :
    (m.map fun e => if e.1 == k then (k, v) else e).lookup k2 =
      if k2 = k then (m.lookup k).map (fun _ => v) else m.lookup k2 := by
  induction m with
  | nil => simp
  | cons e rest ih =>
    obtain ⟨a, b⟩ := e
    by_cases hak : a = k
    · subst hak
      by_cases hk2 : k2 = a
      · subst hk2
        simp
      · have hne : (k2 == a) = false := by simpa using hk2
        simp only [List.map_cons, beq_self_eq_true, if_true, List.lookup_cons, hne, ih, hk2,
          if_false]
    · have hne : (a == k) = false := by simpa using hak
      by_cases hk2 : k2 = k
      · subst hk2
        have hne2 : (k2 == a) = false := by simpa using fun h : k2 = a => hak h.symm
        simp only [List.map_cons, hne, Bool.false_eq_true, if_false, List.lookup_cons, hne2, ih,
          if_true]
      · simp only [List.map_cons, hne, Bool.false_eq_true, if_false, List.lookup_cons, ih, hk2]

theorem lookup_mapSet {κ ν : Type} [DecidableEq κ] (m : List (κ × ν)) (k : κ) (v : ν)
    (k2 : κ) :
    (mapSet m k v).lookup k2 = if k2 = k then some v else m.lookup k2 := by
  unfold mapSet
  by_cases hp : (m.lookup k).isSome = true
  · rw [if_pos hp, lookup_map_replace]
    by_cases hk2 : k2 = k
    · rw [if_pos hk2, if_pos hk2]
      obtain ⟨x, hx⟩ := Option.isSome_iff_exists.1 hp
      rw [hx]
      rfl
    · rw [if_neg hk2, if_neg hk2]
  · rw [if_neg hp, List.lookup_append]
    have hnone : m.lookup k = none := by
      cases h : m.lookup k with
      | none => rfl
      | some x => rw [h] at hp; exact absurd rfl hp
    by_cases hk2 : k2 = k
    · subst hk2
      rw [if_pos rfl, hnone]
      simp
    · have hne : (k2 == k) = false := by simpa using hk2
      rw [if_neg hk2]
      cases h : m.lookup k2 with
      | none => simp [List.lookup_cons, hne]
      | some x => simp

theorem cnameMapOf_lookup (recs : List RR) :
    ∀ m0 : List (String × String), (∀ r ∈ recs, ∃ t, r.data = .CNAME t) →
      ∃ m, cnameMapOf recs m0 = .ret m ∧
        ∀ name, m.lookup name = (cnameTarget recs name).or (m0.lookup name) := by
  induction recs with
  | nil =>
    intro m0 _
    exact ⟨m0, rfl, fun name => by simp [cnameTarget]⟩
  | cons r rest ih =>
    intro m0 hall
    obtain ⟨t, ht⟩ := hall r (List.mem_cons_self _ _)
    obtain ⟨m, hm, hlook⟩ := ih (mapSet m0 r.Hdr.Name t)
      (fun x hx => hall x (List.mem_cons_of_mem _ hx))
    refine ⟨m, ?_, ?_⟩
    · rw [cnameMapOf, ht]
      exact hm
    · intro name
      rw [hlook name, lookup_mapSet, cnameTarget]
      cases hrest : cnameTarget rest name with
      | some x => simp
      | none =>
        by_cases hn : name = r.Hdr.Name
        · subst hn
          simp [ht]
        · have hn2 : ¬ r.Hdr.Name = name := fun h => hn h.symm
          simp [hn, hn2]

theorem followCNAMEs_ends (m : List (String × String)) (name last c : String)
    (h : ChainEnds (fun n => m.lookup n) name last c) :
    ∃ n, ∀ fuel, n ≤ fuel → followCNAMEs m fuel name last = .ret c := by
  induction h with
  | stop name last h =>
    refine ⟨1, fun fuel hf => ?_⟩
    obtain ⟨k, rfl⟩ : ∃ k, fuel = k + 1 := ⟨fuel - 1, by omega⟩
    simp only [followCNAMEs, h]
  | step name last c result h _ ih =>
    obtain ⟨n, hn⟩ := ih
    refine ⟨n + 1, fun fuel hf => ?_⟩
    obtain ⟨k, rfl⟩ : ∃ k, fuel = k + 1 := ⟨fuel - 1, by omega⟩
    simp only [followCNAMEs, h]
    exact hn k (by omega)

theorem collapseCNAMEChain_ends (recs : List RR) (qname c : String)
    (hall : ∀ r ∈ recs, ∃ t, r.data = .CNAME t)
    (h : ChainEnds (cnameTarget recs) qname "" c) :
    ∃ n, ∀ fuel, n ≤ fuel → collapseCNAMEChain fuel qname recs = .ret c := by
  obtain ⟨m, hm, hlook⟩ := cnameMapOf_lookup recs [] hall
  have hfun : (fun n => m.lookup n) = cnameTarget recs := by
    funext n
    rw [hlook n]
    simp
  obtain ⟨n, hn⟩ := followCNAMEs_ends m qname "" c (by rw [hfun]; exact h)
  refine ⟨n, fun fuel hf => ?_⟩
  unfold collapseCNAMEChain
  rw [hm]
  exact hn fuel hf

/-- C11 (as stated, refuted): the answer `answerStrayCNAMEs` holds two CNAME
records, none owned by the question name `www.example.`; following the mapping
from the question name reaches no target, and `isAlias` answers true with the
empty string, which is the target of no record, as canonical name. -/
theorem isAlias_chain_without_start :
    isAlias 1 answerStrayCNAMEs { Name := "www.example.", Type_ := TypeA } = .ret (true, "") ∧
      cnameTarget (filterRRSet answerStrayCNAMEs [TypeRRSIG]) "www.example." = none ∧
      ∀ r ∈ filterRRSet answerStrayCNAMEs [TypeRRSIG], r.data ≠ .CNAME "" := by
  decide

/-- C11 (amended): when the answer without its RRSIGs has more than one record,
all of them CNAME, and the question type is not CNAME, then, provided that
following the owner-to-target mapping of those records from the question name
comes to an end, `isAlias` returns true and the canonical name is the last
target reached, or the empty string when the question name owns none of the
records; a single CNAME with a question type other than CNAME yields its
target. -/
theorem isAlias_cname_chain (answer : List RR) (q : Question) (hty : q.Type_ ≠ TypeCNAME) :
    (∀ c : String, 1 < (filterRRSet answer [TypeRRSIG]).length →
        (∀ r ∈ filterRRSet answer [TypeRRSIG],
          r.Hdr.Rrtype = TypeCNAME ∧ ∃ t, r.data = .CNAME t) →
        ChainEnds (cnameTarget (filterRRSet answer [TypeRRSIG])) q.Name "" c →
          ∃ n, ∀ fuel, n ≤ fuel → isAlias fuel answer q = .ret (true, c)) ∧
      (∀ (fuel : Nat) (hdr : RR_Header) (target : String),
        filterRRSet answer [TypeRRSIG] = [{ Hdr := hdr, data := .CNAME target }] →
          isAlias fuel answer q = .ret (true, target)) := by
  constructor
  · intro c hlen hall hends
    obtain ⟨n, hn⟩ := collapseCNAMEChain_ends _ q.Name c (fun r hr => (hall r hr).2) hends
    refine ⟨n, fun fuel hf => ?_⟩
    have hne : (filterRRSet answer [TypeRRSIG]).length ≠ 0 := by omega
    have hallType : allType (filterRRSet answer [TypeRRSIG]) TypeCNAME = true := by
      unfold allType
      rw [List.all_eq_true]
      intro r hr
      simpa using (hall r hr).1
    have hq : (q.Type_ == TypeCNAME) = false := by simpa using hty
    unfold isAlias
    simp only [hne, if_false, gt_iff_lt, hlen, if_true, hallType, hq, Bool.not_true,
      Bool.or_false, Bool.false_eq_true, hn fuel hf]
  · intro fuel hdr target h
    rw [isAlias_single fuel answer q _ h]
    simp only [hty, if_false]

theorem isAlias_cname_chain_witness :
    (∃ n, ∀ fuel, n ≤ fuel →
        isAlias fuel answerCNAMEChain { Name := "www.example.", Type_ := TypeA } =
          .ret (true, "host.example.")) ∧
      isAlias 0 [cnameRecord "www.example." "web.example."]
          { Name := "www.example.", Type_ := TypeA } = .ret (true, "web.example.") :=
  ⟨(isAlias_cname_chain answerCNAMEChain { Name := "www.example.", Type_ := TypeA }
        (by decide)).1 "host.example." (by decide)
      (by
        intro r hr
        have hmem : r ∈ [cnameRecord "www.example." "web.example.",
            cnameRecord "web.example." "host.example."] := by
          have heq : filterRRSet answerCNAMEChain [TypeRRSIG] =
              [cnameRecord "www.example." "web.example.",
                cnameRecord "web.example." "host.example."] := by decide
          rw [heq] at hr
          exact hr
        simp only [List.mem_cons, List.mem_singleton, List.not_mem_nil, or_false] at hmem
        rcases hmem with h | h
        · rw [h]; exact ⟨rfl, _, rfl⟩
        · rw [h]; exact ⟨rfl, _, rfl⟩)
      (.step _ _ "web.example." _ (by decide)
        (.step _ _ "host.example." _ (by decide) (.stop _ _ (by decide)))),
    (isAlias_cname_chain [cnameRecord "www.example." "web.example."]
        { Name := "www.example.", Type_ := TypeA } (by decide)).2 0
      { Name := "www.example.", Rrtype := TypeCNAME, Ttl := 300 } "web.example." (by decide)⟩

/-! ## `collapseCNAMEChain` on a cycle -/

theorem followCNAMEs_cycle (fuel : Nat) :
    ∀ canonical : String,
      followCNAMEs [("a.", "b."), ("b.", "a.")] fuel "a." canonical = .timeout ∧
        followCNAMEs [("a.", "b."), ("b.", "a.")] fuel "b." canonical = .timeout := by
  induction fuel with
  | zero => intro canonical; exact ⟨rfl, rfl⟩
  | succ n ih =>
    intro canonical
    constructor
    · have h : ([("a.", "b."), ("b.", "a.")] : List (String × String)).lookup "a." = some "b." := by
        decide
      simp only [followCNAMEs, h]
      exact (ih "b.").2
    · have h : ([("a.", "b."), ("b.", "a.")] : List (String × String)).lookup "b." = some "a." := by
        decide
      simp only [followCNAMEs, h]
      exact (ih "a.").1

theorem collapse_cycle_timeout (fuel : Nat) :
    collapseCNAMEChain fuel "a." answerCNAMECycle = .timeout := by
  have hmap : cnameMapOf answerCNAMECycle [] = .ret [("a.", "b."), ("b.", "a.")] := by decide
  unfold collapseCNAMEChain
  rw [hmap]
  exact (followCNAMEs_cycle fuel "").1

theorem isAlias_cycle_timeout (fuel : Nat) (answer : List RR)
    (hfilt : filterRRSet answer [TypeRRSIG] = answerCNAMECycle) :
    isAlias fuel answer { Name := "a.", Type_ := TypeA } = .timeout := by
  unfold isAlias
  rw [hfilt]
  have hlen : answerCNAMECycle.length = 2 := rfl
  have hall : allType answerCNAMECycle TypeCNAME = true := by decide
  simp only [hlen, Nat.succ_ne_zero, if_false, gt_iff_lt, Nat.one_lt_ofNat, if_true, hall,
    Bool.not_true, Bool.false_or, collapse_cycle_timeout fuel]
  rfl

theorem iteration_cycle_timeout (lookup : Question → Nat → Outcome (LookupResult × Nat))
    (fuel : Nat) :
    iteration cnameCycleEnv lookup fuel 0 (startState { Name := "a.", Type_ := TypeA }) 0 =
      .timeout := by
  have hq : ∃ log, query cnameCycleEnv { Name := "a.", Type_ := TypeA } rootNS 0 =
      ({ msg := some msgCNAMECycle, log := log, err := none }, 1) ∧
      log.info.CacheHit = false := ⟨_, rfl, rfl⟩
  obtain ⟨log, hq, hhit⟩ := hq
  have hcs : ∃ dk, checkSignatures cnameCycleEnv (some msgCNAMECycle) rootNS [] 1 =
      .ret ((dk, none), 1) := ⟨_, rfl⟩
  obtain ⟨dk, hcs⟩ := hcs
  have hal := isAlias_cycle_timeout fuel msgCNAMECycle.Answer (by decide)
  have hr : msgCNAMECycle.Rcode = RcodeSuccess := rfl
  have hlen : msgCNAMECycle.Answer.length > 0 := by decide
  unfold iteration
  simp only [startState, hq]
  unfold validate
  simp only [hhit, hcs, true_or, and_self, if_true]
  unfold classify
  simp only [ne_eq, hr, not_true_eq_false, if_false, hlen, if_true, hal]

/-- C15 (the code at the failing input): for the records `a. CNAME b.` and
`b. CNAME a.` and the question name `a.`, the loop of `collapseCNAMEChain` is
still running after any number of rounds, and so is `isAlias` on that answer;
a `Lookup` of `a.` to which the root gives that signed answer does not return
either. -/
theorem collapseCNAMEChain_cycle_diverges (fuel : Nat) :
    collapseCNAMEChain fuel "a." answerCNAMECycle = .timeout ∧
      isAlias fuel answerCNAMECycle { Name := "a.", Type_ := TypeA } = .timeout ∧
      Lookup cnameCycleEnv fuel { Name := "a.", Type_ := TypeA } 0 = .timeout := by
  refine ⟨collapse_cycle_timeout fuel, isAlias_cycle_timeout fuel _ (by decide), ?_⟩
  cases fuel with
  | zero => rfl
  | succ n =>
    have hinit : initialState cnameCycleEnv { Name := "a.", Type_ := TypeA } 0 =
        .ret (startState { Name := "a.", Type_ := TypeA }, 0) := rfl
    simp only [Lookup, lookupBody, hinit, lookupLoop, iteration_cycle_timeout]

/-! ## `Lookup`: the chased records in the answer -/

theorem referral_chased {σ : Type} (env : Env σ)
    (lookup : Question → σ → Outcome (LookupResult × σ)) (i : Nat) (st : LoopState)
    (ll : LookupLog) (r : Msg) (log : LookupLog) (nsecSet : List RR) (w : σ) :
    (referral env lookup i st ll r log nsecSet w).Sat
      (fun st1 _ => st1.chased = st.chased) (fun res _ => res.err ≠ none) := by
  unfold referral
  split
  · trivial
  · trivial
  · dsimp only
    split
    · exact fun h => by cases h
    · split
      · trivial
      · split
        · exact fun h => by cases h
        · rfl

theorem chase_chased {σ : Type} (env : Env σ) (st : LoopState) (ll : LookupLog) (r : Msg)
    (log : LookupLog) (c : String) (w : σ) :
    (chase env st ll r log c w).Sat
      (fun st1 _ => st1.chased = st.chased ++ extractRRSet r.Answer "" [TypeCNAME])
      (fun res _ => res.err ≠ none) := by
  unfold chase
  split
  · exact fun h => by cases h
  · split
    · trivial
    · trivial
    · split
      · trivial
      · rfl

theorem classify_chased {σ : Type} (env : Env σ)
    (lookup : Question → σ → Outcome (LookupResult × σ)) (fuel i : Nat) (st : LoopState)
    (ll : LookupLog) (r : Msg) (log : LookupLog) (validated : Bool) (w : σ) :
    (classify env lookup fuel i st ll r log validated w).Sat
      (fun st1 _ => st1.chased = st.chased ++ aliasRecords fuel st.q r)
      (fun res _ => res.err = none → r.Rcode = RcodeSuccess → r.Answer ≠ [] →
        (∃ x, isAlias fuel r.Answer st.q = .ret (false, x)) ∧
          ∃ a, res.answer = some a ∧ a.Answer = st.chased ++ r.Answer) := by
  unfold classify
  split
  · rename_i hrc
    dsimp only
    split
    · exact fun h => by cases h
    · exact fun _ h => absurd h hrc
  · rename_i hrc
    have hrc2 : r.Rcode = RcodeSuccess := by simpa using hrc
    split
    · rename_i hlen
      have hans : r.Answer ≠ [] := List.length_pos.1 hlen
      split
      · trivial
      · trivial
      · rename_i c halias
        refine (chase_chased env st ll r log c w).imp ?_ ?_
        · intro st1 _ h
          rw [h, aliasRecords, if_pos ⟨hrc2, hans⟩, halias]
        · intro res _ h herr
          exact absurd herr h
      · rename_i x halias
        show _ → _ → _ → _
        intro _ _ _
        refine ⟨⟨x, halias⟩, _, rfl, ?_⟩
        by_cases hch : st.chased.length > 0
        · simp only [hch, if_true, extractAnswer]
        · have hnil : st.chased = [] := by
            cases hc : st.chased with
            | nil => rfl
            | cons y ys => rw [hc] at hch; exact absurd (Nat.succ_pos _) hch
          rw [hnil]
          rfl
    · rename_i hlen
      have hans : r.Answer = [] := by
        cases hc : r.Answer with
        | nil => rfl
        | cons y ys => rw [hc] at hlen; exact absurd (Nat.succ_pos _) hlen
      dsimp only
      split
      · split
        · exact fun h => by cases h
        · exact fun _ _ h => absurd hans h
      · refine (referral_chased env lookup i st ll r log _ w).imp ?_ ?_
        · intro st1 _ h
          rw [h, aliasRecords, if_neg (fun hh => hh.2 hans), List.append_nil]
        · intro res _ h herr
          exact absurd herr h

theorem validate_chased {σ : Type} (env : Env σ)
    (lookup : Question → σ → Outcome (LookupResult × σ)) (fuel i : Nat) (st : LoopState)
    (r : Option Msg) (log : LookupLog) (w : σ) :
    (validate env lookup fuel i st r log w).Sat
      (fun st1 _ => ∃ m, r = some m ∧ st1.chased = st.chased ++ aliasRecords fuel st.q m)
      (fun res _ => res.err = none → ∀ m, r = some m → m.Rcode = RcodeSuccess → m.Answer ≠ [] →
        (∃ x, isAlias fuel m.Answer st.q = .ret (false, x)) ∧
          ∃ a, res.answer = some a ∧ a.Answer = st.chased ++ m.Answer) := by
  unfold validate
  dsimp only
  split
  · split
    · trivial
    · trivial
    · exact fun h => by cases h
    · split
      · trivial
      · refine (classify_chased env lookup fuel i st _ _ _ _ _).imp ?_ ?_
        · intro st1 _ h
          exact ⟨_, rfl, h⟩
        · intro res _ h herr m hm
          cases hm
          exact h herr
  · split
    · trivial
    · refine (classify_chased env lookup fuel i st _ _ _ _ _).imp ?_ ?_
      · intro st1 _ h
        exact ⟨_, rfl, h⟩
      · intro res _ h herr m hm
        cases hm
        exact h herr

theorem iteration_chased {σ : Type} (env : Env σ)
    (lookup : Question → σ → Outcome (LookupResult × σ)) (fuel i : Nat) (st : LoopState)
    (w : σ) :
    (iteration env lookup fuel i st w).Sat
      (fun st1 _ => ∃ m, (query env st.q st.authority w).1.msg = some m ∧
        st1.chased = st.chased ++ aliasRecords fuel st.q m)
      (fun res _ => res.err = none → ∀ m, (query env st.q st.authority w).1.msg = some m →
        m.Rcode = RcodeSuccess → m.Answer ≠ [] →
          (∃ x, isAlias fuel m.Answer st.q = .ret (false, x)) ∧
            ∃ a, res.answer = some a ∧ a.Answer = st.chased ++ m.Answer) := by
  unfold iteration
  split
  rename_i qr w1 hqr
  rw [hqr]
  dsimp only
  split
  · split
    · exact fun h => by cases h
    · exact validate_chased env lookup fuel i st _ _ _
  · exact validate_chased env lookup fuel i st _ _ _

theorem continues_chased {σ : Type} (env : Env σ)
    (lookup : Question → σ → Outcome (LookupResult × σ)) (fuel : Nat) :
    ∀ (n i : Nat) (st : LoopState) (w : σ) (st1 : LoopState) (w1 : σ),
      continues env lookup fuel n i st w = some (st1, w1) →
        st1.chased = st.chased ++ chasedAlong env lookup fuel n i st w := by
  intro n
  induction n with
  | zero =>
    intro i st w st1 w1 h
    simp only [continues, Option.some.injEq, Prod.mk.injEq] at h
    rw [← h.1, chasedAlong, List.append_nil]
  | succ n ih =>
    intro i st w st1 w1 h
    have hs := iteration_chased env lookup fuel i st w
    rw [continues] at h
    rw [chasedAlong]
    cases hit : iteration env lookup fuel i st w with
    | next st2 w2 =>
      rw [hit] at h hs
      obtain ⟨m, hm, hch⟩ := hs
      rw [ih (i + 1) st2 w2 st1 w1 h, hch, hm, List.append_assoc]
    | exit res w2 => rw [hit] at h; cases h
    | panic => rw [hit] at h; cases h
    | timeout => rw [hit] at h; cases h

theorem lookupLoop_continues_exit {σ : Type} (env : Env σ)
    (lookup : Question → σ → Outcome (LookupResult × σ)) (fuel : Nat) :
    ∀ (n k i : Nat) (st : LoopState) (w : σ) (st1 : LoopState) (w1 : σ) (res : LookupResult)
      (w2 : σ),
      continues env lookup fuel n i st w = some (st1, w1) →
        iteration env lookup fuel (i + n) st1 w1 = .exit res w2 →
          lookupLoop env lookup fuel (n + 1 + k) i st w = .ret (res, w2) := by
  intro n
  induction n with
  | zero =>
    intro k i st w st1 w1 res w2 h hexit
    simp only [continues, Option.some.injEq, Prod.mk.injEq] at h
    rw [← h.1, ← h.2] at hexit
    have : 0 + 1 + k = k + 1 := by omega
    rw [this, lookupLoop]
    simp only [Nat.add_zero] at hexit
    rw [hexit]
  | succ n ih =>
    intro k i st w st1 w1 res w2 h hexit
    rw [continues] at h
    have : n + 1 + 1 + k = (n + 1 + k) + 1 := by omega
    rw [this, lookupLoop]
    cases hit : iteration env lookup fuel i st w with
    | next st2 w3 =>
      rw [hit] at h
      have hidx : i + (n + 1) = i + 1 + n := by omega
      rw [hidx] at hexit
      exact ih k (i + 1) st2 w3 st1 w1 res w2 h hexit
    | exit res2 w3 => rw [hit] at h; cases h
    | panic => rw [hit] at h; cases h
    | timeout => rw [hit] at h; cases h

theorem initialState_chased {σ : Type} (env : Env σ) (q : Question) (w : σ)
    (st : LoopState) (w1 : σ) (h : initialState env q w = .ret (st, w1)) :
    st.chased = [] := by
  unfold initialState at h
  split at h
  · cases h
  · cases h
  · split at h
    · cases h
    · simp only [Outcome.ret.injEq, Prod.mk.injEq] at h
      rw [← h.1]

/-- C12: when the first `n` iterations of `Lookup` each go on to the next
(alias chases and referrals), and the next iteration returns without error on a
response with rcode NOERROR and a non-empty answer section, then that response
is not an alias, `Lookup` returns the result of that iteration, and the Answer
section it returns is the CNAME records of the alias responses, in the order
they were chased, followed by the answer section of the final response
unchanged. -/
theorem lookup_answer_after_aliases {σ : Type} (env : Env σ) (fuel : Nat) (q : Question)
    (w : σ) (st0 : LoopState) (w0 : σ) (n : Nat) (st : LoopState) (w1 : σ) (r : Msg)
    (res : LookupResult) (w2 : σ)
    (hinit : initialState env q w = .ret (st0, w0))
    (hn : n < MaxReferrals)
    (hcont : continues env (Lookup env fuel) (fuel + 1) n 0 st0 w0 = some (st, w1))
    (hr : (query env st.q st.authority w1).1.msg = some r)
    (hrcode : r.Rcode = RcodeSuccess) (hans : r.Answer ≠ [])
    (hexit : iteration env (Lookup env fuel) (fuel + 1) n st w1 = .exit res w2)
    (herr : res.err = none) :
    Lookup env (fuel + 1) q w = .ret (res, w2) ∧
      (∃ x, isAlias (fuel + 1) r.Answer st.q = .ret (false, x)) ∧
      ∃ a, res.answer = some a ∧
        a.Answer = chasedAlong env (Lookup env fuel) (fuel + 1) n 0 st0 w0 ++ r.Answer := by
  have hch := continues_chased env _ _ _ _ _ _ _ _ hcont
  rw [initialState_chased env q w st0 w0 hinit, List.nil_append] at hch
  have hs := iteration_chased env (Lookup env fuel) (fuel + 1) n st w1
  rw [hexit] at hs
  obtain ⟨hx, a, ha, haa⟩ := hs herr r hr hrcode hans
  refine ⟨?_, hx, a, ha, ?_⟩
  · obtain ⟨k, hk⟩ : ∃ k, MaxReferrals = n + 1 + k := ⟨MaxReferrals - n - 1, by omega⟩
    simp only [Lookup, lookupBody, hinit]
    rw [hk]
    exact lookupLoop_continues_exit env _ _ n k 0 st0 w0 st w1 res w2 hcont
      (by rw [Nat.zero_add]; exact hexit)
  · rw [haa, hch]

theorem lookup_answer_after_aliases_witness :
    ∃ res w2, Lookup chaseEnv 1 { Name := "www.example.", Type_ := TypeA } 0 = .ret (res, w2) ∧
      ∃ a, res.answer = some a ∧
        a.Answer = cnameRecord "www.example." "www.example.net." :: msgRootAnswer.Answer := by
  have hsome : (continues chaseEnv (Lookup chaseEnv 0) 1 2 0
      (startState { Name := "www.example.", Type_ := TypeA }) 0).isSome = true := by decide
  obtain ⟨⟨st, w1⟩, hc⟩ := Option.isSome_iff_exists.1 hsome
  have hq : (continues chaseEnv (Lookup chaseEnv 0) 1 2 0
      (startState { Name := "www.example.", Type_ := TypeA }) 0).map
      (fun p => (query chaseEnv p.1.q p.1.authority p.2).1.msg) = some (some msgRootAnswer) := by
    decide
  have hx : ((continues chaseEnv (Lookup chaseEnv 0) 1 2 0
      (startState { Name := "www.example.", Type_ := TypeA }) 0).bind
      (fun p => (iteration chaseEnv (Lookup chaseEnv 0) 1 2 p.1 p.2).exitResult)).map
      (fun p => p.1.err) = some none := by decide
  have hchased : chasedAlong chaseEnv (Lookup chaseEnv 0) 1 2 0
      (startState { Name := "www.example.", Type_ := TypeA }) 0 =
      [cnameRecord "www.example." "www.example.net."] := by decide
  rw [hc] at hq hx
  simp only [Option.map_some', Option.some.injEq, Option.some_bind] at hq hx
  cases hit : iteration chaseEnv (Lookup chaseEnv 0) 1 2 st w1 with
  | exit res w2 =>
    rw [hit] at hx
    simp only [Step.exitResult, Option.map_some', Option.some.injEq] at hx
    have h := lookup_answer_after_aliases chaseEnv 0 { Name := "www.example.", Type_ := TypeA }
      0 (startState { Name := "www.example.", Type_ := TypeA }) 0 2 st w1 msgRootAnswer res w2
      rfl (by decide) hc hq rfl (by decide) hit hx
    obtain ⟨h1, _, a, ha, haa⟩ := h
    rw [hchased] at haa
    exact ⟨res, w2, h1, a, ha, haa⟩
  | next st2 w2 => rw [hit] at hx; simp [Step.exitResult] at hx
  | panic => rw [hit] at hx; simp [Step.exitResult] at hx
  | timeout => rw [hit] at hx; simp [Step.exitResult] at hx

/-! ## `verifyRRSIG`: what a success covers -/

theorem mem_extractRRSet (sec : List RR) (name : String) (t : Nat) (r : RR) :
    r ∈ extractRRSet sec name [t] ↔
      r ∈ sec ∧ r.Hdr.Rrtype = t ∧ (name = "" ∨ name = r.Hdr.Name) := by
  unfold extractRRSet
  simp only [List.mem_filter, Bool.and_eq_true, Bool.not_eq_true', Bool.and_eq_false_imp,
    bne_iff_ne, ne_eq, bne_eq_false_iff_eq, List.contains_cons, List.contains_nil, Bool.or_false,
    beq_iff_eq]
  constructor
  · rintro ⟨h1, h2, h3⟩
    refine ⟨h1, h2, ?_⟩
    by_cases hn : name = ""
    · exact Or.inl hn
    · exact Or.inr (h3 hn)
  · rintro ⟨h1, h2, h3⟩
    refine ⟨h1, h2, fun hn => ?_⟩
    rcases h3 with h | h
    · exact absurd h hn
    · exact h

theorem verifySigs_success (verify : RRSIG → DNSKEY → List RR → Option GoError)
    (validityPeriod : RRSIG → Bool) (keyMap : List (Nat × DNSKEY)) (sec : List RR) :
    ∀ sigs : List RR, verifySigs verify validityPeriod keyMap sec sigs = .ret none →
      ∀ sigRR ∈ sigs, ∃ sig k, sigRR.data = .RRSIG sig ∧ keyMap.lookup sig.KeyTag = some k ∧
        extractRRSet sec sigRR.Hdr.Name [sig.TypeCovered] ≠ [] ∧
        verify sig k (extractRRSet sec sigRR.Hdr.Name [sig.TypeCovered]) = none ∧
        validityPeriod sig = true := by
  intro sigs
  induction sigs with
  | nil => intro _ sigRR h; cases h
  | cons s rest ih =>
    intro h sigRR hmem
    rw [verifySigs] at h
    split at h
    · rename_i sig hsig
      dsimp only at h
      split at h
      · cases h
      · rename_i hrest
        split at h
        · cases h
        · rename_i k hk
          split at h
          · cases h
          · rename_i hver
            split at h
            · cases h
            · rename_i hvp
              rw [List.mem_cons] at hmem
              rcases hmem with rfl | hmem
              · refine ⟨sig, k, hsig, hk, ?_, hver, by simpa using hvp⟩
                intro hnil
                exact hrest (by rw [hnil]; rfl)
              · exact ih h sigRR hmem
    · cases h

theorem verifySection_success (verify : RRSIG → DNSKEY → List RR → Option GoError)
    (validityPeriod : RRSIG → Bool) (keyMap : List (Nat × DNSKEY)) (sec : List RR)
    (h : verifySection verify validityPeriod keyMap sec = .ret none) :
    (sec ≠ [] → ∃ sigRR ∈ sec, sigRR.Hdr.Rrtype = TypeRRSIG) ∧
      ∀ sigRR ∈ sec, sigRR.Hdr.Rrtype = TypeRRSIG →
        ∃ sig k, sigRR.data = .RRSIG sig ∧ keyMap.lookup sig.KeyTag = some k ∧
          (∃ record ∈ sec, record.Hdr.Rrtype = sig.TypeCovered ∧
            (sigRR.Hdr.Name = "" ∨ sigRR.Hdr.Name = record.Hdr.Name)) ∧
          verify sig k (extractRRSet sec sigRR.Hdr.Name [sig.TypeCovered]) = none ∧
          validityPeriod sig = true := by
  unfold verifySection at h
  split at h
  · rename_i hlen
    have hnil : sec = [] := List.length_eq_zero.1 hlen
    subst hnil
    exact ⟨fun hne => absurd rfl hne, fun _ hm => by cases hm⟩
  · dsimp only at h
    split at h
    · cases h
    · rename_i hsigs
      constructor
      · intro _
        cases hs : extractRRSet sec "" [TypeRRSIG] with
        | nil => rw [hs] at hsigs; exact absurd rfl hsigs
        | cons s rest =>
          have hm : s ∈ extractRRSet sec "" [TypeRRSIG] := by rw [hs]; exact List.mem_cons_self _ _
          rw [mem_extractRRSet] at hm
          exact ⟨s, hm.1, hm.2.1⟩
      · intro sigRR hmem hty
        have hm : sigRR ∈ extractRRSet sec "" [TypeRRSIG] :=
          (mem_extractRRSet _ _ _ _).2 ⟨hmem, hty, Or.inl rfl⟩
        obtain ⟨sig, k, h1, h2, h3, h4, h5⟩ :=
          verifySigs_success verify validityPeriod keyMap sec _ h sigRR hm
        refine ⟨sig, k, h1, h2, ?_, h4, h5⟩
        cases hx : extractRRSet sec sigRR.Hdr.Name [sig.TypeCovered] with
        | nil => exact absurd hx h3
        | cons record rest =>
          have hr : record ∈ extractRRSet sec sigRR.Hdr.Name [sig.TypeCovered] := by
            rw [hx]; exact List.mem_cons_self _ _
          rw [mem_extractRRSet] at hr
          exact ⟨record, hr.1, hr.2.1, hr.2.2⟩

/-- C16 (as stated, refuted): `verifyRRSIG` accepts `msgPartlySigned`, whose
answer section holds the address record of `mail.example.` and no other
record, hence no RRSIG, with that owner name. -/
theorem verifyRRSIG_accepts_unsigned_record :
    verifyRRSIG toyVerify toyValidityPeriod msgPartlySigned [(7, rootKey)] = .ret none ∧
      aRecord "mail.example." "203.0.113.9" ∈ msgPartlySigned.Answer ∧
      (aRecord "mail.example." "203.0.113.9").Hdr.Rrtype ≠ TypeRRSIG ∧
      ∀ s ∈ msgPartlySigned.Answer,
        s.Hdr.Name = "mail.example." → s = aRecord "mail.example." "203.0.113.9" := by
  decide

/-- C16 (amended): if `verifyRRSIG` returns success for a message and key map,
then in the answer section and in the authority section every RRSIG record has
its key tag in the key map, the section holds at least one record of the type
it covers under its owner name (under any owner name when the owner of the
RRSIG is the empty string), the codec verified it over those records, and its
validity period holds; and a section that is not empty holds at least one
RRSIG. A record of a section need not be covered by any of them. -/
theorem verifyRRSIG_success (verify : RRSIG → DNSKEY → List RR → Option GoError)
    (validityPeriod : RRSIG → Bool) (msg : Msg) (keyMap : List (Nat × DNSKEY))
    (h : verifyRRSIG verify validityPeriod msg keyMap = .ret none) :
    ∀ sec ∈ [msg.Answer, msg.Ns],
      (sec ≠ [] → ∃ sigRR ∈ sec, sigRR.Hdr.Rrtype = TypeRRSIG) ∧
        ∀ sigRR ∈ sec, sigRR.Hdr.Rrtype = TypeRRSIG →
          ∃ sig k, sigRR.data = .RRSIG sig ∧ keyMap.lookup sig.KeyTag = some k ∧
            (∃ record ∈ sec, record.Hdr.Rrtype = sig.TypeCovered ∧
              (sigRR.Hdr.Name = "" ∨ sigRR.Hdr.Name = record.Hdr.Name)) ∧
            verify sig k (extractRRSet sec sigRR.Hdr.Name [sig.TypeCovered]) = none ∧
            validityPeriod sig = true := by
  rw [verifyRRSIG_eq] at h
  have hboth : verifySection verify validityPeriod keyMap msg.Answer = .ret none ∧
      verifySection verify validityPeriod keyMap msg.Ns = .ret none := by
    cases ha : verifySection verify validityPeriod keyMap msg.Answer with
    | ret e =>
      rw [ha] at h
      cases e with
      | none => exact ⟨rfl, h⟩
      | some err => cases h
    | panic => rw [ha] at h; cases h
    | timeout => rw [ha] at h; cases h
  intro sec hsec
  simp only [List.mem_cons, List.mem_singleton, List.not_mem_nil, or_false] at hsec
  rcases hsec with rfl | rfl
  · exact verifySection_success verify validityPeriod keyMap _ hboth.1
  · exact verifySection_success verify validityPeriod keyMap _ hboth.2

theorem verifyRRSIG_success_witness :
    (∃ sigRR ∈ msgPartlySigned.Answer, sigRR.Hdr.Rrtype = TypeRRSIG) ∧
      ∃ sig k, (sigRecord "www.example." TypeA 7).data = .RRSIG sig ∧
        ([(7, rootKey)] : List (Nat × DNSKEY)).lookup sig.KeyTag = some k ∧
        (∃ record ∈ msgPartlySigned.Answer, record.Hdr.Rrtype = sig.TypeCovered ∧
          ((sigRecord "www.example." TypeA 7).Hdr.Name = "" ∨
            (sigRecord "www.example." TypeA 7).Hdr.Name = record.Hdr.Name)) ∧
        toyVerify sig k (extractRRSet msgPartlySigned.Answer
          (sigRecord "www.example." TypeA 7).Hdr.Name [sig.TypeCovered]) = none ∧
        toyValidityPeriod sig = true :=
  ⟨((verifyRRSIG_success toyVerify toyValidityPeriod msgPartlySigned [(7, rootKey)] (by decide)
      msgPartlySigned.Answer (List.mem_cons_self _ _)).1 (by decide)),
    (verifyRRSIG_success toyVerify toyValidityPeriod msgPartlySigned [(7, rootKey)] (by decide)
      msgPartlySigned.Answer (List.mem_cons_self _ _)).2 (sigRecord "www.example." TypeA 7)
      (by decide) rfl⟩

/-! ## `pickAuthority`: the nameserver chosen from glue -/

theorem mem_of_lookup {ν : Type} (m : List (String × ν)) (k : String) (v : ν)
    (h : m.lookup k = some v) : (k, v) ∈ m := by
  obtain ⟨l1, l2, hm, _⟩ := List.lookup_eq_some_iff.1 h
  rw [hm]
  exact List.mem_append_right _ (List.mem_cons_self _ _)

theorem splitZones_mem (nsToZone : List (String × String)) (useIPv6 : Bool) (extras : List RR) :
    ∀ (zones : List (String × List String)) (minTTLs : List (String × Nat)) (z addr : String),
      addr ∈ (((splitZones nsToZone useIPv6 extras zones minTTLs).1).lookup z).getD [] →
        addr ∈ ((zones.lookup z).getD []) ∨
          ∃ glue ∈ extras, nsToZone.lookup glue.Hdr.Name = some z ∧
            (glue.Hdr.Rrtype = TypeA ∨ (useIPv6 = true ∧ glue.Hdr.Rrtype = TypeAAAA)) ∧
            (glue.data = .A addr ∨ (glue.data = .AAAA addr ∧ useIPv6 = true)) := by
  induction extras with
  | nil =>
    intro zones minTTLs z addr h
    exact Or.inl h
  | cons rr rest ih =>
    intro zones minTTLs z addr h
    have lift : ∀ {zs : List (String × List String)} {ms : List (String × Nat)},
        addr ∈ (((splitZones nsToZone useIPv6 rest zs ms).1).lookup z).getD [] →
        (addr ∈ ((zs.lookup z).getD []) →
          addr ∈ ((zones.lookup z).getD []) ∨
            ∃ glue ∈ rr :: rest, nsToZone.lookup glue.Hdr.Name = some z ∧
              (glue.Hdr.Rrtype = TypeA ∨ (useIPv6 = true ∧ glue.Hdr.Rrtype = TypeAAAA)) ∧
              (glue.data = .A addr ∨ (glue.data = .AAAA addr ∧ useIPv6 = true))) →
        addr ∈ ((zones.lookup z).getD []) ∨
          ∃ glue ∈ rr :: rest, nsToZone.lookup glue.Hdr.Name = some z ∧
            (glue.Hdr.Rrtype = TypeA ∨ (useIPv6 = true ∧ glue.Hdr.Rrtype = TypeAAAA)) ∧
            (glue.data = .A addr ∨ (glue.data = .AAAA addr ∧ useIPv6 = true)) := by
      intro zs ms h1 h2
      rcases ih zs ms z addr h1 with h3 | ⟨g, hg, h4⟩
      · exact h2 h3
      · exact Or.inr ⟨g, List.mem_cons_of_mem _ hg, h4⟩
    rw [splitZones] at h
    split at h
    · exact lift h Or.inl
    · rename_i zone hzone
      split at h
      · rename_i hty
        dsimp only at h
        cases hdata : rr.data with
        | A a =>
          rw [hdata] at h
          refine lift h (fun h2 => ?_)
          rw [lookup_mapSet] at h2
          by_cases hz : z = zone
          · rw [if_pos hz, Option.getD_some, List.mem_append, List.mem_singleton] at h2
            rcases h2 with h2 | h2
            · exact Or.inl (hz ▸ h2)
            · exact Or.inr ⟨rr, List.mem_cons_self _ _, hz ▸ hzone, hty, Or.inl (h2 ▸ hdata)⟩
          · rw [if_neg hz] at h2
            exact Or.inl h2
        | AAAA a =>
          rw [hdata] at h
          dsimp only at h
          by_cases hv : useIPv6 = true
          · rw [if_pos hv] at h
            refine lift h (fun h2 => ?_)
            rw [lookup_mapSet] at h2
            by_cases hz : z = zone
            · rw [if_pos hz, Option.getD_some, List.mem_append, List.mem_singleton] at h2
              rcases h2 with h2 | h2
              · exact Or.inl (hz ▸ h2)
              · exact Or.inr ⟨rr, List.mem_cons_self _ _, hz ▸ hzone, hty,
                  Or.inr ⟨h2 ▸ hdata, hv⟩⟩
            · rw [if_neg hz] at h2
              exact Or.inl h2
          · rw [if_neg hv] at h
            exact lift h Or.inl
        | NS _ => rw [hdata] at h; exact lift h Or.inl
        | CNAME _ => rw [hdata] at h; exact lift h Or.inl
        | DNAME _ => rw [hdata] at h; exact lift h Or.inl
        | DS _ => rw [hdata] at h; exact lift h Or.inl
        | RRSIG _ => rw [hdata] at h; exact lift h Or.inl
        | DNSKEY _ => rw [hdata] at h; exact lift h Or.inl
        | other => rw [hdata] at h; exact lift h Or.inl
      · exact lift h Or.inl

theorem lookupNS_log {σ : Type} (env : Env σ)
    (lookup : Question → σ → Outcome (LookupResult × σ)) (name : String) (w : σ)
    (ar : AuthorityResult) (w1 : σ) (h : lookupNS env lookup name w = .ret (ar, w1)) :
    ar.log ≠ none := by
  unfold lookupNS at h
  split at h
  · cases h
  · cases h
  · split at h
    · simp only [Outcome.ret.injEq, Prod.mk.injEq] at h
      rw [← h.1]
      exact Option.some_ne_none _
    · split at h
      · cases h
      · split at h
        · simp only [Outcome.ret.injEq, Prod.mk.injEq] at h
          rw [← h.1]
          exact Option.some_ne_none _
        · split at h
          · simp only [Outcome.ret.injEq, Prod.mk.injEq] at h
            rw [← h.1]
            exact Option.some_ne_none _
          · dsimp only at h
            split at h
            · simp only [Outcome.ret.injEq, Prod.mk.injEq] at h
              rw [← h.1]
              exact Option.some_ne_none _
            · split at h
              · cases h
              · cases h
              · split at h
                · simp only [Outcome.ret.injEq, Prod.mk.injEq] at h
                  rw [← h.1]
                  exact Option.some_ne_none _
                · cases h

/-- C17 (as stated, refuted): for a referral to `example.` with the nameservers
`ns1.example.` and `ns2.example.` and glue for `ns2.example.` only,
`pickAuthority` returns, without a recursive lookup, the name `ns1.example.`
with the address of `ns2.example.`: no record of the additional section is
owned by the returned name. -/
theorem pickAuthority_pooled_glue :
    (pickAuthority cycleEnv (Lookup cycleEnv 0) authsTwoNS extrasSecondGlue 0).value.map
        (fun p => (p.1.ns, p.1.log.isNone, p.1.err)) =
        some (some { Name := "ns1.example.", Addr := "192.0.2.2", Zone := "example." },
          true, none) ∧
      ∀ glue ∈ extrasSecondGlue, glue.Hdr.Name ≠ "ns1.example." := by
  decide

/-- C17 (amended): whenever `pickAuthority` returns a nameserver chosen from
glue (it returns no log, as no recursive lookup is made), the returned Zone is
the owner name of an NS record in the authority section whose target is the
returned Name, and the returned Addr is the address of an A record (or AAAA
record, only when IPv6 is enabled) in the additional section whose owner name
is the target of an NS record of the returned Zone in the authority section;
that target need not be the returned Name. -/
theorem pickAuthority_glue {σ : Type} (env : Env σ)
    (lookup : Question → σ → Outcome (LookupResult × σ)) (auths extras : List RR) (w : σ)
    (ar : AuthorityResult) (w1 : σ) (a : Nameserver)
    (h : pickAuthority env lookup auths extras w = .ret (ar, w1))
    (hns : ar.ns = some a) (hlog : ar.log = none) :
    (∃ nsrec ∈ auths, nsrec.Hdr.Rrtype = TypeNS ∧ nsrec.data = .NS a.Name ∧
        nsrec.Hdr.Name = a.Zone) ∧
      ∃ glue ∈ extras,
        (glue.Hdr.Rrtype = TypeA ∨ (env.useIPv6 = true ∧ glue.Hdr.Rrtype = TypeAAAA)) ∧
        (glue.data = .A a.Addr ∨ (glue.data = .AAAA a.Addr ∧ env.useIPv6 = true)) ∧
        ∃ nsrec ∈ auths, nsrec.Hdr.Rrtype = TypeNS ∧ nsrec.data = .NS glue.Hdr.Name ∧
          nsrec.Hdr.Name = a.Zone := by
  unfold pickAuthority at h
  unfold splitAuthsByZone at h
  cases hs : splitNsToZone auths [] with
  | panic => rw [hs] at h; cases h
  | timeout => rw [hs] at h; cases h
  | ret nsToZone =>
    rw [hs] at h
    have hmem : ∀ e ∈ nsToZone,
        ∃ rr ∈ auths, rr.Hdr.Rrtype = TypeNS ∧ rr.data = .NS e.1 ∧ rr.Hdr.Name = e.2 := by
      intro e he
      rcases splitNsToZone_mem auths [] nsToZone hs e he with h1 | h1
      · cases h1
      · exact h1
    dsimp only at h
    split at h
    · split at h
      · simp only [Outcome.ret.injEq, Prod.mk.injEq] at h
        rw [← h.1] at hns
        cases hns
      · split at h
        · cases h
        · cases h
        · rename_i ar2 w2 hl
          have hl2 := lookupNS_log env lookup _ _ ar2 w2 hl
          split at h
          · simp only [Outcome.ret.injEq, Prod.mk.injEq] at h
            rw [← h.1] at hns
            cases hns
          · split at h
            · cases h
            · simp only [Outcome.ret.injEq, Prod.mk.injEq] at h
              rw [← h.1] at hlog
              exact absurd hlog hl2
    · obtain ⟨h1, h2, _⟩ := pickGlue_mem env _ _ _ _ _ _ h hns
      refine ⟨hmem _ (mem_rangeOrder _ _ _ h1), ?_⟩
      rcases splitZones_mem nsToZone env.useIPv6 extras [] [] a.Zone a.Addr h2 with h3 | h3
      · simp at h3
      · obtain ⟨glue, hg, hz, hty, hdata⟩ := h3
        exact ⟨glue, hg, hty, hdata, hmem _ (mem_of_lookup _ _ _ hz)⟩

theorem pickAuthority_glue_witness :
    ∃ a : Nameserver, a.Zone = "example." ∧
      (∃ nsrec ∈ msgExampleReferral.Ns, nsrec.Hdr.Rrtype = TypeNS ∧ nsrec.data = .NS a.Name ∧
          nsrec.Hdr.Name = a.Zone) ∧
        ∃ glue ∈ msgExampleReferral.Extra,
          (glue.Hdr.Rrtype = TypeA ∨ (aliasEnv.useIPv6 = true ∧ glue.Hdr.Rrtype = TypeAAAA)) ∧
          (glue.data = .A a.Addr ∨ (glue.data = .AAAA a.Addr ∧ aliasEnv.useIPv6 = true)) ∧
          ∃ nsrec ∈ msgExampleReferral.Ns, nsrec.Hdr.Rrtype = TypeNS ∧
            nsrec.data = .NS glue.Hdr.Name ∧ nsrec.Hdr.Name = a.Zone := by
  have hv : (pickAuthority aliasEnv (Lookup aliasEnv 0) msgExampleReferral.Ns
      msgExampleReferral.Extra 1).value.map (fun p => (p.1.ns, p.1.log.isNone)) =
      some (some exampleNS, true) := by decide
  cases hp : pickAuthority aliasEnv (Lookup aliasEnv 0) msgExampleReferral.Ns
      msgExampleReferral.Extra 1 with
  | ret p =>
    obtain ⟨ar, w1⟩ := p
    rw [hp] at hv
    simp only [Outcome.value, Option.map_some', Option.some.injEq, Prod.mk.injEq,
      Option.isNone_iff_eq_none] at hv
    exact ⟨exampleNS, rfl,
      pickAuthority_glue aliasEnv (Lookup aliasEnv 0) msgExampleReferral.Ns
        msgExampleReferral.Extra 1 ar w1 exampleNS hp hv.1 hv.2⟩
  | panic => rw [hp] at hv; cases hv
  | timeout => rw [hp] at hv; cases hv

/-! ## The answer cache: `minTTL` -/

theorem foldl_min_props {α : Type} (cand : α → Option Nat) (g : Nat → α → Nat)
    (hg : ∀ m x, g m x =
      match cand x with
      | some v => if v < m then v else m
      | none => m) (l : List α) :
    ∀ m : Nat, l.foldl g m ≤ m ∧ (∀ x ∈ l, ∀ v, cand x = some v → l.foldl g m ≤ v) ∧
      (l.foldl g m = m ∨ ∃ x ∈ l, cand x = some (l.foldl g m)) := by
  induction l with
  | nil =>
    intro m
    exact ⟨Nat.le_refl _, fun x hx => (by cases hx), Or.inl rfl⟩
  | cons y ys ih =>
    intro m
    rw [List.foldl_cons]
    obtain ⟨h1, h2, h3⟩ := ih (g m y)
    have hstep : g m y ≤ m ∧ (∀ v, cand y = some v → g m y ≤ v) ∧
        (g m y = m ∨ cand y = some (g m y)) := by
      rw [hg m y]
      cases hc : cand y with
      | none => exact ⟨Nat.le_refl _, fun v hv => (by cases hv), Or.inl rfl⟩
      | some v =>
        dsimp only
        by_cases hlt : v < m
        · rw [if_pos hlt]
          exact ⟨Nat.le_of_lt hlt, fun v2 hv2 => (by cases hv2; exact Nat.le_refl _), Or.inr rfl⟩
        · rw [if_neg hlt]
          exact ⟨Nat.le_refl _, fun v2 hv2 => (by cases hv2; omega), Or.inl rfl⟩
    refine ⟨Nat.le_trans h1 hstep.1, ?_, ?_⟩
    · intro x hx v hv
      rw [List.mem_cons] at hx
      rcases hx with rfl | hx
      · exact Nat.le_trans h1 (hstep.2.1 v hv)
      · exact h2 x hx v hv
    · rcases h3 with h3 | ⟨x, hx, hxc⟩
      · rcases hstep.2.2 with h4 | h4
        · exact Or.inl (h3.trans h4)
        · exact Or.inr ⟨y, List.mem_cons_self _ _, by rw [h3]; exact h4⟩
      · exact Or.inr ⟨x, List.mem_cons_of_mem _ hx, hxc⟩

theorem secondsUntilExpiration_add (now k : Nat) (hk : k < 2 ^ 32) :
    secondsUntilExpiration ((now + k) % 2 ^ 32) now = k := by
  unfold secondsUntilExpiration
  omega

/-- C14: `minTTL` returns 0 for the empty set; for a non-empty set it returns
the minimum of the header TTLs of all records and, for each RRSIG of the set,
of the seconds from now until its expiration: it is one of these values and at
most each of them. The seconds until an expiration time that lies `k` seconds
after now, taken modulo 2^32, are `k`; so a record with TTL 5 together with an
RRSIG expiring one second from now gives 1. -/
theorem minTTL_minimum (a : List RR) (now : Nat) :
    minTTL [] now = 0 ∧
      (a ≠ [] →
        ((∃ r ∈ a, minTTL a now = r.Hdr.Ttl) ∨
            ∃ r ∈ a, ∃ sig, rrsigOf r = some sig ∧
              minTTL a now = secondsUntilExpiration sig.Expiration now) ∧
          (∀ r ∈ a, minTTL a now ≤ r.Hdr.Ttl) ∧
          ∀ r ∈ a, ∀ sig, rrsigOf r = some sig →
            minTTL a now ≤ secondsUntilExpiration sig.Expiration now) ∧
      (∀ k, k < 2 ^ 32 → secondsUntilExpiration ((now + k) % 2 ^ 32) now = k) ∧
      minTTL [ttlRecord 5, expiringSig ((now + 1) % 2 ^ 32)] now = 1 := by
  refine ⟨rfl, ?_, fun k hk => secondsUntilExpiration_add now k hk, ?_⟩
  · intro hne
    cases a with
    | nil => exact absurd rfl hne
    | cons r rest =>
      have hA := foldl_min_props (fun x : RR => some x.Hdr.Ttl)
        (fun m x => if x.Hdr.Ttl < m then x.Hdr.Ttl else m) (fun _ _ => rfl) rest r.Hdr.Ttl
      have hB := foldl_min_props
        (fun x : RR => (rrsigOf x).map fun sig => secondsUntilExpiration sig.Expiration now)
        (fun m x =>
          match rrsigOf x with
          | some sig =>
            if secondsUntilExpiration sig.Expiration now < m then
              secondsUntilExpiration sig.Expiration now
            else m
          | none => m)
        (fun m x => by dsimp only; cases rrsigOf x <;> rfl) (r :: rest)
        (rest.foldl (fun m x => if x.Hdr.Ttl < m then x.Hdr.Ttl else m) r.Hdr.Ttl)
      obtain ⟨hA1, hA2, hA3⟩ := hA
      obtain ⟨hB1, hB2, hB3⟩ := hB
      refine ⟨?_, ?_, ?_⟩
      · rcases hB3 with hB3 | ⟨x, hx, hxc⟩
        · left
          rcases hA3 with hA3 | ⟨x, hx, hxc⟩
          · exact ⟨r, List.mem_cons_self _ _, hB3.trans hA3⟩
          · simp only [Option.some.injEq] at hxc
            exact ⟨x, List.mem_cons_of_mem _ hx, hB3.trans hxc.symm⟩
        · right
          cases hs : rrsigOf x with
          | none => rw [hs] at hxc; cases hxc
          | some sig =>
            rw [hs] at hxc
            simp only [Option.map_some', Option.some.injEq] at hxc
            exact ⟨x, hx, sig, hs, hxc.symm⟩
      · intro x hx
        refine Nat.le_trans hB1 ?_
        rw [List.mem_cons] at hx
        rcases hx with rfl | hx
        · exact hA1
        · exact hA2 x hx _ rfl
      · intro x hx sig hsig
        exact hB2 x hx _ (by rw [hsig]; rfl)
  · have hs := secondsUntilExpiration_add now 1 (by decide)
    have h1 : rrsigOf (ttlRecord 5) = none := rfl
    have h2 : ∃ sig, rrsigOf (expiringSig ((now + 1) % 2 ^ 32)) = some sig ∧
        sig.Expiration = (now + 1) % 2 ^ 32 := ⟨_, rfl, rfl⟩
    obtain ⟨sig, h2, h3⟩ := h2
    have h4 : (expiringSig ((now + 1) % 2 ^ 32)).Hdr.Ttl = 4 := rfl
    have h5 : (ttlRecord 5).Hdr.Ttl = 5 := rfl
    simp only [minTTL, List.foldl_cons, List.foldl_nil, h1, h2, h3, hs, h4, h5]
    decide

theorem minTTL_minimum_witness :
    (∀ r ∈ [ttlRecord 2, ttlRecord 5, ttlRecord 1],
        minTTL [ttlRecord 2, ttlRecord 5, ttlRecord 1] 0 ≤ r.Hdr.Ttl) ∧
      minTTL [ttlRecord 5, expiringSig ((1700000000 + 1) % 2 ^ 32)] 1700000000 = 1 :=
  ⟨((minTTL_minimum [ttlRecord 2, ttlRecord 5, ttlRecord 1] 0).2.1 (by decide)).2.1,
    (minTTL_minimum [] 1700000000).2.2.2⟩

/-! ## The answer cache: `Add`, `Get` and `fullPrune` -/

theorem add_kept (bc : BasicCache) (q : Question) (a : Answer) (forever : Bool) (now : Nat)
    (hkept : forever = true ∨ 0 < minTTL (a.Answer ++ a.Authority ++ a.Additional) now) :
    bc.Add q a forever now q =
      some { answer := a, forever := forever,
             expiresAt := now + minTTL (a.Answer ++ a.Authority ++ a.Additional) now } := by
  have hnot : ¬ (forever = false ∧
      minTTL (a.Answer ++ a.Authority ++ a.Additional) now = 0) := by
    rintro ⟨h1, h2⟩
    rcases hkept with h | h
    · rw [h1] at h; cases h
    · omega
  unfold BasicCache.Add
  simp only [hnot, if_false, if_true]

/-- C13 (as stated, refuted): an answer with TTL 100 is added at time 0 and an
answer with TTL 0 is added for the same question at time 10, not forever. The
second call is dropped: at time 10, the `expires_at` of the second answer, `Get`
still returns the first answer, with or without a prune. -/
theorem cache_zero_ttl_keeps_entry :
    minTTL ((ttlAnswer 0).Answer ++ (ttlAnswer 0).Authority ++ (ttlAnswer 0).Additional) 10 = 0 ∧
      ((BasicCache.empty.Add testQuestion (ttlAnswer 100) false 0).Add testQuestion
          (ttlAnswer 0) false 10).Get testQuestion 10 = some (ttlAnswer 100) ∧
      (((BasicCache.empty.Add testQuestion (ttlAnswer 100) false 0).Add testQuestion
          (ttlAnswer 0) false 10).fullPrune 10).Get testQuestion 10 = some (ttlAnswer 100) := by
  decide

/-- C13 (amended): an `Add(Q, A, forever)` with `forever` false and
`minTTL(A) = 0` is dropped and leaves the cache as it was. After any other
`Add(Q, A, forever)` the entry of `Q` is `A` with `expires_at` = insertion time +
`minTTL(A)`, whatever entry `Q` had before, so that a second such `Add`
replaces the entry and recomputes `expires_at` from the new answer; `Get(Q)`
returns exactly `A` at every time before `expires_at`, also after a prune
made by then; once the clock has reached
`expires_at`, `Get(Q)` returns absent, with or without a prune, unless
`forever` is true, in which case the entry survives every prune and is still
returned. -/
theorem cache_add_get (bc : BasicCache) (q : Question) (a : Answer) (forever : Bool)
    (now : Nat) :
    (forever = false ∧ minTTL (a.Answer ++ a.Authority ++ a.Additional) now = 0 →
        bc.Add q a forever now = bc) ∧
      (forever = true ∨ 0 < minTTL (a.Answer ++ a.Authority ++ a.Additional) now →
        bc.Add q a forever now q =
            some { answer := a, forever := forever,
                   expiresAt := now + minTTL (a.Answer ++ a.Authority ++ a.Additional) now } ∧
          (∀ t, t < now + minTTL (a.Answer ++ a.Authority ++ a.Additional) now →
            (bc.Add q a forever now).Get q t = some a ∧
              ∀ p, p ≤ t → ((bc.Add q a forever now).fullPrune p).Get q t = some a) ∧
          (forever = false →
            ∀ t, now + minTTL (a.Answer ++ a.Authority ++ a.Additional) now ≤ t →
              (bc.Add q a forever now).Get q t = none ∧
                ∀ p, ((bc.Add q a forever now).fullPrune p).Get q t = none) ∧
          (forever = true →
            ∀ t p, (bc.Add q a forever now).Get q t = some a ∧
              ((bc.Add q a forever now).fullPrune p).Get q t = some a)) := by
  constructor
  · intro h
    unfold BasicCache.Add
    simp only [h, and_self, if_true]
  · intro hkept
    have he := add_kept bc q a forever now hkept
    refine ⟨he, ?_, ?_, ?_⟩
    · intro t hlt
      constructor
      · simp only [BasicCache.Get, he, hlt, or_true, if_true]
      · intro p hp
        have hp2 : p < now + minTTL (a.Answer ++ a.Authority ++ a.Additional) now := by omega
        simp only [BasicCache.Get, BasicCache.fullPrune, he, hlt, hp2, or_true, if_true]
    · intro hf t hge
      subst hf
      have hnlt : ¬ t < now + minTTL (a.Answer ++ a.Authority ++ a.Additional) now := by omega
      constructor
      · simp only [BasicCache.Get, he, Bool.false_eq_true, hnlt, or_self, if_false]
      · intro p
        by_cases hp : p < now + minTTL (a.Answer ++ a.Authority ++ a.Additional) now
        · simp only [BasicCache.Get, BasicCache.fullPrune, he, Bool.false_eq_true, hp,
            or_true, if_true, hnlt, or_self, if_false]
        · simp only [BasicCache.Get, BasicCache.fullPrune, he, Bool.false_eq_true, hp,
            or_self, if_false]
    · intro hf t p
      subst hf
      constructor
      · simp only [BasicCache.Get, he, true_or, if_true]
      · simp only [BasicCache.Get, BasicCache.fullPrune, he, true_or, if_true]

theorem cache_add_get_witness :
    (BasicCache.empty.Add testQuestion (ttlAnswer 0) false 10 = BasicCache.empty) ∧
      ((BasicCache.empty.Add testQuestion (ttlAnswer 5) false 0).Add testQuestion
          (ttlAnswer 2) false 2) testQuestion =
        some { answer := ttlAnswer 2, forever := false, expiresAt := 2 + 2 } ∧
      ((BasicCache.empty.Add testQuestion (ttlAnswer 5) false 0).Get testQuestion 4 =
          some (ttlAnswer 5)) ∧
      ((BasicCache.empty.Add testQuestion (ttlAnswer 5) false 0).fullPrune 30).Get
          testQuestion 30 = none ∧
      ((BasicCache.empty.Add testQuestion (ttlAnswer 5) true 0).fullPrune 30).Get
          testQuestion 30 = some (ttlAnswer 5) :=
  ⟨(cache_add_get BasicCache.empty testQuestion (ttlAnswer 0) false 10).1 (by decide),
    ((cache_add_get (BasicCache.empty.Add testQuestion (ttlAnswer 5) false 0) testQuestion
      (ttlAnswer 2) false 2).2 (by decide)).1,
    (((cache_add_get BasicCache.empty testQuestion (ttlAnswer 5) false 0).2 (by decide)).2.1 4
      (by decide)).1,
    ((((cache_add_get BasicCache.empty testQuestion (ttlAnswer 5) false 0).2
      (by decide)).2.2.1 rfl) 30 (by decide)).2 30,
    ((((cache_add_get BasicCache.empty testQuestion (ttlAnswer 5) true 0).2
      (by decide)).2.2.2 rfl) 30 30).2⟩

end Solvere
